import Mathlib

/-!
Verification development for the WMO-checker repository (two Python source
files: billie_jean.py and wmo_content_reviewer.py).  The Python code is
shallowly embedded: strings are Lean strings (Python code points = Lean
chars for the ASCII inputs considered), Python list/set state is threaded
explicitly, and the specific regular expressions used by the source are
transcribed into a small executable backtracking matcher whose priority
order (leftmost match, alternation left first, greedy longest first, lazy
shortest first) mirrors the Python `re` engine on the constructs the
source uses.  Python `sorted` (a stable sort) is modelled by
`List.insertionSort`, which is stable for a total preorder; stability is
proved where a claim needs it.  Floating point appears in the source only
as `covered/5*100` (exactly representable results) and threshold ratio
tests whose rational counterparts agree except at astronomically large
inputs; those are modelled with exact rational/integer arithmetic, noted
at each site.
-/

set_option maxRecDepth 8000

namespace WMO

/-! ## Python string primitives -/

/-- Python whitespace for `str.split()` / `str.strip()` / regex `\s`
(ASCII range: space, tab, newline, carriage return, vertical tab, form feed). -/
def pyWs (c : Char) : Bool :=
  c == ' ' || c == '\t' || c == '\n' || c == '\r' || c == Char.ofNat 11 || c == Char.ofNat 12

/-- Python `str.lower()` (ASCII letters; the documents considered are ASCII). -/
def pyLower (s : String) : String := ⟨s.data.map Char.toLower⟩

/-- Python slicing `s[:n]` (by code points). -/
def pyTake (s : String) (n : Nat) : String := ⟨s.data.take n⟩

/-- needle `isPreOf` hay : the first list is a prefix of the second. -/
def isPreOf : List Char → List Char → Bool
  | [], _ => true
  | _ :: _, [] => false
  | p :: ps, c :: cs => p == c && isPreOf ps cs

/-- Helper for Python substring membership. -/
def containsSubL (needle : List Char) : List Char → Bool
  | [] => needle.isEmpty
  | c :: t => isPreOf needle (c :: t) || containsSubL needle t

/-- Python `needle in hay` substring test. -/
def containsSub (hay needle : String) : Bool := containsSubL needle.data hay.data

/-- Helper for Python `split` on the newline character. -/
def splitNLAux : List Char → List Char → List String
  | acc, [] => [⟨acc.reverse⟩]
  | acc, c :: t =>
    if c == '\n' then ⟨acc.reverse⟩ :: splitNLAux [] t else splitNLAux (c :: acc) t

/-- Python `content.split(chr(10))` : fields between newlines, keeping
empty fields (the empty string yields one empty field). -/
def pyLines (s : String) : List String := splitNLAux [] s.data

/-- Python `str.strip()` (strip `pyWs` from both ends). -/
def pyStrip (s : String) : String :=
  ⟨((s.data.dropWhile pyWs).reverse.dropWhile pyWs).reverse⟩

/-- Helper for Python `str.split()` with no arguments. -/
def wordsAux : List Char → List Char → List String
  | acc, [] => if acc.isEmpty then [] else [⟨acc.reverse⟩]
  | acc, c :: t =>
    if pyWs c then
      (if acc.isEmpty then wordsAux [] t else ⟨acc.reverse⟩ :: wordsAux [] t)
    else wordsAux (c :: acc) t

/-- Python `str.split()` : maximal non-whitespace runs, no empty fields. -/
def pyWords (s : String) : List String := wordsAux [] s.data

/-- Python `len(s.split())`. -/
def pyWordCount (s : String) : Nat := (pyWords s).length

/-- Count of newline characters among the first `off` characters, plus one:
Python `content[:match.start()].count(chr(10)) + 1`. -/
def lineNumAt (cs : List Char) (off : Nat) : Nat :=
  ((cs.take off).countP (fun c => c == '\n')) + 1

/-- Enumeration with indices starting at `n` (Python `enumerate(xs, n)`). -/
def enumFrom {α : Type} : Nat → List α → List (Nat × α)
  | _, [] => []
  | n, a :: as => (n, a) :: enumFrom (n + 1) as

/-- Python `enumerate(xs, 1)`. -/
def enum1 {α : Type} (l : List α) : List (Nat × α) := enumFrom 1 l

/-- A single-quote character as a string (code point 39). -/
def sq : String := ⟨[Char.ofNat 39]⟩

/-- Wrap a string in single quotes, as the source message templates do. -/
def q (s : String) : String := sq ++ s ++ sq

/-- Python set insertion, modelled on lists (only membership is observed). -/
def pyInsert (a : String) (s : List String) : List String :=
  if s.contains a then s else a :: s

/-! ## A small backtracking regex matcher

Only the constructs appearing in the source regexes are supported.  The
backtracking priority mirrors CPython `re`: sequence left to right,
alternation prefers the left branch, greedy `*`/`?` prefer the longer
alternative first, lazy `*?` prefers the shorter, `search` tries start
positions left to right, and `finditer` resumes after the previous match.
Bounded repetitions `{m,n}` are transcribed as nested greedy options, and
the back-reference in the heading pattern is expanded into a six-way
alternation over the digit it necessarily captures (noted at the site). -/

inductive RE where
  | lit (s : String) (ci : Bool)
  | cls (p : Char → Bool)
  | seq (a b : RE)
  | alt (a b : RE)
  | star (r : RE) (lz : Bool)
  | opt (r : RE) (lz : Bool)
  | grp (n : Nat) (r : RE)
  | wordB
  | lineEnd

/-- Character comparison, optionally case-insensitive (ASCII lowering). -/
def eqCharCI (ci : Bool) (a b : Char) : Bool :=
  if ci then a.toLower == b.toLower else a == b

/-- Literal match of `pat` at the head of `cs`. -/
def litHere (ci : Bool) : List Char → List Char → Bool
  | [], _ => true
  | _ :: _, [] => false
  | p :: ps, c :: cs => eqCharCI ci p c && litHere ci ps cs

/-- Character at index `i`. -/
def charAt (cs : List Char) (i : Nat) : Option Char := (cs.drop i).head?

/-- Regex `\w` (ASCII: letters, digits, underscore). -/
def isWordC (c : Char) : Bool := c.isAlpha || c.isDigit || c == '_'

/-- Whether the character at index `i` is a word character (false out of range). -/
def wordAt (cs : List Char) (i : Nat) : Bool :=
  match charAt cs i with
  | some c => isWordC c
  | none => false

/-- Regex `\b`: word/non-word boundary at position `i`. -/
def boundaryAt (cs : List Char) (i : Nat) : Bool :=
  (if i == 0 then false else wordAt cs (i - 1)) != wordAt cs i

/-- Captures: (group index, start, end), most recent first. -/
abbrev Caps := List (Nat × Nat × Nat)

/-- Lazy disjunction on `Option`. -/
def oOr {α : Type} (a : Option α) (b : Unit → Option α) : Option α :=
  match a with
  | some x => some x
  | none => b ()

/-- Core backtracking matcher in continuation-passing style.  `fuel` only
guarantees termination; it is always instantiated large enough that the
search is exhaustive for the inputs evaluated. -/
def reM (cs : List Char) : Nat → RE → Nat → Caps →
    (Nat → Caps → Option (Nat × Caps)) → Option (Nat × Caps)
  | 0, _, _, _, _ => none
  | fuel + 1, r, pos, caps, k =>
    match r with
    | .lit s ci =>
      if litHere ci s.data (cs.drop pos) then k (pos + s.data.length) caps else none
    | .cls p =>
      match charAt cs pos with
      | some c => if p c then k (pos + 1) caps else none
      | none => none
    | .seq a b => reM cs fuel a pos caps (fun p c => reM cs fuel b p c k)
    | .alt a b =>
      oOr (reM cs fuel a pos caps k) (fun _ => reM cs fuel b pos caps k)
    | .star r lz =>
      if lz then
        oOr (k pos caps) (fun _ =>
          reM cs fuel r pos caps (fun p c =>
            if p == pos then none else reM cs fuel (.star r lz) p c k))
      else
        oOr (reM cs fuel r pos caps (fun p c =>
          if p == pos then none else reM cs fuel (.star r lz) p c k))
          (fun _ => k pos caps)
    | .opt r lz =>
      if lz then oOr (k pos caps) (fun _ => reM cs fuel r pos caps k)
      else oOr (reM cs fuel r pos caps k) (fun _ => k pos caps)
    | .grp n r => reM cs fuel r pos caps (fun p c => k p ((n, pos, p) :: c))
    | .wordB => if boundaryAt cs pos then k pos caps else none
    | .lineEnd =>
      if pos == cs.length || (pos + 1 == cs.length && charAt cs pos == some '\n')
      then k pos caps else none

/-- Fuel that is exhaustive for the patterns used here (at most two
unbounded loops in sequence, so backtracking is polynomial). -/
def reFuel (n : Nat) : Nat := (n + 4) * (n + 4) * (n + 4) * (n + 4) + 1000

/-- One match result: start, end, captures. -/
structure RMatch where
  s : Nat
  e : Nat
  caps : Caps
deriving DecidableEq, Repr

/-- Attempt a match anchored at position `pos`. -/
def reTryAt (r : RE) (cs : List Char) (pos : Nat) : Option (Nat × Caps) :=
  reM cs (reFuel cs.length) r pos [] (fun p c => some (p, c))

/-- Scan start positions left to right (gas bounds the scan). -/
def reSearchAux (r : RE) (cs : List Char) : Nat → Nat → Option RMatch
  | 0, _ => none
  | g + 1, pos =>
    match reTryAt r cs pos with
    | some (e, c) => some ⟨pos, e, c⟩
    | none => if pos < cs.length then reSearchAux r cs g (pos + 1) else none

/-- Python `re.search`. -/
def reSearch (r : RE) (s : String) : Option RMatch :=
  reSearchAux r s.data (s.data.length + 1) 0

/-- Python `re.search` truthiness. -/
def reHas (r : RE) (s : String) : Bool := (reSearch r s).isSome

/-- Python `re.match` (anchored at the start of the string). -/
def reMatch0 (r : RE) (s : String) : Option RMatch :=
  match reTryAt r s.data 0 with
  | some (e, c) => some ⟨0, e, c⟩
  | none => none

/-- Helper for `re.finditer`: repeated search, resuming after each match
(advancing one position past an empty match, as CPython does). -/
def reFindIterAux (r : RE) (cs : List Char) : Nat → Nat → List RMatch
  | 0, _ => []
  | g + 1, pos =>
    if pos > cs.length then []
    else
      match reSearchAux r cs (cs.length + 1 - pos) pos with
      | none => []
      | some m => m :: reFindIterAux r cs g (if m.e > m.s then m.e else m.e + 1)

/-- Python `re.finditer` (list of matches). -/
def reFindIter (r : RE) (s : String) : List RMatch :=
  reFindIterAux r s.data (s.data.length + 2) 0

/-- Text of a match. -/
def matchStr (s : String) (m : RMatch) : String := ⟨(s.data.take m.e).drop m.s⟩

/-- Text of capture group `n` of a match (`None` when the group did not
participate). -/
def capStr (s : String) (m : RMatch) (n : Nat) : Option String :=
  match m.caps.find? (fun t => t.1 == n) with
  | some t => some ⟨(s.data.take t.2.2).drop t.2.1⟩
  | none => none

/-- Pieces of `s` outside the matches `ms` (in order), used for `re.split`
and `re.sub` with empty replacement. -/
def splitPieces (cs : List Char) : Nat → List RMatch → List (List Char)
  | start, [] => [cs.drop start]
  | start, m :: ms => ((cs.take m.s).drop start) :: splitPieces cs m.e ms

/-- Python `re.split(pattern, s)` for the patterns used here (which never
match empty). -/
def reSplit (r : RE) (s : String) : List String :=
  (splitPieces s.data 0 (reFindIter r s)).map (fun p => (⟨p⟩ : String))

/-- Python `re.sub(pattern, empty string, s)`. -/
def reSubEmpty (r : RE) (s : String) : String :=
  String.join ((splitPieces s.data 0 (reFindIter r s)).map (fun p => (⟨p⟩ : String)))

/-! ## Character classes appearing in the source regexes -/

/-- Class `[^>]`. -/
def clsNotGt (c : Char) : Bool := c != '>'

/-- Class `[^<]`. -/
def clsNotLt (c : Char) : Bool := c != '<'

/-- Class `[^*]`. -/
def clsNotStar (c : Char) : Bool := c != '*'

/-- Class for a non-underscore character. -/
def clsNotUnder (c : Char) : Bool := c != '_'

/-- Class for a character other than a closing bracket. -/
def clsNotRBrack (c : Char) : Bool := c != ']'

/-- Class `[^)]`. -/
def clsNotRParen (c : Char) : Bool := c != ')'

/-- Class matching a double or single quote. -/
def clsQuote (c : Char) : Bool := c == Char.ofNat 34 || c == Char.ofNat 39

/-- Class for a character that is neither kind of quote. -/
def clsNotQuote (c : Char) : Bool := !(clsQuote c)

/-- Regex `\s`. -/
def clsWs (c : Char) : Bool := pyWs c

/-- Regex `\d`. -/
def clsDigit (c : Char) : Bool := c.isDigit

/-- Class `[A-Z]`. -/
def clsUpper (c : Char) : Bool := 'A' ≤ c && c ≤ 'Z'

/-- Class `[a-z]`. -/
def clsLower (c : Char) : Bool := 'a' ≤ c && c ≤ 'z'

/-- Regex `.` without DOTALL (anything but newline). -/
def clsDot (c : Char) : Bool := c != '\n'

/-- Regex `.` with DOTALL. -/
def clsAll (_ : Char) : Bool := true

/-- Class `[.!?]`. -/
def clsSentEnd (c : Char) : Bool := c == '.' || c == '!' || c == '?'

/-- Class `[^.!?]`. -/
def clsNotSentEnd (c : Char) : Bool := !(clsSentEnd c)

/-- Class `[.!?,;:]`. -/
def clsPunct (c : Char) : Bool :=
  c == '.' || c == '!' || c == '?' || c == ',' || c == ';' || c == ':'

/-- Regex `\w` as a class. -/
def clsWord (c : Char) : Bool := isWordC c

/-- Class matching a slash or a dash (the date-separator class). -/
def clsSlashDash (c : Char) : Bool := c == '/' || c == '-'

/-- Class `[CFK]` under IGNORECASE. -/
def clsCFKci (c : Char) : Bool :=
  c == 'C' || c == 'F' || c == 'K' || c == 'c' || c == 'f' || c == 'k'

/-! ## Pattern building helpers -/

/-- Case-sensitive literal. -/
def reStr (s : String) : RE := .lit s false

/-- Case-insensitive literal. -/
def reStrCI (s : String) : RE := .lit s true

/-- Sequence of patterns. -/
def rSeq : List RE → RE
  | [] => .lit "" false
  | [r] => r
  | r :: rs => .seq r (rSeq rs)

/-- Alternation of patterns (left first). -/
def rAlts : List RE → RE
  | [] => .lit "" false
  | [r] => r
  | r :: rs => .alt r (rAlts rs)

/-- `r+` (greedy for `lz = false`, lazy for `lz = true`). -/
def rPlus (r : RE) (lz : Bool) : RE := .seq r (.star r lz)

/-- Numeric value of a one-digit string such as the captured heading level. -/
def digitVal (s : String) : Nat :=
  match s.data with
  | [c] => c.toNat - 48
  | _ => 0

/-! ## billie_jean.py : data model -/

/-- `ContentType` enum of billie_jean.py. -/
inductive ContentType where
  | WEB_PAGE
  | NEWS_ARTICLE
  | UNKNOWN
deriving DecidableEq, Repr

/-- `Severity` enum of billie_jean.py. -/
inductive BJSev where
  | CRITICAL
  | ERROR
  | WARNING
  | SUGGESTION
deriving DecidableEq, Repr

/-- `Severity.value` of billie_jean.py (the enum member string). -/
def BJSev.value : BJSev → String
  | .CRITICAL => "CRITICAL"
  | .ERROR => "ERROR"
  | .WARNING => "WARNING"
  | .SUGGESTION => "SUGGESTION"

/-- `ReviewIssue` dataclass of billie_jean.py (field defaults are written
out explicitly at every construction site). -/
structure ReviewIssue where
  category : String
  severity : BJSev
  message : String
  suggestion : String
  line_number : Nat
  context : String
  flagged_text : String
deriving DecidableEq, Repr

/-- `StrategicAlignment` dataclass of billie_jean.py. -/
structure StrategicAlignment where
  earth_system_monitoring : Bool
  early_warnings : Bool
  climate_action : Bool
  capacity_development : Bool
  hydrometeorological_services : Bool
deriving DecidableEq, Repr

/-- Count of `True` flags (the `sum([...])` in `get_coverage`). -/
def StrategicAlignment.covered (sa : StrategicAlignment) : Nat :=
  (cond sa.earth_system_monitoring 1 0) + (cond sa.early_warnings 1 0) +
  (cond sa.climate_action 1 0) + (cond sa.capacity_development 1 0) +
  (cond sa.hydrometeorological_services 1 0)

/-- `get_coverage`: `(covered / total) * 100` with `total = 5`.  The Python
float results (0.0, 20.0, 40.0, 60.0, 80.0, 100.0) are all exact doubles,
so exact rational arithmetic is a faithful model. -/
def StrategicAlignment.get_coverage (sa : StrategicAlignment) : Rat :=
  ((sa.covered : Rat) / 5) * 100

/-- `STRATEGIC_KEYWORDS[earth_system_monitoring]`. -/
def bjKwEarth : List String :=
  ["observation", "monitoring", "data collection", "satellite", "weather station",
   "WIGOS", "Global Observing System", "measurement", "sensor"]

/-- `STRATEGIC_KEYWORDS[early_warnings]`. -/
def bjKwEarly : List String :=
  ["early warning", "forecast", "prediction", "alert", "warning system",
   "preparedness", "risk reduction", "disaster", "severe weather"]

/-- `STRATEGIC_KEYWORDS[climate_action]`. -/
def bjKwClimate : List String :=
  ["climate change", "climate action", "adaptation", "mitigation", "greenhouse gas",
   "Paris Agreement", "UNFCCC", "global warming", "carbon", "climate services"]

/-- `STRATEGIC_KEYWORDS[capacity_development]`. -/
def bjKwCapacity : List String :=
  ["capacity", "training", "education", "knowledge transfer", "technical assistance",
   "development", "partnership", "cooperation", "support"]

/-- `STRATEGIC_KEYWORDS[hydrometeorological_services]`. -/
def bjKwHydro : List String :=
  ["water", "hydrology", "flood", "drought", "water resources", "precipitation",
   "river", "hydrological", "water management", "NMHS"]

/-- All strategic keywords, in dictionary order. -/
def bjAllKeywords : List String :=
  bjKwEarth ++ bjKwEarly ++ bjKwClimate ++ bjKwCapacity ++ bjKwHydro

/-- `keyword.lower() in content_lower` for one keyword. -/
def kwHit (content kw : String) : Bool := containsSub (pyLower content) (pyLower kw)

/-- The flag assignment of `check_strategic_alignment` (the `break` on the
first matching keyword is equivalent to `any`). -/
def bjStrategicFlags (content : String) : StrategicAlignment :=
  { earth_system_monitoring := bjKwEarth.any (kwHit content)
    early_warnings := bjKwEarly.any (kwHit content)
    climate_action := bjKwClimate.any (kwHit content)
    capacity_development := bjKwCapacity.any (kwHit content)
    hydrometeorological_services := bjKwHydro.any (kwHit content) }

/-- The single CRITICAL issue of `check_strategic_alignment`. -/
def bjStrategicIssue : ReviewIssue :=
  { category := "Strategic Alignment", severity := .CRITICAL,
    message := "Content shows minimal alignment with WMO strategic priorities",
    suggestion := "Consider explicitly connecting content to WMO" ++ sq ++
      "s mission: Earth system monitoring, early warnings, climate action, capacity development, or hydrometeorological services",
    line_number := 0, context := "", flagged_text := "" }

/-- `check_strategic_alignment` issue output. -/
def bjCheckStrategic (content : String) : List ReviewIssue :=
  if (bjStrategicFlags content).get_coverage < 20 then [bjStrategicIssue] else []

/-! ## billie_jean.py : check_style_guide_compliance -/

/-- The lowercase organization phrase. -/
def bjWmoPhrase : String := "world meteorological organization"

/-- `_extract_phrase` (the phrase contains no regex metacharacters, so the
`re.search` is a case-insensitive literal search). -/
def extractPhrase (line phrase : String) : String :=
  match reSearch (reStrCI phrase) line with
  | some m => matchStr line m
  | none => phrase

/-- The capitalization issue of `check_style_guide_compliance`. -/
def bjWmoCapIssues (i : Nat) (line : String) : List ReviewIssue :=
  if containsSub (pyLower line) bjWmoPhrase &&
     !(containsSub line "World Meteorological Organization") then
    [{ category := "Style Guide", severity := .ERROR,
       message := q "World Meteorological Organization" ++ " must be properly capitalized",
       suggestion := "Use " ++ q "World Meteorological Organization" ++ " with capital letters",
       line_number := i, context := "", flagged_text := extractPhrase line bjWmoPhrase }]
  else []

/-- Pattern `[.!?]+` used by `re.split`. -/
def sentSplitRE : RE := rPlus (.cls clsSentEnd) false

/-- The long-sentence issues of `check_style_guide_compliance`. -/
def bjLongSentenceIssues (i : Nat) (line : String) : List ReviewIssue :=
  (reSplit sentSplitRE line).flatMap (fun sentence =>
    if (pyStrip sentence).data.isEmpty then []
    else
      let wc := pyWordCount sentence
      if 30 < wc then
        [{ category := "Style Guide - Clarity", severity := .WARNING,
           message := "Sentence is too long for web content (" ++ toString wc ++ " words)",
           suggestion := "Break into shorter sentences (aim for 20-25 words max) for better web readability",
           line_number := i, context := pyTake (pyStrip sentence) 100, flagged_text := "" }]
      else [])

/-- The passive-voice phrases, in source order. -/
def bjPassiveList : List String :=
  ["is being", "was being", "has been", "have been", "had been"]

/-- Pattern of a passive-voice phrase with word boundaries, IGNORECASE. -/
def passiveRE (phrase : String) : RE := rSeq [.wordB, reStrCI phrase, .wordB]

/-- The passive-voice issues (`break` after the first matching phrase). -/
def bjPassiveIssues (i : Nat) (line : String) : List ReviewIssue :=
  match bjPassiveList.find? (fun ph => reHas (passiveRE ph) line) with
  | some ph =>
    [{ category := "Style Guide - Voice", severity := .SUGGESTION,
       message := "Passive voice detected",
       suggestion := "Consider using active voice for more direct, engaging communication",
       line_number := i, context := "", flagged_text := ph }]
  | none => []

/-- The informal abbreviation table `(abbrev, full)`, in source order. -/
def bjInformalList : List (String × String) :=
  [("temp", "temperature"), ("max", "maximum"), ("min", "minimum"), ("info", "information")]

/-- Pattern for an informal abbreviation with word boundaries (searched on
the lowered line, so a case-sensitive literal suffices). -/
def informalRE (a : String) : RE := rSeq [.wordB, reStr a, .wordB]

/-- The informal-abbreviation issues (one `re.search` per abbreviation per
line, so at most one issue per abbreviation per line). -/
def bjInformalIssues (i : Nat) (line : String) : List ReviewIssue :=
  bjInformalList.flatMap (fun af =>
    if reHas (informalRE af.1) (pyLower line) then
      [{ category := "Style Guide - Abbreviations", severity := .ERROR,
         message := "Avoid informal abbreviation " ++ q af.1 ++ " in formal content",
         suggestion := "Use " ++ q af.2 ++ " instead",
         line_number := i, context := "", flagged_text := af.1 }]
    else [])

/-- The italics pattern (no IGNORECASE flag in the source). -/
def italicsRE : RE :=
  rAlts [rSeq [reStr "*", rPlus (.cls clsNotStar) false, reStr "*"],
         rSeq [reStr "_", rPlus (.cls clsNotUnder) false, reStr "_"],
         reStr "<em>", reStr "<i>"]

/-- The italics issues of `check_style_guide_compliance`. -/
def bjItalicsIssues (i : Nat) (line : String) : List ReviewIssue :=
  if reHas italicsRE line then
    [{ category := "Style Guide - Formatting", severity := .WARNING,
       message := "Possible use of italics detected",
       suggestion := "Italics should only be used for publication titles, Latin names, etc., not for emphasis in web content",
       line_number := i, context := "", flagged_text := "" }]
  else []

/-- One line of `check_style_guide_compliance`, sub-checks in source order. -/
def bjStyleLine (i : Nat) (line : String) : List ReviewIssue :=
  bjWmoCapIssues i line ++ bjLongSentenceIssues i line ++ bjPassiveIssues i line ++
  bjInformalIssues i line ++ bjItalicsIssues i line

/-- `check_style_guide_compliance`. -/
def bjCheckStyle (lines : List String) : List ReviewIssue :=
  (enum1 lines).flatMap (fun il => bjStyleLine il.1 il.2)

/-! ## billie_jean.py : check_accessibility_wcag -/

/-- Pattern `<img[^>]+>`, IGNORECASE. -/
def bjImgRE : RE := rSeq [reStrCI "<img", rPlus (.cls clsNotGt) false, reStr ">"]

/-- The empty-alt pattern (case-sensitive `re.search` on the tag text). -/
def emptyAltRE : RE :=
  rSeq [reStr "alt=", .cls clsQuote, .star (.cls clsWs) false, .cls clsQuote]

/-- The image issues of `check_accessibility_wcag`. -/
def bjImgIssues (content : String) : List ReviewIssue :=
  (reFindIter bjImgRE content).flatMap (fun m =>
    let tag := matchStr content m
    let ln := lineNumAt content.data m.s
    if !(containsSub (pyLower tag) "alt=") then
      [{ category := "Accessibility (WCAG 2.1)", severity := .CRITICAL,
         message := "Image missing alt text (WCAG 2.1 Level A requirement)",
         suggestion := "Add descriptive alt text: alt=" ++ sq ++
           "[description of image content and function]" ++ sq,
         line_number := ln, context := "", flagged_text := pyTake tag 80 }]
    else if reHas emptyAltRE tag then
      [{ category := "Accessibility (WCAG 2.1)", severity := .WARNING,
         message := "Image has empty alt text",
         suggestion := "If decorative, use alt=" ++ sq ++ sq ++
           ". If meaningful, provide descriptive text",
         line_number := ln, context := "", flagged_text := "" }]
    else [])

/-- Greedy repetition of one to six hash marks, longest first, matching the
backtracking order of the bounded repetition in the markdown pattern. -/
def mdHashes : RE :=
  .seq (reStr "#") (.opt (.seq (reStr "#") (.opt (.seq (reStr "#")
    (.opt (.seq (reStr "#") (.opt (.seq (reStr "#") (.opt (reStr "#") false))
    false)) false)) false)) false)

/-- The markdown heading pattern used with `re.match` (the leading anchor
is realized by the anchored match, the dollar by `lineEnd`). -/
def mdHeadingRE : RE :=
  rSeq [.grp 1 mdHashes, rPlus (.cls clsWs) false, .grp 2 (rPlus (.cls clsDot) false), .lineEnd]

/-- Level and text of a markdown heading match on one line. -/
def mdHeadingOf (line : String) : Option (Nat × String) :=
  match reMatch0 mdHeadingRE line with
  | some m =>
    match capStr line m 1, capStr line m 2 with
    | some g1, some g2 => some (g1.data.length, g2)
    | _, _ => none
  | none => none

/-- One alternative of the HTML heading pattern for a fixed digit (the
back-reference of the source pattern necessarily repeats the captured
digit, so the pattern is expanded into a six-way alternation). -/
def htmlHeadingREd (d : Nat) : RE :=
  rSeq [reStrCI "<h", .grp 1 (reStr (toString d)), .star (.cls clsNotGt) false,
        reStr ">", .grp 2 (.star (.cls clsDot) true), reStrCI ("</h" ++ toString d ++ ">")]

/-- The HTML heading pattern, IGNORECASE, searched per line. -/
def htmlHeadingRE : RE := rAlts ((List.range 6).map (fun k => htmlHeadingREd (k + 1)))

/-- Pattern of a tag, used by the `re.sub` stripping tags from heading text. -/
def stripTagRE : RE := rSeq [reStr "<", rPlus (.cls clsNotGt) false, reStr ">"]

/-- `re.sub` of tags with the empty string. -/
def stripTags (s : String) : String := reSubEmpty stripTagRE s

/-- Headings collected from one line: the markdown match first, then the
HTML matches, as in the source. -/
def bjLineHeadings (i : Nat) (line : String) : List (Nat × Nat × String) :=
  (match mdHeadingOf line with
   | some lt => [(i, lt.1, lt.2)]
   | none => []) ++
  (reFindIter htmlHeadingRE line).flatMap (fun m =>
    match capStr line m 1, capStr line m 2 with
    | some d, some txt => [(i, digitVal d, stripTags txt)]
    | _, _ => [])

/-- The heading list of `check_accessibility_wcag` ((line, level, text)). -/
def bjHeadings (content : String) : List (Nat × Nat × String) :=
  (enum1 (pyLines content)).flatMap (fun il => bjLineHeadings il.1 il.2)

/-- The missing-H1 ERROR of `check_accessibility_wcag`. -/
def bjStartIssue (l : Nat) : ReviewIssue :=
  { category := "Accessibility (WCAG 2.1)", severity := .ERROR,
    message := "Document should start with H1 heading",
    suggestion := "Use H1 for main title, then H2 for sections, H3 for subsections",
    line_number := l, context := "", flagged_text := "" }

/-- The missing-H1 issue (fires when headings exist and the first is not level 1). -/
def bjStartHeadingIssues (hs : List (Nat × Nat × String)) : List ReviewIssue :=
  match hs with
  | [] => []
  | h :: _ => if h.2.1 != 1 then [bjStartIssue h.1] else []

/-- One hierarchy-skip issue of `check_accessibility_wcag`. -/
def bjSkipIssue (p c l : Nat) : ReviewIssue :=
  { category := "Accessibility (WCAG 2.1)", severity := .ERROR,
    message := "Heading hierarchy skip: H" ++ toString p ++ " to H" ++ toString c,
    suggestion := "Maintain sequential heading levels for screen reader users",
    line_number := l, context := "", flagged_text := "" }

/-- The hierarchy-skip issues over consecutive heading pairs. -/
def bjSkipIssues (hs : List (Nat × Nat × String)) : List ReviewIssue :=
  (hs.zip hs.tail).flatMap (fun pc =>
    if pc.2.2.1 > pc.1.2.1 + 1 then [bjSkipIssue pc.1.2.1 pc.2.2.1 pc.2.1] else [])

/-- The generic link texts of `check_accessibility_wcag`. -/
def bjGenericTexts : List String := ["click here", "read more", "here", "this link", "link"]

/-- The link-text pattern (HTML anchor alternative, then markdown
alternative), IGNORECASE. -/
def bjLinkTextRE : RE :=
  .alt (rSeq [reStrCI "<a", .star (.cls clsNotGt) false, reStr ">",
              .grp 1 (rPlus (.cls clsNotLt) false), reStrCI "</a>"])
       (rSeq [reStr "[", .grp 2 (rPlus (.cls clsNotRBrack) false), reStr "]",
              reStr "(", rPlus (.cls clsNotRParen) false, reStr ")"])

/-- The generic-link-text issues of `check_accessibility_wcag`. -/
def bjGenericLinkIssues (content : String) : List ReviewIssue :=
  (reFindIter bjLinkTextRE content).flatMap (fun m =>
    let t := pyLower (pyStrip ((capStr content m 1).getD ((capStr content m 2).getD "")))
    if bjGenericTexts.contains t then
      [{ category := "Accessibility (WCAG 2.1)", severity := .ERROR,
         message := "Generic link text: " ++ q t,
         suggestion := "Use descriptive link text that makes sense out of context (e.g., " ++
           q "WMO Climate Report 2025" ++ " instead of " ++ q "click here" ++ ")",
         line_number := lineNumAt content.data m.s, context := "", flagged_text := t }]
    else [])

/-- `check_accessibility_wcag`, sub-checks in source order. -/
def bjCheckAccessibility (content : String) : List ReviewIssue :=
  bjImgIssues content ++ bjStartHeadingIssues (bjHeadings content) ++
  bjSkipIssues (bjHeadings content) ++ bjGenericLinkIssues content

/-! ## billie_jean.py : check_readability -/

/-- Count of sentences with nonempty strip after the `[.!?]+` split. -/
def sentenceCount (s : String) : Nat :=
  ((reSplit sentSplitRE s).filter (fun x => !(pyStrip x).data.isEmpty)).length

/-- Nearest integer to `num * 10 / den`, ties to even, for the one-decimal
float format of the average-length message (the Python `.1f` format of the
double quotient agrees at all realistic sizes). -/
def round1 (num den : Nat) : Nat :=
  let x := num * 10
  let qt := x / den
  let r := x % den
  if 2 * r > den then qt + 1
  else if 2 * r < den then qt
  else if qt % 2 == 0 then qt else qt + 1

/-- One-decimal rendering of `num / den`. -/
def fmt1 (num den : Nat) : String :=
  toString (round1 num den / 10) ++ "." ++ toString (round1 num den % 10)

/-- The average-sentence-length issue of `check_readability` (the float
comparison `avg > 25` holds exactly when `total > 25 * count`). -/
def bjAvgIssues (content : String) : List ReviewIssue :=
  let tw := pyWordCount content
  let sc := sentenceCount content
  if sc > 0 then
    if tw > 25 * sc then
      [{ category := "Readability", severity := .WARNING,
         message := "Average sentence length is high (" ++ fmt1 tw sc ++ " words)",
         suggestion := "Aim for average of 15-20 words per sentence for web content",
         line_number := 0, context := "", flagged_text := "" }]
    else []
  else []

/-- The jargon terms of `check_readability`, in source order. -/
def bjJargonTerms : List String :=
  ["synoptic", "baroclinic", "geopotential", "meridional", "zonal",
   "advection", "adiabatic", "convection", "parameterization"]

/-- The explained-nearby pattern for one term, IGNORECASE. -/
def jargonExplRE (term : String) : RE :=
  rSeq [reStrCI term, .star (.cls clsNotSentEnd) true,
        rAlts [reStrCI "is", reStrCI "means", reStrCI "refers to", reStrCI "defined as"]]

/-- The jargon issues of `check_readability`. -/
def bjJargonIssues (content : String) : List ReviewIssue :=
  bjJargonTerms.flatMap (fun term =>
    if containsSub (pyLower content) term then
      if !(reHas (jargonExplRE term) (pyLower content)) then
        [{ category := "Readability - Jargon", severity := .WARNING,
           message := "Technical term " ++ q term ++ " may need explanation",
           suggestion := "Consider adding a brief explanation for general audiences or linking to a glossary",
           line_number := 0, context := "", flagged_text := term }]
      else []
    else [])

/-- `check_readability`. -/
def bjCheckReadability (content : String) : List ReviewIssue :=
  bjAvgIssues content ++ bjJargonIssues content

/-! ## billie_jean.py : check_terminology -/

/-- The terminology guide `(term, preferred, reason)`, in source order. -/
def bjTerminologyGuide : List (String × String × String) :=
  [("global warming", "climate change",
    "WMO prefers \"climate change\" for broader scientific accuracy"),
   ("weather prediction", "weather forecast",
    "Use \"forecast\" as the standard meteorological term"),
   ("rainfall", "precipitation",
    "Use \"precipitation\" for accuracy (includes rain, snow, etc.) unless specifically rain")]

/-- One line of `check_terminology`. -/
def bjTerminologyLine (i : Nat) (line : String) : List ReviewIssue :=
  bjTerminologyGuide.flatMap (fun t =>
    if containsSub (pyLower line) t.1 then
      [{ category := "Terminology", severity := .SUGGESTION,
         message := "Consider terminology: " ++ q t.1,
         suggestion := "WMO prefers " ++ q t.2.1 ++ ". " ++ t.2.2,
         line_number := i, context := "", flagged_text := t.1 }]
    else [])

/-- `check_terminology`. -/
def bjCheckTerminology (lines : List String) : List ReviewIssue :=
  (enum1 lines).flatMap (fun il => bjTerminologyLine il.1 il.2)

/-! ## billie_jean.py : check_abbreviations -/

/-- `WMO_ABBREVIATIONS`, in insertion order. -/
def bjAbbrevs : List (String × String) :=
  [("WMO", "World Meteorological Organization"),
   ("GCOS", "Global Climate Observing System"),
   ("WIGOS", "WMO Integrated Global Observing System"),
   ("WIS", "WMO Information System"),
   ("GAW", "Global Atmosphere Watch"),
   ("GDPFS", "Global Data-Processing and Forecasting System"),
   ("IPCC", "Intergovernmental Panel on Climate Change"),
   ("UNFCCC", "United Nations Framework Convention on Climate Change"),
   ("GHG", "Greenhouse Gas"),
   ("NMHS", "National Meteorological and Hydrological Services"),
   ("AMDAR", "Aircraft Meteorological Data Relay"),
   ("GTS", "Global Telecommunication System")]

/-- First defining pattern `ABBR \s* ( [^)]* full [^)]* )`, IGNORECASE
(the abbreviation is alphanumeric, the full form is escaped in source). -/
def bjDefRE1 (a full : String) : RE :=
  rSeq [reStrCI a, .star (.cls clsWs) false, reStr "(", .star (.cls clsNotRParen) false,
        reStrCI full, .star (.cls clsNotRParen) false, reStr ")"]

/-- Second defining pattern `full \s* ( ABBR )`, IGNORECASE. -/
def bjDefRE2 (a full : String) : RE :=
  rSeq [reStrCI full, .star (.cls clsWs) false, reStr "(", reStrCI a, reStr ")"]

/-- `is_defined`: either defining pattern matches the line. -/
def bjDefined (a full line : String) : Bool :=
  reHas (bjDefRE1 a full) line || reHas (bjDefRE2 a full) line

/-- The not-defined-on-first-use WARNING for one abbreviation. -/
def bjAbbrevWarnIssue (a full : String) (i : Nat) : ReviewIssue :=
  { category := "Style Guide - Abbreviations", severity := .WARNING,
    message := "Abbreviation " ++ q a ++ " not defined on first use",
    suggestion := "Define as: " ++ full ++ " (" ++ a ++ ")",
    line_number := i, context := "", flagged_text := a }

/-- One line of `check_abbreviations`: iterate the abbreviation table,
threading the `defined_abbreviations` set and collecting issues in order. -/
def bjAbbrevLineGo (i : Nat) (line : String) :
    List (String × String) → List String → List String × List ReviewIssue
  | [], d => (d, [])
  | af :: rest, d =>
    if containsSub line af.1 then
      if bjDefined af.1 af.2 line then bjAbbrevLineGo i line rest (pyInsert af.1 d)
      else if !(d.contains af.1) && af.1 != "WMO" then
        let out := bjAbbrevLineGo i line rest (pyInsert af.1 d)
        (out.1, bjAbbrevWarnIssue af.1 af.2 i :: out.2)
      else bjAbbrevLineGo i line rest d
    else bjAbbrevLineGo i line rest d

/-- All lines of `check_abbreviations`, threading the set across lines;
returns the final set and the issues. -/
def bjAbbrevGo : List (Nat × String) → List String → List String × List ReviewIssue
  | [], d => (d, [])
  | il :: rest, d =>
    let st := bjAbbrevLineGo il.1 il.2 bjAbbrevs d
    let out := bjAbbrevGo rest st.1
    (out.1, st.2 ++ out.2)

/-- `check_abbreviations`. -/
def bjCheckAbbreviations (lines : List String) : List ReviewIssue :=
  (bjAbbrevGo (enum1 lines) []).2

/-! ## billie_jean.py : check_news_article_standards -/

/-- Pattern of a level-one markdown heading used with `re.match`. -/
def h1mdRE : RE :=
  rSeq [reStr "#", rPlus (.cls clsWs) false, .grp 1 (rPlus (.cls clsDot) false), .lineEnd]

/-- Pattern of an H1 HTML heading, IGNORECASE. -/
def h1htmlRE : RE :=
  rSeq [reStrCI "<h1", .star (.cls clsNotGt) false, reStr ">",
        .grp 1 (rPlus (.cls clsDot) true), reStrCI "</h1>"]

/-- Pattern of a capitalized word with boundaries. -/
def capWordRE : RE := rSeq [.wordB, .cls clsUpper, .star (.cls clsLower) false, .wordB]

/-- The first heading line of `check_news_article_standards`. -/
def bjFirstHeading (lines : List (Nat × String)) : Option (Nat × String) :=
  lines.find? (fun il => (reMatch0 h1mdRE il.2).isSome || reHas h1htmlRE il.2)

/-- The title-case issue (the float test `len(words) > len(split) * 0.5`
holds exactly when `2 * words > len(split)`). -/
def bjTitleCaseIssues (lines : List (Nat × String)) : List ReviewIssue :=
  match bjFirstHeading lines with
  | none => []
  | some il =>
    let words := (reFindIter capWordRE il.2).length
    if 2 * words > (pyWords il.2).length then
      [{ category := "News Article Standards", severity := .WARNING,
         message := "Title appears to use title case",
         suggestion := "News articles should use sentence case: " ++
           q "New climate report shows..." ++ " not " ++ q "New Climate Report Shows...",
         line_number := il.1, context := "", flagged_text := "" }]
    else []

/-- The first-paragraph selection of `check_news_article_standards`. -/
def bjFirstParagraph (lines : List String) : Option String :=
  (lines.take 20).find? (fun line =>
    !(pyStrip line).data.isEmpty && !(isPreOf "#".data (pyStrip line).data) &&
    !(isPreOf "<".data (pyStrip line).data) && 10 < (pyWords line).length)

/-- Pattern of a four-digit year with boundaries. -/
def year4RE : RE :=
  rSeq [.wordB, .cls clsDigit, .cls clsDigit, .cls clsDigit, .cls clsDigit, .wordB]

/-- A case-insensitive word with boundaries. -/
def wbCI (s : String) : RE := rSeq [.wordB, reStrCI s, .wordB]

/-- The engaging-opening issue of `check_news_article_standards`. -/
def bjOpeningIssues (lines : List String) : List ReviewIssue :=
  match bjFirstParagraph lines with
  | none => []
  | some fp =>
    let hasWhat := (["announce", "reveal", "show", "report", "find"] : List String).any
      (fun w => containsSub (pyLower fp) w)
    let hasWhen := reHas year4RE fp || reHas (wbCI "today") fp ||
      reHas (wbCI "yesterday") fp || reHas (wbCI "this week") fp
    if !(hasWhat || hasWhen) then
      [{ category := "News Article Standards - Storytelling", severity := .SUGGESTION,
         message := "Opening paragraph could be more engaging",
         suggestion := "Lead with the news value: What happened? When? Why does it matter? Hook readers immediately",
         line_number := 0, context := "", flagged_text := "" }]
    else []

/-- The article-length issue of `check_news_article_standards`. -/
def bjLengthIssues (content : String) : List ReviewIssue :=
  let wc := pyWordCount content
  if wc > 800 then
    [{ category := "News Article Standards", severity := .SUGGESTION,
       message := "Article is lengthy (" ++ toString wc ++ " words)",
       suggestion := "Web news articles are most effective at 400-600 words. Consider breaking into multiple articles or adding subheadings",
       line_number := 0, context := "", flagged_text := "" }]
  else []

/-- `check_news_article_standards`. -/
def bjCheckNews (content : String) (lines : List String) : List ReviewIssue :=
  bjTitleCaseIssues (enum1 lines) ++ bjOpeningIssues lines ++ bjLengthIssues content

/-! ## billie_jean.py : check_seo -/

/-- The meta-description presence pattern, IGNORECASE. -/
def metaDescRE : RE :=
  rSeq [reStrCI "<meta", rPlus (.cls clsWs) false, reStrCI "name=", .cls clsQuote,
        reStrCI "description", .cls clsQuote]

/-- The meta-description content pattern, IGNORECASE. -/
def metaDescContentRE : RE :=
  rSeq [reStrCI "<meta", rPlus (.cls clsWs) false, reStrCI "name=", .cls clsQuote,
        reStrCI "description", .cls clsQuote, rPlus (.cls clsWs) false, reStrCI "content=",
        .cls clsQuote, .grp 1 (.star (.cls clsNotQuote) false), .cls clsQuote]

/-- `check_seo`. -/
def bjCheckSeo (content : String) : List ReviewIssue :=
  let hasMeta := reHas metaDescRE content
  (if containsSub (pyLower content) "<meta" && !hasMeta then
    [{ category := "SEO", severity := .WARNING,
       message := "Missing meta description",
       suggestion := "Add meta description (150-160 characters) to improve search visibility",
       line_number := 0, context := "", flagged_text := "" }]
   else []) ++
  (if hasMeta then
    match reSearch metaDescContentRE content with
    | some m =>
      let n := ((capStr content m 1).getD "").data.length
      if n < 120 then
        [{ category := "SEO", severity := .SUGGESTION,
           message := "Meta description is short (" ++ toString n ++ " characters)",
           suggestion := "Aim for 150-160 characters for optimal search result display",
           line_number := 0, context := "", flagged_text := "" }]
      else if n > 160 then
        [{ category := "SEO", severity := .WARNING,
           message := "Meta description is too long (" ++ toString n ++ " characters)",
           suggestion := "Keep under 160 characters to avoid truncation in search results",
           line_number := 0, context := "", flagged_text := "" }]
      else []
    | none => []
   else [])

/-! ## billie_jean.py : check_target_audience -/

/-- The technical-term density pattern (searched on the lowered content,
no flags in source). -/
def techDensityRE : RE :=
  rSeq [.wordB, rAlts [reStr "parameter", reStr "algorithm", reStr "methodology",
        reStr "analysis", reStr "data", reStr "system"], .wordB]

/-- The audience indicator words. -/
def bjAudienceIndicators : List String :=
  ["public", "everyone", "people", "communities", "citizens"]

/-- `check_target_audience` (the float test `density / total > 0.05` holds
exactly when `20 * density > total` at all realistic sizes). -/
def bjCheckTargetAudience (content : String) : List ReviewIssue :=
  let cl := pyLower content
  let density := (reFindIter techDensityRE cl).length
  let tw := pyWordCount content
  if tw > 0 && 20 * density > tw then
    if !(bjAudienceIndicators.any (fun ind => containsSub cl ind)) then
      [{ category := "Target Audience", severity := .WARNING,
         message := "Content appears highly technical",
         suggestion := "WMO content serves diverse audiences (public, policymakers, journalists, scientists). Consider adding context or explanations for general readers",
         line_number := 0, context := "", flagged_text := "" }]
    else []
  else []

/-! ## billie_jean.py : check_formatting -/

/-- The missing-space-after-punctuation pattern. -/
def punctCapRE : RE := rSeq [.cls clsWord, .cls clsPunct, .cls clsUpper]

/-- One line of `check_formatting`. -/
def bjFormattingLine (i : Nat) (line : String) : List ReviewIssue :=
  (if containsSub line "  " then
    [{ category := "Formatting", severity := .ERROR,
       message := "Multiple consecutive spaces found",
       suggestion := "Use single spaces between words",
       line_number := i, context := "", flagged_text := "" }]
   else []) ++
  (if reHas punctCapRE line then
    [{ category := "Formatting", severity := .ERROR,
       message := "Missing space after punctuation",
       suggestion := "Add space after punctuation marks",
       line_number := i, context := "", flagged_text := "" }]
   else [])

/-- `check_formatting`. -/
def bjCheckFormatting (lines : List String) : List ReviewIssue :=
  (enum1 lines).flatMap (fun il => bjFormattingLine il.1 il.2)

/-! ## billie_jean.py : check_links_and_references -/

/-- The HTML href pattern, IGNORECASE: `<a`, whitespace, an optional lazy
attribute run ending in whitespace, `href=`, a quote, the captured
non-quote run, a quote. -/
def hrefRE : RE :=
  rSeq [reStrCI "<a", rPlus (.cls clsWs) false,
        .opt (rSeq [.star (.cls clsNotGt) true, rPlus (.cls clsWs) false]) false,
        reStrCI "href=", .cls clsQuote, .grp 1 (.star (.cls clsNotQuote) false), .cls clsQuote]

/-- The markdown link pattern. -/
def mdLinkRE : RE :=
  rSeq [reStr "[", .grp 1 (rPlus (.cls clsNotRBrack) false), reStr "]",
        reStr "(", .grp 2 (rPlus (.cls clsNotRParen) false), reStr ")"]

/-- The HTML link issues of `check_links_and_references`. -/
def bjHtmlLinkIssues (content : String) : List ReviewIssue :=
  (reFindIter hrefRE content).flatMap (fun m =>
    let url := (capStr content m 1).getD ""
    let ln := lineNumAt content.data m.s
    if url.data.isEmpty || url == "#" then
      [{ category := "Links", severity := .ERROR,
         message := "Empty or placeholder link",
         suggestion := "Provide valid URL or remove link",
         line_number := ln, context := "", flagged_text := "" }]
    else if isPreOf "http://".data url.data && !(containsSub url "localhost") then
      [{ category := "Links", severity := .WARNING,
         message := "Link uses HTTP instead of HTTPS",
         suggestion := "Use HTTPS for security and SEO",
         line_number := ln, context := "", flagged_text := url }]
    else [])

/-- The markdown link issues of `check_links_and_references`. -/
def bjMdLinkIssues (content : String) : List ReviewIssue :=
  (reFindIter mdLinkRE content).flatMap (fun m =>
    let url := (capStr content m 2).getD ""
    if url.data.isEmpty || url == "#" then
      [{ category := "Links", severity := .ERROR,
         message := "Empty or placeholder link",
         suggestion := "Provide valid URL or remove link",
         line_number := lineNumAt content.data m.s, context := "", flagged_text := "" }]
    else [])

/-- `check_links_and_references`. -/
def bjCheckLinks (content : String) : List ReviewIssue :=
  bjHtmlLinkIssues content ++ bjMdLinkIssues content

/-! ## billie_jean.py : review -/

/-- The issues appended by `review`, in the order the checks run (the
news-standards check only for `NEWS_ARTICLE`). -/
def bjRawIssues (ct : ContentType) (content : String) : List ReviewIssue :=
  bjCheckStrategic content ++ bjCheckStyle (pyLines content) ++
  bjCheckAccessibility content ++ bjCheckReadability content ++
  bjCheckTerminology (pyLines content) ++ bjCheckAbbreviations (pyLines content) ++
  (if ct == ContentType.NEWS_ARTICLE then bjCheckNews content (pyLines content) else []) ++
  bjCheckSeo content ++ bjCheckTargetAudience content ++
  bjCheckFormatting (pyLines content) ++ bjCheckLinks content

/-- Strict lexicographic order on character lists (Python string `<`
compares code points). -/
def strLtL : List Char → List Char → Bool
  | [], [] => false
  | [], _ :: _ => true
  | _ :: _, [] => false
  | a :: as, b :: bs => if a == b then strLtL as bs else decide (a < b)

/-- Strict lexicographic order on strings. -/
def strLtB (a b : String) : Bool := strLtL a.data b.data

/-- The sort key comparison of `sorted(self.issues, key=(severity.value,
line_number))`: lexicographic on the pair of the severity value string and
the line number. -/
def bjLE (x y : ReviewIssue) : Bool :=
  strLtB x.severity.value y.severity.value ||
  (x.severity.value == y.severity.value && decide (x.line_number ≤ y.line_number))

/-- The sort relation as a proposition. -/
def bjRel (x y : ReviewIssue) : Prop := bjLE x y = true

instance : DecidableRel bjRel := fun _ _ => instDecidableEqBool _ _

/-- `review`: Python `sorted` is a stable sort; `List.insertionSort` over
the same total preorder is also stable, and a stable sort is unique, so
the two agree. -/
def bjReview (ct : ContentType) (content : String) :
    List ReviewIssue × StrategicAlignment :=
  (List.insertionSort bjRel (bjRawIssues ct content), bjStrategicFlags content)

/-- The mutable state of a `BillieJean` object. -/
structure BJState where
  content_type : ContentType
  issues : List ReviewIssue
  content : String
  content_lines : List String
  strategic_alignment : StrategicAlignment
  defined_abbreviations : List String
deriving Repr

/-- `BillieJean.__init__`. -/
def bjInit (ct : ContentType) : BJState :=
  { content_type := ct, issues := [], content := "", content_lines := [],
    strategic_alignment := ⟨false, false, false, false, false⟩,
    defined_abbreviations := [] }

/-- `review` as a state transition: the method first overwrites `content`,
`content_lines`, `issues`, `strategic_alignment` and
`defined_abbreviations` with fresh values, then runs the checks (which
read only those fresh values), so the returned value is a function of the
argument and the untouched `content_type` alone. -/
def bjReviewS (st : BJState) (content : String) :
    BJState × (List ReviewIssue × StrategicAlignment) :=
  let lines := pyLines content
  let raw := bjRawIssues st.content_type content
  let sa := bjStrategicFlags content
  ({ content_type := st.content_type, issues := raw, content := content,
     content_lines := lines, strategic_alignment := sa,
     defined_abbreviations := (bjAbbrevGo (enum1 lines) []).1 },
   (List.insertionSort bjRel raw, sa))

/-- The severity filter of `main` in billie_jean.py. -/
def bjFilterBySeverity (issues : List ReviewIssue) (S : List String) : List ReviewIssue :=
  issues.filter (fun i => S.contains i.severity.value)

/-! ## wmo_content_reviewer.py : data model -/

/-- `Severity` enum of wmo_content_reviewer.py. -/
inductive WSev where
  | ERROR
  | WARNING
  | INFO
  | SUGGESTION
deriving DecidableEq, Repr

/-- `Severity.value` of wmo_content_reviewer.py. -/
def WSev.value : WSev → String
  | .ERROR => "ERROR"
  | .WARNING => "WARNING"
  | .INFO => "INFO"
  | .SUGGESTION => "SUGGESTION"

/-- `Issue` dataclass of wmo_content_reviewer.py. -/
structure WIssue where
  category : String
  severity : WSev
  message : String
  line_number : Nat
  context : String
deriving DecidableEq, Repr

/-! ## wmo_content_reviewer.py : check_terminology -/

/-- `COMMON_ISSUES`, in insertion order: the three informal abbreviations
with word boundaries, the plain substring pattern, and the degrees
pattern; all searched on the lowered line. -/
def wcrCommonIssues : List (RE × String) :=
  [(rSeq [.wordB, reStr "temp", .wordB],
    "Use " ++ q "temperature" ++ " instead of abbreviation " ++ q "temp" ++ " in formal content"),
   (rSeq [.wordB, reStr "max", .wordB],
    "Use " ++ q "maximum" ++ " instead of abbreviation " ++ q "max" ++ " in formal content"),
   (rSeq [.wordB, reStr "min", .wordB],
    "Use " ++ q "minimum" ++ " instead of abbreviation " ++ q "min" ++ " in formal content"),
   (reStr "global warming",
    "Consider using " ++ q "climate change" ++ " as the preferred WMO term"),
   (rSeq [rPlus (.cls clsDigit) false, .star (.cls clsWs) false, reStr "degrees"],
    "Ensure temperature units are specified (°C, °F, K)")]

/-- One line of `check_terminology`. -/
def wcrTerminologyLine (i : Nat) (line : String) : List WIssue :=
  wcrCommonIssues.flatMap (fun pm =>
    if reHas pm.1 (pyLower line) then
      [{ category := "Terminology", severity := .SUGGESTION, message := pm.2,
         line_number := i, context := pyTake (pyStrip line) 100 }]
    else [])

/-- `check_terminology` of wmo_content_reviewer.py. -/
def wcrCheckTerminology (lines : List String) : List WIssue :=
  (enum1 lines).flatMap (fun il => wcrTerminologyLine il.1 il.2)

/-! ## wmo_content_reviewer.py : check_abbreviations -/

/-- `WMO_ABBREVIATIONS` of wmo_content_reviewer.py, in order. -/
def wcrAbbrevs : List String :=
  ["WMO", "GCOS", "GCW", "WIGOS", "WIS", "GAW", "WWW", "GDPFS",
   "IPCC", "UNFCCC", "GHG", "UTC", "NMHS", "AMDAR", "GTS"]

/-- Defining pattern `ABBR \s* ( [^)]+ ) | [^)]+ ( ABBR )` (no flag). -/
def wcrDefRE (a : String) : RE :=
  .alt (rSeq [reStr a, .star (.cls clsWs) false, reStr "(",
              rPlus (.cls clsNotRParen) false, reStr ")"])
       (rSeq [rPlus (.cls clsNotRParen) false, reStr "(", reStr a, reStr ")"])

/-- The should-be-defined message of `check_abbreviations`. -/
def wcrAbbrevMsg (a : String) : String :=
  "Abbreviation " ++ q a ++ " should be defined on first use"

/-- The should-be-defined WARNING of `check_abbreviations`. -/
def wcrAbbrevWarnIssue (a : String) (i : Nat) (line : String) : WIssue :=
  { category := "Abbreviations", severity := .WARNING,
    message := wcrAbbrevMsg a,
    line_number := i, context := pyTake (pyStrip line) 100 }

/-- One line of `check_abbreviations`, threading the `defined_abbrevs` set. -/
def wcrAbbrevLineGo (i : Nat) (line : String) :
    List String → List String → List String × List WIssue
  | [], d => (d, [])
  | a :: rest, d =>
    if containsSub line a then
      if reHas (wcrDefRE a) line then wcrAbbrevLineGo i line rest (pyInsert a d)
      else if !(d.contains a) && a != "WMO" then
        let out := wcrAbbrevLineGo i line rest (pyInsert a d)
        (out.1, wcrAbbrevWarnIssue a i line :: out.2)
      else wcrAbbrevLineGo i line rest d
    else wcrAbbrevLineGo i line rest d

/-- All lines of `check_abbreviations`. -/
def wcrAbbrevGo : List (Nat × String) → List String → List String × List WIssue
  | [], d => (d, [])
  | il :: rest, d =>
    let st := wcrAbbrevLineGo il.1 il.2 wcrAbbrevs d
    let out := wcrAbbrevGo rest st.1
    (out.1, st.2 ++ out.2)

/-- `check_abbreviations` of wmo_content_reviewer.py (the set starts empty
at each call). -/
def wcrCheckAbbreviations (lines : List String) : List WIssue :=
  (wcrAbbrevGo (enum1 lines) []).2

/-! ## wmo_content_reviewer.py : check_style_guide -/

/-- The capitalization issue of `check_style_guide` (the `re.search` of
the phrase with IGNORECASE is a case-insensitive literal search). -/
def wcrWmoCapIssues (i : Nat) (line : String) : List WIssue :=
  if reHas (reStrCI bjWmoPhrase) line &&
     !(containsSub line "World Meteorological Organization") then
    [{ category := "Style Guide", severity := .WARNING,
       message := q "World Meteorological Organization" ++ " should be properly capitalized",
       line_number := i, context := pyTake (pyStrip line) 100 }]
  else []

/-- The very-long-sentence issues (no empty-sentence skip in this variant). -/
def wcrLongSentenceIssues (i : Nat) (line : String) : List WIssue :=
  (reSplit sentSplitRE line).flatMap (fun sentence =>
    let wc := pyWordCount sentence
    if wc > 40 then
      [{ category := "Style Guide", severity := .SUGGESTION,
         message := "Sentence is very long (" ++ toString wc ++
           " words). Consider breaking it up for clarity",
         line_number := i, context := pyTake (pyStrip sentence) 100 }]
    else [])

/-- The passive indicators of wmo_content_reviewer.py (with `will be`). -/
def wcrPassiveList : List String :=
  ["is being", "was being", "has been", "have been", "had been", "will be"]

/-- The passive-voice issue (at most one per line, by the `break`). -/
def wcrPassiveIssues (i : Nat) (line : String) : List WIssue :=
  if wcrPassiveList.any (fun ph => reHas (passiveRE ph) line) then
    [{ category := "Style Guide", severity := .INFO,
       message := "Consider using active voice for clearer communication",
       line_number := i, context := pyTake (pyStrip line) 100 }]
  else []

/-- One line of `check_style_guide`. -/
def wcrStyleLine (i : Nat) (line : String) : List WIssue :=
  wcrWmoCapIssues i line ++ wcrLongSentenceIssues i line ++ wcrPassiveIssues i line

/-- `check_style_guide`. -/
def wcrCheckStyle (lines : List String) : List WIssue :=
  (enum1 lines).flatMap (fun il => wcrStyleLine il.1 il.2)

/-! ## wmo_content_reviewer.py : check_accessibility -/

/-- The image issues of `check_accessibility`. -/
def wcrImgIssues (content : String) : List WIssue :=
  (reFindIter bjImgRE content).flatMap (fun m =>
    let tag := matchStr content m
    let ln := lineNumAt content.data m.s
    if !(containsSub (pyLower tag) "alt=") then
      [{ category := "Accessibility", severity := .ERROR,
         message := "Image missing alt text attribute (required for WCAG compliance)",
         line_number := ln, context := pyTake tag 100 }]
    else if reHas emptyAltRE tag then
      [{ category := "Accessibility", severity := .WARNING,
         message := "Image has empty alt text. Provide descriptive text or use alt=" ++
           sq ++ sq ++ " for decorative images",
         line_number := ln, context := pyTake tag 100 }]
    else [])

/-- One alternative of the DOTALL heading pattern of `check_accessibility`
for a fixed digit (the back-reference expanded as before). -/
def wcrHtmlHeadingDotAllREd (d : Nat) : RE :=
  rSeq [reStrCI "<h", .grp 1 (reStr (toString d)), .star (.cls clsNotGt) false,
        reStr ">", .star (.cls clsAll) true, reStrCI ("</h" ++ toString d ++ ">")]

/-- The DOTALL heading pattern of `check_accessibility`. -/
def wcrHtmlHeadingDotAllRE : RE :=
  rAlts ((List.range 6).map (fun k => wcrHtmlHeadingDotAllREd (k + 1)))

/-- `re.findall` of the heading digits over the whole content. -/
def wcrHeadingDigits (content : String) : List String :=
  (reFindIter wcrHtmlHeadingDotAllRE content).filterMap (fun m => capStr content m 1)

/-- The H1-start warning of `check_accessibility` (document level, issued
from the HTML heading digits only). -/
def wcrH1Issues (content : String) : List WIssue :=
  match wcrHeadingDigits content with
  | [] => []
  | d :: _ =>
    if d != "1" then
      [{ category := "Accessibility", severity := .WARNING,
         message := "Page should start with an H1 heading for proper document structure",
         line_number := 0, context := "" }]
    else []

/-- The generic link texts of wmo_content_reviewer.py. -/
def wcrGenericTexts : List String := ["click here", "read more", "link", "here"]

/-- The anchor pattern of the generic-link check, IGNORECASE. -/
def wcrGenericLinkRE : RE :=
  rSeq [reStrCI "<a", .star (.cls clsNotGt) false, reStr ">",
        .grp 1 (.star (.cls clsDot) true), reStrCI "</a>"]

/-- The generic-link-text issues of `check_accessibility`. -/
def wcrGenericLinkIssues (content : String) : List WIssue :=
  (reFindIter wcrGenericLinkRE content).flatMap (fun m =>
    let t := pyLower (pyStrip (stripTags ((capStr content m 1).getD "")))
    if wcrGenericTexts.contains t then
      [{ category := "Accessibility", severity := .WARNING,
         message := "Avoid generic link text " ++ q t ++ ". Use descriptive text instead",
         line_number := lineNumAt content.data m.s,
         context := pyTake (matchStr content m) 100 }]
    else [])

/-- `check_accessibility`, sub-checks in source order. -/
def wcrCheckAccessibility (content : String) : List WIssue :=
  wcrImgIssues content ++ wcrH1Issues content ++ wcrGenericLinkIssues content

/-! ## wmo_content_reviewer.py : check_grammar_and_clarity -/

/-- The possessive pattern with the trailing alternation group, IGNORECASE. -/
def itsRE : RE :=
  rSeq [.wordB, reStrCI ("it" ++ sq ++ "s"), .wordB, .star (.cls clsDot) false,
        .wordB, .grp 1 (rAlts [reStrCI "own", reStrCI "properties", reStrCI "data"])]

/-- The leading-pronoun pattern (anchored by the leading caret, hence an
anchored match). -/
def pronounRE : RE :=
  rSeq [.star (.cls clsWs) false,
        .grp 1 (rAlts [reStr "This", reStr "These", reStr "Those", reStr "They", reStr "It"]),
        .cls clsWs]

/-- One line of `check_grammar_and_clarity`. -/
def wcrGrammarLine (i : Nat) (line : String) : List WIssue :=
  (if containsSub line "  " then
    [{ category := "Grammar", severity := .INFO,
       message := "Multiple consecutive spaces found",
       line_number := i, context := pyTake (pyStrip line) 100 }]
   else []) ++
  (if reHas itsRE line then
    [{ category := "Grammar", severity := .WARNING,
       message := "Check if " ++ q ("it" ++ sq ++ "s") ++ " should be " ++ q "its" ++ " (possessive)",
       line_number := i, context := pyTake (pyStrip line) 100 }]
   else []) ++
  (if (reMatch0 pronounRE line).isSome then
    [{ category := "Clarity", severity := .INFO,
       message := "Sentence starts with pronoun. Ensure the reference is clear",
       line_number := i, context := pyTake (pyStrip line) 100 }]
   else [])

/-- `check_grammar_and_clarity`. -/
def wcrCheckGrammar (lines : List String) : List WIssue :=
  (enum1 lines).flatMap (fun il => wcrGrammarLine il.1 il.2)

/-! ## wmo_content_reviewer.py : check_technical_accuracy -/

/-- The degrees-without-unit pattern, IGNORECASE. -/
def tempDegRE : RE :=
  rSeq [.wordB, rPlus (.cls clsDigit) false, .star (.cls clsWs) false,
        reStrCI "degree", .opt (reStrCI "s") false, .wordB]

/-- The unit pattern, IGNORECASE. -/
def unitRE : RE :=
  rAlts [rSeq [reStr "°", .cls clsCFKci], reStrCI "celsius", reStrCI "fahrenheit",
         reStrCI "kelvin"]

/-- The ambiguous-date pattern (bounded repetitions as greedy options). -/
def dateRE : RE :=
  rSeq [.wordB, .cls clsDigit, .opt (.cls clsDigit) false, .cls clsSlashDash,
        .cls clsDigit, .opt (.cls clsDigit) false, .cls clsSlashDash,
        .cls clsDigit, .cls clsDigit, .opt (.cls clsDigit) false,
        .opt (.cls clsDigit) false, .wordB]

/-- One line of `check_technical_accuracy`. -/
def wcrTechLine (i : Nat) (line : String) : List WIssue :=
  (if reHas tempDegRE line && !(reHas unitRE line) then
    [{ category := "Technical Accuracy", severity := .ERROR,
       message := "Temperature mentioned without specifying unit (°C, °F, or K)",
       line_number := i, context := pyTake (pyStrip line) 100 }]
   else []) ++
  (if !(reFindIter dateRE line).isEmpty then
    [{ category := "Technical Accuracy", severity := .SUGGESTION,
       message := "Use ISO 8601 date format (YYYY-MM-DD) for international consistency",
       line_number := i, context := pyTake (pyStrip line) 100 }]
   else [])

/-- `check_technical_accuracy`. -/
def wcrCheckTech (lines : List String) : List WIssue :=
  (enum1 lines).flatMap (fun il => wcrTechLine il.1 il.2)

/-! ## wmo_content_reviewer.py : check_heading_structure -/

/-- The heading collection of `check_heading_structure`, identical to the
billie_jean collection (same two regexes, per line, markdown first). -/
def wcrHeadings (content : String) : List (Nat × Nat × String) := bjHeadings content

/-- The hierarchy-skip message. -/
def wcrSkipMsg (p c : Nat) : String :=
  "Heading level jumps from H" ++ toString p ++ " to H" ++ toString c ++
  ". Maintain sequential hierarchy"

/-- One hierarchy-skip WARNING of `check_heading_structure`. -/
def wcrSkipIssue (p c l : Nat) (text : String) : WIssue :=
  { category := "Document Structure", severity := .WARNING,
    message := wcrSkipMsg p c, line_number := l, context := pyTake text 100 }

/-- The long-heading SUGGESTION of `check_heading_structure`. -/
def wcrLongHeadingIssue (l : Nat) (text : String) : WIssue :=
  { category := "Document Structure", severity := .SUGGESTION,
    message := "Heading is very long (" ++ toString text.data.length ++
      " characters). Consider shortening for clarity",
    line_number := l, context := pyTake text 100 }

/-- The heading walk of `check_heading_structure`: the previous level is
`none` exactly at index zero; per heading the skip check precedes the
length check, as in the source. -/
def wcrHeadingLoop : Option Nat → List (Nat × Nat × String) → List WIssue
  | _, [] => []
  | prev, h :: rest =>
    (match prev with
     | some p => if h.2.1 > p + 1 then [wcrSkipIssue p h.2.1 h.1 h.2.2] else []
     | none => []) ++
    (if h.2.2.data.length > 70 then [wcrLongHeadingIssue h.1 h.2.2] else []) ++
    wcrHeadingLoop (some h.2.1) rest

/-- `check_heading_structure`. -/
def wcrCheckHeadingStructure (content : String) : List WIssue :=
  wcrHeadingLoop none (wcrHeadings content)

/-! ## wmo_content_reviewer.py : check_links -/

/-- The HTML link pattern of `check_links`, IGNORECASE: the href pattern
extended by the rest of the attribute list, the tag close, the lazy link
text and the closing tag. -/
def wcrHtmlLinkRE : RE :=
  rSeq [reStrCI "<a", rPlus (.cls clsWs) false,
        .opt (rSeq [.star (.cls clsNotGt) true, rPlus (.cls clsWs) false]) false,
        reStrCI "href=", .cls clsQuote, .grp 1 (.star (.cls clsNotQuote) false),
        .cls clsQuote, .star (.cls clsNotGt) false, reStr ">",
        .grp 2 (.star (.cls clsDot) true), reStrCI "</a>"]

/-- The HTML link issues of `check_links` (two independent tests, the
HTTP context being the full URL). -/
def wcrHtmlLinkIssues (content : String) : List WIssue :=
  (reFindIter wcrHtmlLinkRE content).flatMap (fun m =>
    let url := (capStr content m 1).getD ""
    let ln := lineNumAt content.data m.s
    (if url.data.isEmpty || url == "#" then
      [{ category := "Links", severity := .ERROR,
         message := "Link has empty or placeholder href",
         line_number := ln, context := pyTake (matchStr content m) 100 }]
     else []) ++
    (if isPreOf "http://".data url.data &&
        !(isPreOf "http://localhost".data url.data) then
      [{ category := "Links", severity := .WARNING,
         message := "External link uses HTTP instead of HTTPS (security concern)",
         line_number := ln, context := url }]
     else []))

/-- The markdown link issues of `check_links` (the context is the whole
match, with no truncation). -/
def wcrMdLinkIssues (content : String) : List WIssue :=
  (reFindIter mdLinkRE content).flatMap (fun m =>
    let url := (capStr content m 2).getD ""
    if url.data.isEmpty || url == "#" then
      [{ category := "Links", severity := .ERROR,
         message := "Link has empty or placeholder URL",
         line_number := lineNumAt content.data m.s, context := matchStr content m }]
    else [])

/-- `check_links`. -/
def wcrCheckLinks (content : String) : List WIssue :=
  wcrHtmlLinkIssues content ++ wcrMdLinkIssues content

/-! ## wmo_content_reviewer.py : check_seo -/

/-- `check_seo` of wmo_content_reviewer.py. -/
def wcrCheckSeo (content : String) : List WIssue :=
  (if containsSub (pyLower content) "<meta" &&
      !(containsSub (pyLower content) "name=\"description\"") then
    [{ category := "SEO", severity := .WARNING,
       message := "Missing meta description tag for search engine optimization",
       line_number := 0, context := "" }]
   else []) ++
  (match reSearch metaDescContentRE content with
   | some m =>
     let n := ((capStr content m 1).getD "").data.length
     if n < 120 then
       [{ category := "SEO", severity := .SUGGESTION,
          message := "Meta description is short (" ++ toString n ++
            " chars). Aim for 150-160 characters",
          line_number := 0, context := "" }]
     else if n > 160 then
       [{ category := "SEO", severity := .WARNING,
          message := "Meta description is too long (" ++ toString n ++
            " chars). Keep it under 160 characters",
          line_number := 0, context := "" }]
     else []
   | none => []) ++
  (if !(containsSub (pyLower content) "<title>") && !(containsSub content "# ") then
    [{ category := "SEO", severity := .WARNING,
       message := "Missing title tag or H1 heading",
       line_number := 0, context := "" }]
   else [])

/-! ## wmo_content_reviewer.py : review -/

/-- The issues appended by `review`, in the order the checks run. -/
def wcrRawIssues (content : String) : List WIssue :=
  wcrCheckTerminology (pyLines content) ++ wcrCheckAbbreviations (pyLines content) ++
  wcrCheckStyle (pyLines content) ++ wcrCheckAccessibility content ++
  wcrCheckGrammar (pyLines content) ++ wcrCheckTech (pyLines content) ++
  wcrCheckHeadingStructure content ++ wcrCheckLinks content ++ wcrCheckSeo content

/-- The sort key comparison of `review` in wmo_content_reviewer.py. -/
def wcrLE (x y : WIssue) : Bool :=
  strLtB x.severity.value y.severity.value ||
  (x.severity.value == y.severity.value && decide (x.line_number ≤ y.line_number))

/-- The sort relation as a proposition. -/
def wcrRel (x y : WIssue) : Prop := wcrLE x y = true

instance : DecidableRel wcrRel := fun _ _ => instDecidableEqBool _ _

/-- `review` of wmo_content_reviewer.py (stable sort, as for billie_jean). -/
def wcrReview (content : String) : List WIssue :=
  List.insertionSort wcrRel (wcrRawIssues content)

/-- The mutable state of a `WMOContentReviewer` object. -/
structure WState where
  issues : List WIssue
  content_lines : List String
  content : String
deriving Repr

/-- `WMOContentReviewer.__init__`. -/
def wcrInit : WState := ⟨[], [], ""⟩

/-- `review` as a state transition: `content`, `content_lines` and
`issues` are overwritten before any check runs, and the abbreviation set
is a local variable, so nothing of the incoming state is read. -/
def wcrReviewS (_st : WState) (content : String) : WState × List WIssue :=
  ({ issues := wcrRawIssues content, content_lines := pyLines content,
     content := content }, wcrReview content)

/-- The severity filter of `main` in wmo_content_reviewer.py. -/
def wcrFilterBySeverity (issues : List WIssue) (S : List String) : List WIssue :=
  issues.filter (fun i => S.contains i.severity.value)

/-! ## Sort keys and statement helpers -/

/-- The Python sort key of a billie_jean issue. -/
def bjKey (i : ReviewIssue) : String × Nat := (i.severity.value, i.line_number)

/-- The Python sort key of a wmo_content_reviewer issue. -/
def wcrKey (i : WIssue) : String × Nat := (i.severity.value, i.line_number)

/-- Rank of a billie_jean severity in the order the sort actually uses:
the alphabetical order of the value strings (CRITICAL, ERROR, SUGGESTION,
WARNING). -/
def bjRank : BJSev → Nat
  | .CRITICAL => 0
  | .ERROR => 1
  | .SUGGESTION => 2
  | .WARNING => 3

/-- Rank of a wmo_content_reviewer severity in the alphabetical order of
the value strings (ERROR, INFO, SUGGESTION, WARNING). -/
def wcrRank : WSev → Nat
  | .ERROR => 0
  | .INFO => 1
  | .SUGGESTION => 2
  | .WARNING => 3

/-- A markdown placeholder link whose text is one hundred characters. -/
def c2doc : String := "[" ++ String.mk (List.replicate 100 'a') ++ "](#)"

/-- The missing-title warning of the wmo_content_reviewer SEO check. -/
def wcrTitleIssue : WIssue :=
  { category := "SEO", severity := .WARNING,
    message := "Missing title tag or H1 heading", line_number := 0, context := "" }

/-! ## Theorems: sort machinery -/

/-- Truncation really bounds the length. -/
theorem pyTake_length_le (s : String) (n : Nat) : (pyTake s n).length ≤ n := by
  show (s.data.take n).length ≤ n
  rw [List.length_take]
  exact Nat.min_le_left n s.data.length

/-- The string comparison of the sort key agrees with the severity rank
for billie_jean severities. -/
theorem bjLE_eq (x y : ReviewIssue) :
    bjLE x y = (decide (bjRank x.severity < bjRank y.severity) ||
      (bjRank x.severity == bjRank y.severity &&
       decide (x.line_number ≤ y.line_number))) := by
  obtain ⟨_, sx, _, _, lx, _, _⟩ := x
  obtain ⟨_, sy, _, _, ly, _, _⟩ := y
  cases sx <;> cases sy <;> rfl

/-- The string comparison of the sort key agrees with the severity rank
for wmo_content_reviewer severities. -/
theorem wcrLE_eq (x y : WIssue) :
    wcrLE x y = (decide (wcrRank x.severity < wcrRank y.severity) ||
      (wcrRank x.severity == wcrRank y.severity &&
       decide (x.line_number ≤ y.line_number))) := by
  obtain ⟨_, sx, _, lx, _⟩ := x
  obtain ⟨_, sy, _, ly, _⟩ := y
  cases sx <;> cases sy <;> rfl

/-- The billie_jean sort relation is total. -/
theorem bjRel_total : ∀ x y : ReviewIssue, bjRel x y ∨ bjRel y x := by
  intro x y
  simp only [bjRel, bjLE_eq, Bool.or_eq_true, Bool.and_eq_true, decide_eq_true_eq,
    beq_iff_eq]
  omega

/-- The billie_jean sort relation is transitive. -/
theorem bjRel_trans : ∀ x y z : ReviewIssue, bjRel x y → bjRel y z → bjRel x z := by
  intro x y z
  simp only [bjRel, bjLE_eq, Bool.or_eq_true, Bool.and_eq_true, decide_eq_true_eq,
    beq_iff_eq]
  omega

/-- The wmo_content_reviewer sort relation is total. -/
theorem wcrRel_total : ∀ x y : WIssue, wcrRel x y ∨ wcrRel y x := by
  intro x y
  simp only [wcrRel, wcrLE_eq, Bool.or_eq_true, Bool.and_eq_true, decide_eq_true_eq,
    beq_iff_eq]
  omega

/-- The wmo_content_reviewer sort relation is transitive. -/
theorem wcrRel_trans : ∀ x y z : WIssue, wcrRel x y → wcrRel y z → wcrRel x z := by
  intro x y z
  simp only [wcrRel, wcrLE_eq, Bool.or_eq_true, Bool.and_eq_true, decide_eq_true_eq,
    beq_iff_eq]
  omega

/-- The severity value string determines the billie_jean severity. -/
theorem bjValue_inj : ∀ s t : BJSev, s.value = t.value → s = t := by
  intro s t h
  cases s <;> cases t <;> first | rfl | exact absurd h (by decide)

/-- The severity value string determines the wmo_content_reviewer severity. -/
theorem wcrValue_inj : ∀ s t : WSev, s.value = t.value → s = t := by
  intro s t h
  cases s <;> cases t <;> first | rfl | exact absurd h (by decide)

/-- Filtering through an ordered insertion: an element is inserted before
everything it is not below, so when nothing strictly below it satisfies
the filter, filtering commutes. -/
theorem filter_orderedInsert {α : Type} (r : α → α → Prop) [DecidableRel r]
    (p : α → Bool) (x : α) :
    ∀ l : List α, (p x = true → ∀ y ∈ l, ¬ r x y → p y = false) →
    List.filter p (List.orderedInsert r x l) =
      if p x then x :: List.filter p l else List.filter p l := by
  intro l
  induction l with
  | nil =>
    intro _
    by_cases hx : p x <;> simp [List.orderedInsert, List.filter_cons, hx]
  | cons y t ih =>
    intro h
    simp only [List.orderedInsert]
    by_cases hr : r x y
    · rw [if_pos hr]
      by_cases hx : p x <;> simp [List.filter_cons, hx]
    · rw [if_neg hr]
      have ih2 := ih (fun hx z hz hrz => h hx z (List.mem_cons_of_mem _ hz) hrz)
      by_cases hx : p x
      · have hy : p y = false := h hx y (List.mem_cons_self _ _) hr
        simp [List.filter_cons, hy, ih2, hx]
      · simp only [Bool.not_eq_true] at hx
        by_cases hy : p y <;> simp [List.filter_cons, hy, ih2, hx]

/-- Stability of insertion sort, phrased through filters: for a filter
that no strictly-lower element can satisfy together with a satisfying
element, sorting does not change the filtered subsequence. -/
theorem filter_insertionSort {α : Type} (r : α → α → Prop) [DecidableRel r]
    (p : α → Bool) (h : ∀ x y : α, p x = true → ¬ r x y → p y = false) :
    ∀ l : List α, List.filter p (List.insertionSort r l) = List.filter p l := by
  intro l
  induction l with
  | nil => rfl
  | cons x t ih =>
    simp only [List.insertionSort]
    rw [filter_orderedInsert r p x _ (fun hx y _ hr => h x y hx hr)]
    by_cases hx : p x <;> simp [List.filter_cons, hx, ih]

/-- Elements strictly below a key-class member are outside the key class
(billie_jean). -/
theorem bjKey_stable (k : String × Nat) :
    ∀ x y : ReviewIssue, (bjKey x == k) = true → ¬ bjRel x y → (bjKey y == k) = false := by
  intro x y hx hr
  rw [beq_iff_eq] at hx
  rw [beq_eq_false_iff_ne]
  intro hy
  apply hr
  have hk : bjKey x = bjKey y := by rw [hx, hy]
  have hv : x.severity.value = y.severity.value := congrArg Prod.fst hk
  have hl : x.line_number = y.line_number := congrArg Prod.snd hk
  have hs : x.severity = y.severity := bjValue_inj _ _ hv
  simp only [bjRel, bjLE_eq, hs, hl, Bool.or_eq_true, Bool.and_eq_true, beq_iff_eq,
    decide_eq_true_eq]
  simp

/-- The coverage threshold test of `check_strategic_alignment` holds
exactly when no flag is set (coverage is twenty times the flag count). -/
theorem covered_lt_iff (sa : StrategicAlignment) :
    (sa.get_coverage < 20) ↔ sa.covered = 0 := by
  have h : sa.get_coverage = 20 * (sa.covered : Rat) := by
    rw [StrategicAlignment.get_coverage]
    ring
  rw [h]
  constructor
  · intro hlt
    by_contra hne
    have h1 : (1 : Rat) ≤ (sa.covered : Rat) := by
      have : 1 ≤ sa.covered := Nat.one_le_iff_ne_zero.mpr hne
      exact_mod_cast this
    nlinarith
  · intro h0
    rw [h0]
    norm_num

/-- Evaluation form of `check_strategic_alignment`, with the rational
comparison replaced by the equivalent decidable flag-count test. -/
theorem bjCheckStrategic_eq (content : String) :
    bjCheckStrategic content =
      (if (bjStrategicFlags content).covered = 0 then [bjStrategicIssue] else []) := by
  rw [bjCheckStrategic]
  by_cases h : (bjStrategicFlags content).covered = 0
  · rw [if_pos ((covered_lt_iff _).mpr h), if_pos h]
  · rw [if_neg (fun hlt => h ((covered_lt_iff _).mp hlt)), if_neg h]

/-- Evaluation form of the raw issue collection of billie_jean. -/
theorem bjRawIssues_eval (ct : ContentType) (content : String) :
    bjRawIssues ct content =
      (if (bjStrategicFlags content).covered = 0 then [bjStrategicIssue] else []) ++
      bjCheckStyle (pyLines content) ++ bjCheckAccessibility content ++
      bjCheckReadability content ++ bjCheckTerminology (pyLines content) ++
      bjCheckAbbreviations (pyLines content) ++
      (if ct == ContentType.NEWS_ARTICLE then bjCheckNews content (pyLines content) else []) ++
      bjCheckSeo content ++ bjCheckTargetAudience content ++
      bjCheckFormatting (pyLines content) ++ bjCheckLinks content := by
  rw [bjRawIssues, bjCheckStrategic_eq]

/-- Claim C1, counterexample: the sort key is the severity VALUE STRING,
which orders the severities alphabetically (CRITICAL, ERROR, SUGGESTION,
WARNING and ERROR, INFO, SUGGESTION, WARNING), not by the claimed
precedence; on the document consisting of the line `rainfall *a*` the
billie_jean review returns a WARNING after a SUGGESTION, and on the
document `It is being granted that rainfall has been seen` the
wmo_content_reviewer review returns a WARNING after an INFO, so a WARNING
issue does appear after a SUGGESTION or INFO issue. -/
theorem C1_counterexample :
    ((bjReview ContentType.UNKNOWN "rainfall *a*").1.map (fun i => i.severity) =
      [BJSev.CRITICAL, BJSev.SUGGESTION, BJSev.WARNING]) ∧
    ((wcrReview "It is being granted that rainfall has been seen").map
        (fun i => i.severity) = [WSev.INFO, WSev.INFO, WSev.WARNING]) := by
  constructor
  · rw [bjReview, bjRawIssues_eval]
    decide
  · decide

/-- Elements strictly below a key-class member are outside the key class
(wmo_content_reviewer). -/
theorem wcrKey_stable (k : String × Nat) :
    ∀ x y : WIssue, (wcrKey x == k) = true → ¬ wcrRel x y → (wcrKey y == k) = false := by
  intro x y hx hr
  rw [beq_iff_eq] at hx
  rw [beq_eq_false_iff_ne]
  intro hy
  apply hr
  have hk : wcrKey x = wcrKey y := by rw [hx, hy]
  have hv : x.severity.value = y.severity.value := congrArg Prod.fst hk
  have hl : x.line_number = y.line_number := congrArg Prod.snd hk
  have hs : x.severity = y.severity := wcrValue_inj _ _ hv
  simp only [wcrRel, wcrLE_eq, hs, hl, Bool.or_eq_true, Bool.and_eq_true, beq_iff_eq,
    decide_eq_true_eq]
  simp

/-- Claim C1, amended: for every document, both reviews return the raw
issue collection sorted ascending by the pair (severity value string,
line number) — the severity order is the ALPHABETICAL order of the value
strings, CRITICAL, ERROR, SUGGESTION, WARNING for billie_jean and ERROR,
INFO, SUGGESTION, WARNING for wmo_content_reviewer, so WARNING sorts
after SUGGESTION and INFO — and the sort is stable: the returned sequence
is a permutation of the detection-order collection in which every class of
issues sharing one sort key keeps its original relative order. -/
theorem C1_amended (ct : ContentType) (content content2 : String) :
    List.Sorted bjRel (bjReview ct content).1 ∧
    ((bjReview ct content).1).Perm (bjRawIssues ct content) ∧
    (∀ k : String × Nat, ((bjReview ct content).1.filter (fun i => bjKey i == k)) =
      ((bjRawIssues ct content).filter (fun i => bjKey i == k))) ∧
    List.Sorted wcrRel (wcrReview content2) ∧
    (wcrReview content2).Perm (wcrRawIssues content2) ∧
    (∀ k : String × Nat, ((wcrReview content2).filter (fun i => wcrKey i == k)) =
      ((wcrRawIssues content2).filter (fun i => wcrKey i == k))) := by
  haveI : IsTotal ReviewIssue bjRel := ⟨bjRel_total⟩
  haveI : IsTrans ReviewIssue bjRel := ⟨fun a b c => bjRel_trans a b c⟩
  haveI : IsTotal WIssue wcrRel := ⟨wcrRel_total⟩
  haveI : IsTrans WIssue wcrRel := ⟨fun a b c => wcrRel_trans a b c⟩
  refine ⟨List.sorted_insertionSort _ _, List.perm_insertionSort _ _, ?_,
    List.sorted_insertionSort _ _, List.perm_insertionSort _ _, ?_⟩
  · intro k
    exact filter_insertionSort bjRel _ (bjKey_stable k) _
  · intro k
    exact filter_insertionSort wcrRel _ (wcrKey_stable k) _

/-- Claim C8: review is deterministic and resets all tracker state at the
start of each call: running review on a reviewer that has already
reviewed another document returns exactly what running it on the original
reviewer state returns (same issues, same field values, same order, same
strategic alignment), and a fresh reviewer of the same content type
returns the same as well; this holds for both reviewer classes. -/
theorem C8_thm (st : BJState) (wst : WState) (x y : String) :
    (bjReviewS (bjReviewS st y).1 x).2 = (bjReviewS st x).2 ∧
    (bjReviewS (bjInit st.content_type) x).2 = (bjReviewS st x).2 ∧
    (wcrReviewS (wcrReviewS wst y).1 x).2 = (wcrReviewS wst x).2 ∧
    (wcrReviewS wcrInit x).2 = (wcrReviewS wst x).2 := by
  exact ⟨rfl, rfl, rfl, rfl⟩

/-- Claim C9: the severity filter is a pure subset operation: for every
severity set S and document, it returns exactly the issues of the review
output whose severity value is a member of S, as a sublist (hence in the
same relative order, without mutating or rebuilding any issue), for both
reviewer variants. -/
theorem C9_thm (ct : ContentType) (content : String) (S : List String) :
    (bjFilterBySeverity (bjReview ct content).1 S).Sublist (bjReview ct content).1 ∧
    (∀ i : ReviewIssue, i ∈ bjFilterBySeverity (bjReview ct content).1 S ↔
       (i ∈ (bjReview ct content).1 ∧ S.contains i.severity.value = true)) ∧
    (wcrFilterBySeverity (wcrReview content) S).Sublist (wcrReview content) ∧
    (∀ i : WIssue, i ∈ wcrFilterBySeverity (wcrReview content) S ↔
       (i ∈ wcrReview content ∧ S.contains i.severity.value = true)) := by
  refine ⟨List.filter_sublist _, ?_, List.filter_sublist _, ?_⟩ <;>
    intro i <;>
    simp [bjFilterBySeverity, wcrFilterBySeverity, List.mem_filter]

/-! ## Per-check shape lemmas -/

/-- Membership in a conditional singleton forces the element. -/
theorem mem_ite_singleton {α : Type} {i x : α} {c : Prop} [Decidable c]
    (h : i ∈ (if c then [x] else [])) : i = x := by
  split at h
  · simpa using h
  · simp at h

/-- Counting through a flatMap. -/
theorem countP_flatMap {α β : Type} (p : β → Bool) (f : α → List β) :
    ∀ l : List α, (l.flatMap f).countP p = (l.map (fun a => (f a).countP p)).sum := by
  intro l
  induction l with
  | nil => rfl
  | cons x t ih => simp [List.flatMap_cons, List.countP_append, ih]

/-- Indices produced by `enumFrom` lie in the expected range. -/
theorem enumFrom_fst_lt {α : Type} :
    ∀ (n : Nat) (l : List α) (p : Nat × α), p ∈ enumFrom n l →
      n ≤ p.1 ∧ p.1 < n + l.length := by
  intro n l
  induction l generalizing n with
  | nil => intro p hp; simp [enumFrom] at hp
  | cons x t ih =>
    intro p hp
    rw [enumFrom] at hp
    rcases List.mem_cons.mp hp with h | h
    · subst h
      simp
    · have := ih (n + 1) p h
      constructor <;> [omega; (simp only [List.length_cons]; omega)]

/-- `enumFrom` pairs are determined by their index. -/
theorem enumFrom_inj {α : Type} :
    ∀ (n : Nat) (l : List α) (p q : Nat × α), p ∈ enumFrom n l → q ∈ enumFrom n l →
      p.1 = q.1 → p = q := by
  intro n l
  induction l generalizing n with
  | nil => intro p q hp; simp [enumFrom] at hp
  | cons x t ih =>
    intro p q hp hq he
    rw [enumFrom] at hp hq
    rcases List.mem_cons.mp hp with h1 | h1 <;> rcases List.mem_cons.mp hq with h2 | h2
    · rw [h1, h2]
    · subst h1
      have := (enumFrom_fst_lt (n + 1) t q h2).1
      omega
    · subst h2
      have := (enumFrom_fst_lt (n + 1) t p h1).1
      omega
    · exact ih (n + 1) p q h1 h2 he

/-- Shape of the strategic-check issues. -/
theorem bjCheckStrategic_shape (c : String) :
    ∀ i ∈ bjCheckStrategic c, i = bjStrategicIssue := by
  intro i hi
  rw [bjCheckStrategic] at hi
  exact mem_ite_singleton hi

/-- Shape of one line of the style check: the five fixed categories, a
bounded context, the enumerated line number, and informal flagged texts
for the abbreviation category. -/
theorem bjStyleLine_shape (n : Nat) (line : String) :
    ∀ i ∈ bjStyleLine n line,
      i.category ∈ (["Style Guide", "Style Guide - Clarity", "Style Guide - Voice",
        "Style Guide - Abbreviations", "Style Guide - Formatting"] : List String) ∧
      i.context.length ≤ 100 ∧ i.line_number = n ∧
      (i.category = "Style Guide - Abbreviations" →
        i.flagged_text ∈ (["temp", "max", "min", "info"] : List String)) := by
  intro i hi
  rw [bjStyleLine] at hi
  simp only [List.mem_append] at hi
  rcases hi with ((((h | h) | h) | h) | h)
  · rw [bjWmoCapIssues] at h
    rw [mem_ite_singleton h]
    exact ⟨by simp, by simp, rfl, fun hc => by simp at hc⟩
  · rw [bjLongSentenceIssues] at h
    rcases List.mem_flatMap.mp h with ⟨s, _, hm⟩
    dsimp only at hm
    split at hm
    · simp at hm
    · split at hm
      · rw [List.mem_singleton.mp hm]
        exact ⟨by simp, pyTake_length_le _ _, rfl, fun hc => by simp at hc⟩
      · simp at hm
  · rw [bjPassiveIssues] at h
    rcases hp : bjPassiveList.find? (fun ph => reHas (passiveRE ph) line) with _ | ph
    · rw [hp] at h
      simp at h
    · rw [hp] at h
      rw [List.mem_singleton.mp h]
      exact ⟨by simp, by simp, rfl, fun hc => by simp at hc⟩
  · rw [bjInformalIssues] at h
    rcases List.mem_flatMap.mp h with ⟨af, haf, hm⟩
    have he := mem_ite_singleton hm
    subst he
    refine ⟨by simp, by simp, rfl, fun _ => ?_⟩
    fin_cases haf <;> simp
  · rw [bjItalicsIssues] at h
    rw [mem_ite_singleton h]
    exact ⟨by simp, by simp, rfl, fun hc => by simp at hc⟩

/-- Shape of the whole style check. -/
theorem bjCheckStyle_shape (ls : List String) :
    ∀ i ∈ bjCheckStyle ls,
      i.category ∈ (["Style Guide", "Style Guide - Clarity", "Style Guide - Voice",
        "Style Guide - Abbreviations", "Style Guide - Formatting"] : List String) ∧
      i.context.length ≤ 100 ∧
      (i.category = "Style Guide - Abbreviations" →
        i.flagged_text ∈ (["temp", "max", "min", "info"] : List String)) := by
  intro i hi
  rw [bjCheckStyle] at hi
  rcases List.mem_flatMap.mp hi with ⟨il, _, hm⟩
  have := bjStyleLine_shape il.1 il.2 i hm
  exact ⟨this.1, this.2.1, this.2.2.2⟩

/-- Shape of the image issues. -/
theorem bjImgIssues_shape (c : String) :
    ∀ i ∈ bjImgIssues c,
      i.category = "Accessibility (WCAG 2.1)" ∧ i.context = "" ∧
      (i.suggestion = "Add descriptive alt text: alt=" ++ sq ++
         "[description of image content and function]" ++ sq ∨
       i.suggestion = "If decorative, use alt=" ++ sq ++ sq ++
         ". If meaningful, provide descriptive text") := by
  intro i hi
  rw [bjImgIssues] at hi
  rcases List.mem_flatMap.mp hi with ⟨m, _, hm⟩
  dsimp only at hm
  split at hm
  · rw [List.mem_singleton.mp hm]
    exact ⟨rfl, rfl, Or.inl rfl⟩
  · split at hm
    · rw [List.mem_singleton.mp hm]
      exact ⟨rfl, rfl, Or.inr rfl⟩
    · simp at hm

/-- Shape of the start-heading issues. -/
theorem bjStartHeadingIssues_shape (hs : List (Nat × Nat × String)) :
    ∀ i ∈ bjStartHeadingIssues hs, ∃ l, i = bjStartIssue l := by
  intro i hi
  rcases hs with _ | ⟨h, t⟩
  · exact absurd (show i ∈ ([] : List ReviewIssue) from hi) (List.not_mem_nil i)
  · have hi2 : i ∈ (if h.2.1 != 1 then [bjStartIssue h.1] else []) := hi
    exact ⟨h.1, mem_ite_singleton hi2⟩

/-- Shape of the hierarchy-skip issues. -/
theorem bjSkipIssues_shape (hs : List (Nat × Nat × String)) :
    ∀ i ∈ bjSkipIssues hs, ∃ p c l, i = bjSkipIssue p c l := by
  intro i hi
  rw [bjSkipIssues] at hi
  rcases List.mem_flatMap.mp hi with ⟨pc, _, hm⟩
  exact ⟨pc.1.2.1, pc.2.2.1, pc.2.1, mem_ite_singleton hm⟩

/-- Shape of the generic-link issues. -/
theorem bjGenericLinkIssues_shape (c : String) :
    ∀ i ∈ bjGenericLinkIssues c,
      i.category = "Accessibility (WCAG 2.1)" ∧ i.context = "" ∧
      i.suggestion = "Use descriptive link text that makes sense out of context (e.g., " ++
        q "WMO Climate Report 2025" ++ " instead of " ++ q "click here" ++ ")" := by
  intro i hi
  rw [bjGenericLinkIssues] at hi
  rcases List.mem_flatMap.mp hi with ⟨m, _, hm⟩
  dsimp only at hm
  rw [mem_ite_singleton hm]
  exact ⟨rfl, rfl, rfl⟩

/-- Shape of the whole accessibility check. -/
theorem bjCheckAccessibility_shape (c : String) :
    ∀ i ∈ bjCheckAccessibility c,
      i.category = "Accessibility (WCAG 2.1)" ∧ i.context = "" := by
  intro i hi
  rw [bjCheckAccessibility] at hi
  simp only [List.mem_append] at hi
  rcases hi with ((h | h) | h) | h
  · exact ⟨(bjImgIssues_shape c i h).1, (bjImgIssues_shape c i h).2.1⟩
  · rcases bjStartHeadingIssues_shape _ i h with ⟨l, he⟩
    rw [he]
    exact ⟨rfl, rfl⟩
  · rcases bjSkipIssues_shape _ i h with ⟨p, cc, l, he⟩
    rw [he]
    exact ⟨rfl, rfl⟩
  · exact ⟨(bjGenericLinkIssues_shape c i h).1, (bjGenericLinkIssues_shape c i h).2.1⟩

/-- Shape of the readability check. -/
theorem bjCheckReadability_shape (c : String) :
    ∀ i ∈ bjCheckReadability c,
      i.category ∈ (["Readability", "Readability - Jargon"] : List String) ∧
      i.context = "" := by
  intro i hi
  rw [bjCheckReadability] at hi
  simp only [List.mem_append] at hi
  rcases hi with h | h
  · rw [bjAvgIssues] at h
    split at h
    · split at h
      · rw [List.mem_singleton.mp h]
        exact ⟨by simp, rfl⟩
      · simp at h
    · simp at h
  · rw [bjJargonIssues] at h
    rcases List.mem_flatMap.mp h with ⟨term, _, hm⟩
    split at hm
    · split at hm
      · rw [List.mem_singleton.mp hm]
        exact ⟨by simp, rfl⟩
      · simp at hm
    · simp at hm

/-- Shape of one line of the terminology check. -/
theorem bjTerminologyLine_shape (n : Nat) (line : String) :
    ∀ i ∈ bjTerminologyLine n line,
      i.category = "Terminology" ∧ i.context = "" ∧ i.line_number = n := by
  intro i hi
  rw [bjTerminologyLine] at hi
  rcases List.mem_flatMap.mp hi with ⟨t, _, hm⟩
  rw [mem_ite_singleton hm]
  exact ⟨rfl, rfl, rfl⟩

/-- Shape of the terminology check. -/
theorem bjCheckTerminology_shape (ls : List String) :
    ∀ i ∈ bjCheckTerminology ls, i.category = "Terminology" ∧ i.context = "" := by
  intro i hi
  rw [bjCheckTerminology] at hi
  rcases List.mem_flatMap.mp hi with ⟨il, _, hm⟩
  exact ⟨(bjTerminologyLine_shape il.1 il.2 i hm).1, (bjTerminologyLine_shape il.1 il.2 i hm).2.1⟩

/-- Shape of one line of the abbreviation check: every issue is the
warning of a table entry of the processed suffix at this line. -/
theorem bjAbbrevLineGo_shape (n : Nat) (line : String) :
    ∀ (as : List (String × String)) (d : List String),
      ∀ i ∈ (bjAbbrevLineGo n line as d).2,
        ∃ af ∈ as, i = bjAbbrevWarnIssue af.1 af.2 n := by
  intro as
  induction as with
  | nil => intro d i hi; simp [bjAbbrevLineGo] at hi
  | cons af rest ih =>
    intro d i hi
    rw [bjAbbrevLineGo] at hi
    split at hi
    · split at hi
      · rcases ih _ i hi with ⟨bf, hbf, he⟩
        exact ⟨bf, List.mem_cons_of_mem _ hbf, he⟩
      · split at hi
        · simp only at hi
          rcases List.mem_cons.mp hi with he | hi2
          · exact ⟨af, List.mem_cons_self _ _, he⟩
          · rcases ih _ i hi2 with ⟨bf, hbf, he⟩
            exact ⟨bf, List.mem_cons_of_mem _ hbf, he⟩
        · rcases ih _ i hi with ⟨bf, hbf, he⟩
          exact ⟨bf, List.mem_cons_of_mem _ hbf, he⟩
    · rcases ih _ i hi with ⟨bf, hbf, he⟩
      exact ⟨bf, List.mem_cons_of_mem _ hbf, he⟩

/-- Shape of the abbreviation check across lines. -/
theorem bjAbbrevGo_shape :
    ∀ (ils : List (Nat × String)) (d : List String),
      ∀ i ∈ (bjAbbrevGo ils d).2,
        ∃ il ∈ ils, ∃ af ∈ bjAbbrevs, i = bjAbbrevWarnIssue af.1 af.2 il.1 := by
  intro ils
  induction ils with
  | nil => intro d i hi; simp [bjAbbrevGo] at hi
  | cons il rest ih =>
    intro d i hi
    rw [bjAbbrevGo] at hi
    simp only [List.mem_append] at hi
    rcases hi with h | h
    · rcases bjAbbrevLineGo_shape il.1 il.2 bjAbbrevs d i h with ⟨af, haf, he⟩
      exact ⟨il, List.mem_cons_self _ _, af, haf, he⟩
    · rcases ih _ i h with ⟨jl, hjl, af, haf, he⟩
      exact ⟨jl, List.mem_cons_of_mem _ hjl, af, haf, he⟩

/-- Shape of the abbreviation check. -/
theorem bjCheckAbbreviations_shape (ls : List String) :
    ∀ i ∈ bjCheckAbbreviations ls,
      i.category = "Style Guide - Abbreviations" ∧ i.context = "" ∧
      i.flagged_text ∈ bjAbbrevs.map Prod.fst := by
  intro i hi
  rw [bjCheckAbbreviations] at hi
  rcases bjAbbrevGo_shape _ _ i hi with ⟨il, _, af, haf, he⟩
  rw [he]
  exact ⟨rfl, rfl, List.mem_map.mpr ⟨af, haf, rfl⟩⟩

/-- Shape of the news check. -/
theorem bjCheckNews_shape (c : String) (ls : List String) :
    ∀ i ∈ bjCheckNews c ls,
      i.category ∈ (["News Article Standards",
        "News Article Standards - Storytelling"] : List String) ∧ i.context = "" := by
  intro i hi
  rw [bjCheckNews] at hi
  simp only [List.mem_append] at hi
  rcases hi with (h | h) | h
  · rw [bjTitleCaseIssues] at h
    rcases hf : bjFirstHeading (enum1 ls) with _ | il
    · rw [hf] at h
      simp at h
    · rw [hf] at h
      dsimp only at h
      split at h
      · rw [List.mem_singleton.mp h]
        exact ⟨by simp, rfl⟩
      · simp at h
  · rw [bjOpeningIssues] at h
    rcases hf : bjFirstParagraph ls with _ | fp
    · rw [hf] at h
      simp at h
    · rw [hf] at h
      dsimp only at h
      split at h
      · rw [List.mem_singleton.mp h]
        exact ⟨by simp, rfl⟩
      · simp at h
  · rw [bjLengthIssues] at h
    split at h
    · rw [List.mem_singleton.mp h]
      exact ⟨by simp, rfl⟩
    · simp at h

/-- Shape of the SEO check. -/
theorem bjCheckSeo_shape (c : String) :
    ∀ i ∈ bjCheckSeo c, i.category = "SEO" ∧ i.context = "" := by
  intro i hi
  rw [bjCheckSeo] at hi
  simp only [List.mem_append] at hi
  rcases hi with h | h
  · rw [mem_ite_singleton h]
    exact ⟨rfl, rfl⟩
  · split at h
    · rcases hm : reSearch metaDescContentRE c with _ | m
      · rw [hm] at h
        simp at h
      · rw [hm] at h
        dsimp only at h
        split at h
        · rw [List.mem_singleton.mp h]
          exact ⟨rfl, rfl⟩
        · split at h
          · rw [List.mem_singleton.mp h]
            exact ⟨rfl, rfl⟩
          · simp at h
    · simp at h

/-- Shape of the target-audience check. -/
theorem bjCheckTargetAudience_shape (c : String) :
    ∀ i ∈ bjCheckTargetAudience c, i.category = "Target Audience" ∧ i.context = "" := by
  intro i hi
  rw [bjCheckTargetAudience] at hi
  split at hi
  · split at hi
    · rw [List.mem_singleton.mp hi]
      exact ⟨rfl, rfl⟩
    · simp at hi
  · simp at hi

/-- Shape of the formatting check. -/
theorem bjCheckFormatting_shape (ls : List String) :
    ∀ i ∈ bjCheckFormatting ls, i.category = "Formatting" ∧ i.context = "" := by
  intro i hi
  rw [bjCheckFormatting] at hi
  rcases List.mem_flatMap.mp hi with ⟨il, _, hm⟩
  rw [bjFormattingLine] at hm
  simp only [List.mem_append] at hm
  rcases hm with h | h <;> rw [mem_ite_singleton h] <;> exact ⟨rfl, rfl⟩

/-- Shape of the links check. -/
theorem bjCheckLinks_shape (c : String) :
    ∀ i ∈ bjCheckLinks c, i.category = "Links" ∧ i.context = "" := by
  intro i hi
  rw [bjCheckLinks] at hi
  simp only [List.mem_append] at hi
  rcases hi with h | h
  · rw [bjHtmlLinkIssues] at h
    rcases List.mem_flatMap.mp h with ⟨m, _, hm⟩
    dsimp only at hm
    split at hm
    · rw [List.mem_singleton.mp hm]
      exact ⟨rfl, rfl⟩
    · split at hm
      · rw [List.mem_singleton.mp hm]
        exact ⟨rfl, rfl⟩
      · simp at hm
  · rw [bjMdLinkIssues] at h
    rcases List.mem_flatMap.mp h with ⟨m, _, hm⟩
    dsimp only at hm
    split at hm
    · rw [List.mem_singleton.mp hm]
      exact ⟨rfl, rfl⟩
    · simp at hm

/-- Shape of one line of the wmo_content_reviewer terminology check:
every issue is the suggestion of one table pattern at the enumerated line. -/
theorem wcrTerminologyLine_shape (n : Nat) (line : String) :
    ∀ i ∈ wcrTerminologyLine n line,
      ∃ pm ∈ wcrCommonIssues,
        i = { category := "Terminology", severity := .SUGGESTION, message := pm.2,
              line_number := n, context := pyTake (pyStrip line) 100 } := by
  intro i hi
  rw [wcrTerminologyLine] at hi
  rcases List.mem_flatMap.mp hi with ⟨pm, hpm, hm⟩
  exact ⟨pm, hpm, mem_ite_singleton hm⟩

/-- Shape of the wmo_content_reviewer terminology check. -/
theorem wcrCheckTerminology_shape (ls : List String) :
    ∀ i ∈ wcrCheckTerminology ls,
      i.category = "Terminology" ∧ i.context.length ≤ 100 := by
  intro i hi
  rw [wcrCheckTerminology] at hi
  rcases List.mem_flatMap.mp hi with ⟨il, _, hm⟩
  rcases wcrTerminologyLine_shape il.1 il.2 i hm with ⟨pm, _, he⟩
  rw [he]
  exact ⟨rfl, pyTake_length_le _ _⟩

/-- Shape of one line of the wmo_content_reviewer abbreviation check. -/
theorem wcrAbbrevLineGo_shape (n : Nat) (line : String) :
    ∀ (as : List String) (d : List String),
      ∀ i ∈ (wcrAbbrevLineGo n line as d).2,
        ∃ a ∈ as, i = wcrAbbrevWarnIssue a n line := by
  intro as
  induction as with
  | nil => intro d i hi; simp [wcrAbbrevLineGo] at hi
  | cons a rest ih =>
    intro d i hi
    rw [wcrAbbrevLineGo] at hi
    split at hi
    · split at hi
      · rcases ih _ i hi with ⟨b, hb, he⟩
        exact ⟨b, List.mem_cons_of_mem _ hb, he⟩
      · split at hi
        · simp only at hi
          rcases List.mem_cons.mp hi with he | hi2
          · exact ⟨a, List.mem_cons_self _ _, he⟩
          · rcases ih _ i hi2 with ⟨b, hb, he⟩
            exact ⟨b, List.mem_cons_of_mem _ hb, he⟩
        · rcases ih _ i hi with ⟨b, hb, he⟩
          exact ⟨b, List.mem_cons_of_mem _ hb, he⟩
    · rcases ih _ i hi with ⟨b, hb, he⟩
      exact ⟨b, List.mem_cons_of_mem _ hb, he⟩

/-- Shape of the wmo_content_reviewer abbreviation check across lines. -/
theorem wcrAbbrevGo_shape :
    ∀ (ils : List (Nat × String)) (d : List String),
      ∀ i ∈ (wcrAbbrevGo ils d).2,
        ∃ il ∈ ils, ∃ a ∈ wcrAbbrevs, i = wcrAbbrevWarnIssue a il.1 il.2 := by
  intro ils
  induction ils with
  | nil => intro d i hi; simp [wcrAbbrevGo] at hi
  | cons il rest ih =>
    intro d i hi
    rw [wcrAbbrevGo] at hi
    simp only [List.mem_append] at hi
    rcases hi with h | h
    · rcases wcrAbbrevLineGo_shape il.1 il.2 wcrAbbrevs d i h with ⟨a, ha, he⟩
      exact ⟨il, List.mem_cons_self _ _, a, ha, he⟩
    · rcases ih _ i h with ⟨jl, hjl, a, ha, he⟩
      exact ⟨jl, List.mem_cons_of_mem _ hjl, a, ha, he⟩

/-- Shape of the wmo_content_reviewer abbreviation check. -/
theorem wcrCheckAbbreviations_shape (ls : List String) :
    ∀ i ∈ wcrCheckAbbreviations ls,
      i.category = "Abbreviations" ∧ i.context.length ≤ 100 := by
  intro i hi
  rw [wcrCheckAbbreviations] at hi
  rcases wcrAbbrevGo_shape _ _ i hi with ⟨il, _, a, _, he⟩
  rw [he]
  exact ⟨rfl, pyTake_length_le _ _⟩

/-- Shape of the wmo_content_reviewer style check. -/
theorem wcrCheckStyle_shape (ls : List String) :
    ∀ i ∈ wcrCheckStyle ls,
      i.category = "Style Guide" ∧ i.context.length ≤ 100 := by
  intro i hi
  rw [wcrCheckStyle] at hi
  rcases List.mem_flatMap.mp hi with ⟨il, _, hm⟩
  rw [wcrStyleLine] at hm
  simp only [List.mem_append] at hm
  rcases hm with (h | h) | h
  · rw [wcrWmoCapIssues] at h
    rw [mem_ite_singleton h]
    exact ⟨rfl, pyTake_length_le _ _⟩
  · rw [wcrLongSentenceIssues] at h
    rcases List.mem_flatMap.mp h with ⟨s, _, hm2⟩
    dsimp only at hm2
    split at hm2
    · rw [List.mem_singleton.mp hm2]
      exact ⟨rfl, pyTake_length_le _ _⟩
    · simp at hm2
  · rw [wcrPassiveIssues] at h
    rw [mem_ite_singleton h]
    exact ⟨rfl, pyTake_length_le _ _⟩

/-- Shape of the wmo_content_reviewer accessibility check. -/
theorem wcrCheckAccessibility_shape (c : String) :
    ∀ i ∈ wcrCheckAccessibility c,
      i.category = "Accessibility" ∧ i.context.length ≤ 100 := by
  intro i hi
  rw [wcrCheckAccessibility] at hi
  simp only [List.mem_append] at hi
  rcases hi with (h | h) | h
  · rw [wcrImgIssues] at h
    rcases List.mem_flatMap.mp h with ⟨m, _, hm⟩
    dsimp only at hm
    split at hm
    · rw [List.mem_singleton.mp hm]
      exact ⟨rfl, pyTake_length_le _ _⟩
    · split at hm
      · rw [List.mem_singleton.mp hm]
        exact ⟨rfl, pyTake_length_le _ _⟩
      · simp at hm
  · rw [wcrH1Issues] at h
    rcases hd : wcrHeadingDigits c with _ | ⟨d, t⟩
    · rw [hd] at h
      simp at h
    · rw [hd] at h
      rw [mem_ite_singleton h]
      exact ⟨rfl, by simp⟩
  · rw [wcrGenericLinkIssues] at h
    rcases List.mem_flatMap.mp h with ⟨m, _, hm⟩
    dsimp only at hm
    rw [mem_ite_singleton hm]
    exact ⟨rfl, pyTake_length_le _ _⟩

/-- Shape of the wmo_content_reviewer grammar check. -/
theorem wcrCheckGrammar_shape (ls : List String) :
    ∀ i ∈ wcrCheckGrammar ls,
      i.category ∈ (["Grammar", "Clarity"] : List String) ∧ i.context.length ≤ 100 := by
  intro i hi
  rw [wcrCheckGrammar] at hi
  rcases List.mem_flatMap.mp hi with ⟨il, _, hm⟩
  rw [wcrGrammarLine] at hm
  simp only [List.mem_append] at hm
  rcases hm with (h | h) | h <;> rw [mem_ite_singleton h] <;>
    exact ⟨by simp, pyTake_length_le _ _⟩

/-- Shape of the wmo_content_reviewer technical-accuracy check. -/
theorem wcrCheckTech_shape (ls : List String) :
    ∀ i ∈ wcrCheckTech ls,
      i.category = "Technical Accuracy" ∧ i.context.length ≤ 100 := by
  intro i hi
  rw [wcrCheckTech] at hi
  rcases List.mem_flatMap.mp hi with ⟨il, _, hm⟩
  rw [wcrTechLine] at hm
  simp only [List.mem_append] at hm
  rcases hm with h | h <;> rw [mem_ite_singleton h] <;>
    exact ⟨rfl, pyTake_length_le _ _⟩

/-- Shape of the heading-structure walk: Document Structure category,
bounded context, and WARNING exactly for the skip issues. -/
theorem wcrHeadingLoop_shape :
    ∀ (prev : Option Nat) (hs : List (Nat × Nat × String)),
      ∀ i ∈ wcrHeadingLoop prev hs,
        i.category = "Document Structure" ∧ i.context.length ≤ 100 ∧
        (i.severity = WSev.WARNING ∨ i.severity = WSev.SUGGESTION) := by
  intro prev hs
  induction hs generalizing prev with
  | nil => intro i hi; simp [wcrHeadingLoop] at hi
  | cons h t ih =>
    intro i hi
    rcases prev with _ | p
    · have hi2 : i ∈ ((([] : List WIssue) ++
          (if h.2.2.data.length > 70 then [wcrLongHeadingIssue h.1 h.2.2] else [])) ++
          wcrHeadingLoop (some h.2.1) t) := hi
      simp only [List.nil_append, List.mem_append] at hi2
      rcases hi2 with h1 | h1
      · rw [mem_ite_singleton h1, wcrLongHeadingIssue]
        exact ⟨rfl, pyTake_length_le _ _, Or.inr rfl⟩
      · exact ih _ i h1
    · have hi2 : i ∈ (((if h.2.1 > p + 1 then [wcrSkipIssue p h.2.1 h.1 h.2.2] else []) ++
          (if h.2.2.data.length > 70 then [wcrLongHeadingIssue h.1 h.2.2] else [])) ++
          wcrHeadingLoop (some h.2.1) t) := hi
      simp only [List.mem_append] at hi2
      rcases hi2 with (h1 | h1) | h1
      · rw [mem_ite_singleton h1, wcrSkipIssue]
        exact ⟨rfl, pyTake_length_le _ _, Or.inl rfl⟩
      · rw [mem_ite_singleton h1, wcrLongHeadingIssue]
        exact ⟨rfl, pyTake_length_le _ _, Or.inr rfl⟩
      · exact ih _ i h1

/-- Shape of the wmo_content_reviewer links check. -/
theorem wcrCheckLinks_shape (c : String) :
    ∀ i ∈ wcrCheckLinks c, i.category = "Links" := by
  intro i hi
  rw [wcrCheckLinks] at hi
  simp only [List.mem_append] at hi
  rcases hi with h | h
  · rw [wcrHtmlLinkIssues] at h
    rcases List.mem_flatMap.mp h with ⟨m, _, hm⟩
    dsimp only at hm
    simp only [List.mem_append] at hm
    rcases hm with h2 | h2 <;> rw [mem_ite_singleton h2]
  · rw [wcrMdLinkIssues] at h
    rcases List.mem_flatMap.mp h with ⟨m, _, hm⟩
    dsimp only at hm
    rw [mem_ite_singleton hm]

/-- Shape of the wmo_content_reviewer SEO check. -/
theorem wcrCheckSeo_shape (c : String) :
    ∀ i ∈ wcrCheckSeo c, i.category = "SEO" ∧ i.context = "" := by
  intro i hi
  rw [wcrCheckSeo] at hi
  simp only [List.mem_append] at hi
  rcases hi with (h | h) | h
  · rw [mem_ite_singleton h]
    exact ⟨rfl, rfl⟩
  · rcases hm : reSearch metaDescContentRE c with _ | m
    · rw [hm] at h
      simp at h
    · rw [hm] at h
      dsimp only at h
      split at h
      · rw [List.mem_singleton.mp h]
        exact ⟨rfl, rfl⟩
      · split at h
        · rw [List.mem_singleton.mp h]
          exact ⟨rfl, rfl⟩
        · simp at h
  · rw [mem_ite_singleton h]
    exact ⟨rfl, rfl⟩

/-- Claim C2, counterexample: the markdown-link check of
wmo_content_reviewer stores the whole matched link as the issue context
with no truncation; on a document that is a single placeholder link with a
one-hundred-character text, review returns a Links issue whose context is
one hundred five characters long, exceeding the claimed bound of one
hundred. -/
theorem C2_counterexample :
    (wcrReview c2doc).map (fun i => (i.category, i.context.length)) =
      [("Links", 105), ("SEO", 0)] := by
  decide

/-- Claim C2, amended: every issue produced by the billie_jean review has
a context of at most one hundred characters (its only nonempty contexts
are truncated sentence excerpts), and every issue produced by the
wmo_content_reviewer review outside the Links category has a context of
at most one hundred characters; the Links category carries the full
matched link or URL untruncated, and flagged_text may likewise carry the
full matched text (for example the full HTTP URL). -/
theorem C2_amended (ct : ContentType) (content c2 : String) :
    ((bjReview ct content).1.all (fun i => decide (i.context.length ≤ 100))) = true ∧
    ((wcrReview c2).all
      (fun i => i.category == "Links" || decide (i.context.length ≤ 100))) = true := by
  constructor
  · rw [List.all_eq_true]
    intro i hi
    rw [decide_eq_true_eq]
    have hi2 : i ∈ bjRawIssues ct content :=
      (List.perm_insertionSort bjRel (bjRawIssues ct content)).mem_iff.mp hi
    rw [bjRawIssues] at hi2
    simp only [List.mem_append] at hi2
    rcases hi2 with ((((((((((h | h) | h) | h) | h) | h) | h) | h) | h) | h) | h)
    · rw [bjCheckStrategic_shape content i h]
      decide
    · exact (bjCheckStyle_shape _ i h).2.1
    · rw [(bjCheckAccessibility_shape content i h).2]
      decide
    · rw [(bjCheckReadability_shape content i h).2]
      decide
    · rw [(bjCheckTerminology_shape _ i h).2]
      decide
    · rw [(bjCheckAbbreviations_shape _ i h).2.1]
      decide
    · split at h
      · rw [(bjCheckNews_shape content _ i h).2]
        decide
      · simp at h
    · rw [(bjCheckSeo_shape content i h).2]
      decide
    · rw [(bjCheckTargetAudience_shape content i h).2]
      decide
    · rw [(bjCheckFormatting_shape _ i h).2]
      decide
    · rw [(bjCheckLinks_shape content i h).2]
      decide
  · rw [List.all_eq_true]
    intro i hi
    rw [Bool.or_eq_true, decide_eq_true_eq]
    have hi2 : i ∈ wcrRawIssues c2 :=
      (List.perm_insertionSort wcrRel (wcrRawIssues c2)).mem_iff.mp hi
    rw [wcrRawIssues] at hi2
    simp only [List.mem_append] at hi2
    rcases hi2 with (((((((h | h) | h) | h) | h) | h) | h) | h) | h
    · exact Or.inr (wcrCheckTerminology_shape _ i h).2
    · exact Or.inr (wcrCheckAbbreviations_shape _ i h).2
    · exact Or.inr (wcrCheckStyle_shape _ i h).2
    · exact Or.inr (wcrCheckAccessibility_shape c2 i h).2
    · exact Or.inr (wcrCheckGrammar_shape _ i h).2
    · exact Or.inr (wcrCheckTech_shape _ i h).2
    · exact Or.inr (wcrHeadingLoop_shape _ _ i h).2.1
    · refine Or.inl ?_
      rw [wcrCheckLinks_shape c2 i h]
      decide
    · refine Or.inr ?_
      rw [(wcrCheckSeo_shape c2 i h).2]
      decide

/-- Only the strategic-alignment check emits issues of the Strategic
Alignment category: filtering the raw collection by that category yields
exactly the strategic-check output. -/
theorem bjRaw_strategic_filter (ct : ContentType) (c : String) :
    (bjRawIssues ct c).filter (fun i => i.category == "Strategic Alignment") =
      bjCheckStrategic c := by
  have hz : ∀ (L : List ReviewIssue), (∀ i ∈ L, i.category ≠ "Strategic Alignment") →
      L.filter (fun i => i.category == "Strategic Alignment") = [] := by
    intro L hL
    rw [List.filter_eq_nil_iff]
    intro i hi
    simp [hL i hi]
  rw [bjRawIssues]
  simp only [List.filter_append]
  rw [List.filter_eq_self.mpr (fun i hi => by rw [bjCheckStrategic_shape c i hi]; decide)]
  rw [hz _ (fun i hi => by
    intro hc
    have := (bjCheckStyle_shape _ i hi).1
    rw [hc] at this
    exact absurd this (by decide))]
  rw [hz _ (fun i hi => by
    intro hc
    have := (bjCheckAccessibility_shape c i hi).1
    rw [hc] at this
    exact absurd this (by decide))]
  rw [hz _ (fun i hi => by
    intro hc
    have := (bjCheckReadability_shape c i hi).1
    rw [hc] at this
    exact absurd this (by decide))]
  rw [hz _ (fun i hi => by
    intro hc
    have := (bjCheckTerminology_shape _ i hi).1
    rw [hc] at this
    exact absurd this (by decide))]
  rw [hz _ (fun i hi => by
    intro hc
    have := (bjCheckAbbreviations_shape _ i hi).1
    rw [hc] at this
    exact absurd this (by decide))]
  rw [hz (if ct == ContentType.NEWS_ARTICLE then bjCheckNews c (pyLines c) else [])
    (fun i hi => by
      split at hi
      · intro hc
        have := (bjCheckNews_shape c _ i hi).1
        rw [hc] at this
        exact absurd this (by decide)
      · simp at hi)]
  rw [hz _ (fun i hi => by
    intro hc
    have := (bjCheckSeo_shape c i hi).1
    rw [hc] at this
    exact absurd this (by decide))]
  rw [hz _ (fun i hi => by
    intro hc
    have := (bjCheckTargetAudience_shape c i hi).1
    rw [hc] at this
    exact absurd this (by decide))]
  rw [hz _ (fun i hi => by
    intro hc
    have := (bjCheckFormatting_shape _ i hi).1
    rw [hc] at this
    exact absurd this (by decide))]
  rw [hz _ (fun i hi => by
    intro hc
    have := (bjCheckLinks_shape c i hi).1
    rw [hc] at this
    exact absurd this (by decide))]
  simp

/-- Claim C3: a document containing the keyword flood and no other
strategic keyword sets only the hydrometeorological flag, has coverage
exactly twenty, and triggers no Strategic Alignment issue (the CRITICAL
issue fires only for coverage strictly below twenty); a document
containing no strategic keyword has coverage zero and its review output
contains exactly one Strategic Alignment issue, the document-level
CRITICAL one, never duplicated. -/
theorem C3_thm (ct : ContentType) (c1 c2 : String) :
    ((kwHit c1 "flood" = true ∧
      (∀ kw ∈ bjAllKeywords, kw ≠ "flood" → kwHit c1 kw = false)) →
      (bjStrategicFlags c1 = ⟨false, false, false, false, true⟩ ∧
       (bjStrategicFlags c1).get_coverage = 20 ∧
       (bjReview ct c1).1.countP (fun i => i.category == "Strategic Alignment") = 0)) ∧
    ((∀ kw ∈ bjAllKeywords, kwHit c2 kw = false) →
      ((bjStrategicFlags c2).get_coverage = 0 ∧
       (bjReview ct c2).1.filter (fun i => i.category == "Strategic Alignment") =
         [bjStrategicIssue])) := by
  constructor
  · intro h
    have hne : ∀ (L : List String), "flood" ∉ L → (∀ kw ∈ L, kw ∈ bjAllKeywords) →
        L.any (kwHit c1) = false := by
      intro L hfl hsub
      rw [List.any_eq_false]
      intro kw hkw
      rw [h.2 kw (hsub kw hkw) (fun he => hfl (he ▸ hkw))]
      simp
    have hsubE : ∀ kw ∈ bjKwEarth, kw ∈ bjAllKeywords := by
      intro kw hkw
      rw [bjAllKeywords]
      simp [hkw]
    have hsubEa : ∀ kw ∈ bjKwEarly, kw ∈ bjAllKeywords := by
      intro kw hkw
      rw [bjAllKeywords]
      simp [hkw]
    have hsubC : ∀ kw ∈ bjKwClimate, kw ∈ bjAllKeywords := by
      intro kw hkw
      rw [bjAllKeywords]
      simp [hkw]
    have hsubCa : ∀ kw ∈ bjKwCapacity, kw ∈ bjAllKeywords := by
      intro kw hkw
      rw [bjAllKeywords]
      simp [hkw]
    have hflags : bjStrategicFlags c1 = ⟨false, false, false, false, true⟩ := by
      rw [bjStrategicFlags, hne bjKwEarth (by decide) hsubE,
        hne bjKwEarly (by decide) hsubEa, hne bjKwClimate (by decide) hsubC,
        hne bjKwCapacity (by decide) hsubCa,
        List.any_eq_true.mpr ⟨"flood", by decide, h.1⟩]
    refine ⟨hflags, ?_, ?_⟩
    · rw [hflags]
      norm_num [StrategicAlignment.get_coverage, StrategicAlignment.covered]
    · have hperm := List.perm_insertionSort bjRel (bjRawIssues ct c1)
      rw [show (bjReview ct c1).1 = List.insertionSort bjRel (bjRawIssues ct c1) from rfl,
        hperm.countP_eq, List.countP_eq_length_filter, bjRaw_strategic_filter,
        bjCheckStrategic_eq, hflags]
      decide
  · intro h
    have hne : ∀ (L : List String), (∀ kw ∈ L, kw ∈ bjAllKeywords) →
        L.any (kwHit c2) = false := by
      intro L hsub
      rw [List.any_eq_false]
      intro kw hkw
      rw [h kw (hsub kw hkw)]
      simp
    have hflags : bjStrategicFlags c2 = ⟨false, false, false, false, false⟩ := by
      rw [bjStrategicFlags,
        hne bjKwEarth (fun kw hkw => by rw [bjAllKeywords]; simp [hkw]),
        hne bjKwEarly (fun kw hkw => by rw [bjAllKeywords]; simp [hkw]),
        hne bjKwClimate (fun kw hkw => by rw [bjAllKeywords]; simp [hkw]),
        hne bjKwCapacity (fun kw hkw => by rw [bjAllKeywords]; simp [hkw]),
        hne bjKwHydro (fun kw hkw => by rw [bjAllKeywords]; simp [hkw])]
    constructor
    · rw [hflags]
      norm_num [StrategicAlignment.get_coverage, StrategicAlignment.covered]
    · have hperm := List.perm_insertionSort bjRel (bjRawIssues ct c2)
      have hfil : (bjRawIssues ct c2).filter
          (fun i => i.category == "Strategic Alignment") = [bjStrategicIssue] := by
        rw [bjRaw_strategic_filter, bjCheckStrategic_eq, hflags]
        decide
      refine List.perm_singleton.mp ?_
      rw [← hfil]
      exact hperm.filter _

/-- A list in which the predicate never holds has a zero count. -/
theorem countP_zero_of {α : Type} {L : List α} {p : α → Bool}
    (h : ∀ i ∈ L, p i = false) : L.countP p = 0 := by
  rw [List.countP_eq_zero]
  intro i hi
  simp [h i hi]

/-- A list in which the predicate never holds filters to nil. -/
theorem filter_nil_of {α : Type} {L : List α} {p : α → Bool}
    (h : ∀ i ∈ L, p i = false) : L.filter p = [] := by
  rw [List.filter_eq_nil_iff]
  intro i hi
  simp [h i hi]

/-- A conjunction whose left category test fails is false. -/
theorem beq_and_false {a b : String} (h : a ≠ b) (x : Bool) : (a == b && x) = false := by
  simp [h]

/-- Filtering the raw billie_jean collection by an accessibility-category
predicate reduces to filtering the accessibility check alone. -/
theorem bjRaw_acc_filter (ct : ContentType) (c : String) (p2 : ReviewIssue → Bool) :
    (bjRawIssues ct c).filter (fun i => i.category == "Accessibility (WCAG 2.1)" && p2 i) =
    (bjCheckAccessibility c).filter
      (fun i => i.category == "Accessibility (WCAG 2.1)" && p2 i) := by
  rw [bjRawIssues]
  simp only [List.filter_append]
  rw [filter_nil_of (L := bjCheckStrategic c) (fun i hi => by
    rw [bjCheckStrategic_shape c i hi]
    exact beq_and_false (by decide) _)]
  rw [filter_nil_of (L := bjCheckStyle (pyLines c)) (fun i hi => beq_and_false (fun hc => by
    have := (bjCheckStyle_shape (pyLines c) i hi).1
    rw [hc] at this
    exact absurd this (by decide)) _)]
  rw [filter_nil_of (L := bjCheckReadability c) (fun i hi => beq_and_false (fun hc => by
    have := (bjCheckReadability_shape c i hi).1
    rw [hc] at this
    exact absurd this (by decide)) _)]
  rw [filter_nil_of (L := bjCheckTerminology (pyLines c)) (fun i hi => beq_and_false (fun hc => by
    have := (bjCheckTerminology_shape (pyLines c) i hi).1
    rw [hc] at this
    exact absurd this (by decide)) _)]
  rw [filter_nil_of (L := bjCheckAbbreviations (pyLines c)) (fun i hi => beq_and_false (fun hc => by
    have := (bjCheckAbbreviations_shape (pyLines c) i hi).1
    rw [hc] at this
    exact absurd this (by decide)) _)]
  rw [filter_nil_of (L := (if ct == ContentType.NEWS_ARTICLE
      then bjCheckNews c (pyLines c) else [])) (fun i hi => by
    split at hi
    · exact beq_and_false (fun hc => by
        have := (bjCheckNews_shape c _ i hi).1
        rw [hc] at this
        exact absurd this (by decide)) _
    · simp at hi)]
  rw [filter_nil_of (L := bjCheckSeo c) (fun i hi => beq_and_false (fun hc => by
    have := (bjCheckSeo_shape c i hi).1
    rw [hc] at this
    exact absurd this (by decide)) _)]
  rw [filter_nil_of (L := bjCheckTargetAudience c) (fun i hi => beq_and_false (fun hc => by
    have := (bjCheckTargetAudience_shape c i hi).1
    rw [hc] at this
    exact absurd this (by decide)) _)]
  rw [filter_nil_of (L := bjCheckFormatting (pyLines c)) (fun i hi => beq_and_false (fun hc => by
    have := (bjCheckFormatting_shape (pyLines c) i hi).1
    rw [hc] at this
    exact absurd this (by decide)) _)]
  rw [filter_nil_of (L := bjCheckLinks c) (fun i hi => beq_and_false (fun hc => by
    have := (bjCheckLinks_shape c i hi).1
    rw [hc] at this
    exact absurd this (by decide)) _)]
  simp

/-- Filtering the raw billie_jean collection by an abbreviation-category
predicate reduces to the style and abbreviation checks. -/
theorem bjRaw_abbrevcat_filter (ct : ContentType) (c : String) (p2 : ReviewIssue → Bool) :
    (bjRawIssues ct c).filter (fun i => i.category == "Style Guide - Abbreviations" && p2 i) =
    (bjCheckStyle (pyLines c)).filter
      (fun i => i.category == "Style Guide - Abbreviations" && p2 i) ++
    (bjCheckAbbreviations (pyLines c)).filter
      (fun i => i.category == "Style Guide - Abbreviations" && p2 i) := by
  rw [bjRawIssues]
  simp only [List.filter_append]
  rw [filter_nil_of (L := bjCheckStrategic c) (fun i hi => by
    rw [bjCheckStrategic_shape c i hi]
    exact beq_and_false (by decide) _)]
  rw [filter_nil_of (L := bjCheckAccessibility c) (fun i hi => beq_and_false (fun hc => by
    have := (bjCheckAccessibility_shape c i hi).1
    rw [hc] at this
    exact absurd this (by decide)) _)]
  rw [filter_nil_of (L := bjCheckReadability c) (fun i hi => beq_and_false (fun hc => by
    have := (bjCheckReadability_shape c i hi).1
    rw [hc] at this
    exact absurd this (by decide)) _)]
  rw [filter_nil_of (L := bjCheckTerminology (pyLines c)) (fun i hi => beq_and_false (fun hc => by
    have := (bjCheckTerminology_shape (pyLines c) i hi).1
    rw [hc] at this
    exact absurd this (by decide)) _)]
  rw [filter_nil_of (L := (if ct == ContentType.NEWS_ARTICLE
      then bjCheckNews c (pyLines c) else [])) (fun i hi => by
    split at hi
    · exact beq_and_false (fun hc => by
        have := (bjCheckNews_shape c _ i hi).1
        rw [hc] at this
        exact absurd this (by decide)) _
    · simp at hi)]
  rw [filter_nil_of (L := bjCheckSeo c) (fun i hi => beq_and_false (fun hc => by
    have := (bjCheckSeo_shape c i hi).1
    rw [hc] at this
    exact absurd this (by decide)) _)]
  rw [filter_nil_of (L := bjCheckTargetAudience c) (fun i hi => beq_and_false (fun hc => by
    have := (bjCheckTargetAudience_shape c i hi).1
    rw [hc] at this
    exact absurd this (by decide)) _)]
  rw [filter_nil_of (L := bjCheckFormatting (pyLines c)) (fun i hi => beq_and_false (fun hc => by
    have := (bjCheckFormatting_shape (pyLines c) i hi).1
    rw [hc] at this
    exact absurd this (by decide)) _)]
  rw [filter_nil_of (L := bjCheckLinks c) (fun i hi => beq_and_false (fun hc => by
    have := (bjCheckLinks_shape c i hi).1
    rw [hc] at this
    exact absurd this (by decide)) _)]
  simp

/-- Filtering the raw wmo_content_reviewer collection by an
Abbreviations-category predicate reduces to the abbreviation check. -/
theorem wcrRaw_abbrev_filter (c : String) (p2 : WIssue → Bool) :
    (wcrRawIssues c).filter (fun i => i.category == "Abbreviations" && p2 i) =
    (wcrCheckAbbreviations (pyLines c)).filter
      (fun i => i.category == "Abbreviations" && p2 i) := by
  rw [wcrRawIssues]
  simp only [List.filter_append]
  rw [filter_nil_of (L := wcrCheckTerminology (pyLines c)) (fun i hi => beq_and_false (fun hc => by
    have := (wcrCheckTerminology_shape (pyLines c) i hi).1
    rw [hc] at this
    exact absurd this (by decide)) _)]
  rw [filter_nil_of (L := wcrCheckStyle (pyLines c)) (fun i hi => beq_and_false (fun hc => by
    have := (wcrCheckStyle_shape (pyLines c) i hi).1
    rw [hc] at this
    exact absurd this (by decide)) _)]
  rw [filter_nil_of (L := wcrCheckAccessibility c) (fun i hi => beq_and_false (fun hc => by
    have := (wcrCheckAccessibility_shape c i hi).1
    rw [hc] at this
    exact absurd this (by decide)) _)]
  rw [filter_nil_of (L := wcrCheckGrammar (pyLines c)) (fun i hi => beq_and_false (fun hc => by
    have := (wcrCheckGrammar_shape (pyLines c) i hi).1
    rw [hc] at this
    exact absurd this (by decide)) _)]
  rw [filter_nil_of (L := wcrCheckTech (pyLines c)) (fun i hi => beq_and_false (fun hc => by
    have := (wcrCheckTech_shape (pyLines c) i hi).1
    rw [hc] at this
    exact absurd this (by decide)) _)]
  rw [filter_nil_of (L := wcrCheckHeadingStructure c) (fun i hi => beq_and_false (fun hc => by
    have := (wcrHeadingLoop_shape none (wcrHeadings c) i hi).1
    rw [hc] at this
    exact absurd this (by decide)) _)]
  rw [filter_nil_of (L := wcrCheckLinks c) (fun i hi => beq_and_false (fun hc => by
    have := wcrCheckLinks_shape c i hi
    rw [hc] at this
    exact absurd this (by decide)) _)]
  rw [filter_nil_of (L := wcrCheckSeo c) (fun i hi => beq_and_false (fun hc => by
    have := (wcrCheckSeo_shape c i hi).1
    rw [hc] at this
    exact absurd this (by decide)) _)]
  simp

/-- Filtering the raw wmo_content_reviewer collection by a
Terminology-category predicate reduces to the terminology check. -/
theorem wcrRaw_term_filter (c : String) (p2 : WIssue → Bool) :
    (wcrRawIssues c).filter (fun i => i.category == "Terminology" && p2 i) =
    (wcrCheckTerminology (pyLines c)).filter
      (fun i => i.category == "Terminology" && p2 i) := by
  rw [wcrRawIssues]
  simp only [List.filter_append]
  rw [filter_nil_of (L := wcrCheckAbbreviations (pyLines c)) (fun i hi => beq_and_false (fun hc => by
    have := (wcrCheckAbbreviations_shape (pyLines c) i hi).1
    rw [hc] at this
    exact absurd this (by decide)) _)]
  rw [filter_nil_of (L := wcrCheckStyle (pyLines c)) (fun i hi => beq_and_false (fun hc => by
    have := (wcrCheckStyle_shape (pyLines c) i hi).1
    rw [hc] at this
    exact absurd this (by decide)) _)]
  rw [filter_nil_of (L := wcrCheckAccessibility c) (fun i hi => beq_and_false (fun hc => by
    have := (wcrCheckAccessibility_shape c i hi).1
    rw [hc] at this
    exact absurd this (by decide)) _)]
  rw [filter_nil_of (L := wcrCheckGrammar (pyLines c)) (fun i hi => beq_and_false (fun hc => by
    have := (wcrCheckGrammar_shape (pyLines c) i hi).1
    rw [hc] at this
    exact absurd this (by decide)) _)]
  rw [filter_nil_of (L := wcrCheckTech (pyLines c)) (fun i hi => beq_and_false (fun hc => by
    have := (wcrCheckTech_shape (pyLines c) i hi).1
    rw [hc] at this
    exact absurd this (by decide)) _)]
  rw [filter_nil_of (L := wcrCheckHeadingStructure c) (fun i hi => beq_and_false (fun hc => by
    have := (wcrHeadingLoop_shape none (wcrHeadings c) i hi).1
    rw [hc] at this
    exact absurd this (by decide)) _)]
  rw [filter_nil_of (L := wcrCheckLinks c) (fun i hi => beq_and_false (fun hc => by
    have := wcrCheckLinks_shape c i hi
    rw [hc] at this
    exact absurd this (by decide)) _)]
  rw [filter_nil_of (L := wcrCheckSeo c) (fun i hi => beq_and_false (fun hc => by
    have := (wcrCheckSeo_shape c i hi).1
    rw [hc] at this
    exact absurd this (by decide)) _)]
  simp

/-- Filtering the raw wmo_content_reviewer collection by a
Document-Structure-category predicate reduces to the heading check. -/
theorem wcrRaw_docstruct_filter (c : String) (p2 : WIssue → Bool) :
    (wcrRawIssues c).filter (fun i => i.category == "Document Structure" && p2 i) =
    (wcrCheckHeadingStructure c).filter
      (fun i => i.category == "Document Structure" && p2 i) := by
  rw [wcrRawIssues]
  simp only [List.filter_append]
  rw [filter_nil_of (L := wcrCheckTerminology (pyLines c)) (fun i hi => beq_and_false (fun hc => by
    have := (wcrCheckTerminology_shape (pyLines c) i hi).1
    rw [hc] at this
    exact absurd this (by decide)) _)]
  rw [filter_nil_of (L := wcrCheckAbbreviations (pyLines c)) (fun i hi => beq_and_false (fun hc => by
    have := (wcrCheckAbbreviations_shape (pyLines c) i hi).1
    rw [hc] at this
    exact absurd this (by decide)) _)]
  rw [filter_nil_of (L := wcrCheckStyle (pyLines c)) (fun i hi => beq_and_false (fun hc => by
    have := (wcrCheckStyle_shape (pyLines c) i hi).1
    rw [hc] at this
    exact absurd this (by decide)) _)]
  rw [filter_nil_of (L := wcrCheckAccessibility c) (fun i hi => beq_and_false (fun hc => by
    have := (wcrCheckAccessibility_shape c i hi).1
    rw [hc] at this
    exact absurd this (by decide)) _)]
  rw [filter_nil_of (L := wcrCheckGrammar (pyLines c)) (fun i hi => beq_and_false (fun hc => by
    have := (wcrCheckGrammar_shape (pyLines c) i hi).1
    rw [hc] at this
    exact absurd this (by decide)) _)]
  rw [filter_nil_of (L := wcrCheckTech (pyLines c)) (fun i hi => beq_and_false (fun hc => by
    have := (wcrCheckTech_shape (pyLines c) i hi).1
    rw [hc] at this
    exact absurd this (by decide)) _)]
  rw [filter_nil_of (L := wcrCheckLinks c) (fun i hi => beq_and_false (fun hc => by
    have := wcrCheckLinks_shape c i hi
    rw [hc] at this
    exact absurd this (by decide)) _)]
  rw [filter_nil_of (L := wcrCheckSeo c) (fun i hi => beq_and_false (fun hc => by
    have := (wcrCheckSeo_shape c i hi).1
    rw [hc] at this
    exact absurd this (by decide)) _)]
  simp

/-- Claim C3, witness: the document consisting of the word flood, and the
document consisting of the letter x, realize the two hypotheses of the
strategic-alignment claim. -/
theorem C3_witness :
    (bjStrategicFlags "flood" = ⟨false, false, false, false, true⟩ ∧
     (bjStrategicFlags "flood").get_coverage = 20 ∧
     (bjReview ContentType.UNKNOWN "flood").1.countP
       (fun i => i.category == "Strategic Alignment") = 0) ∧
    ((bjStrategicFlags "x").get_coverage = 0 ∧
     (bjReview ContentType.UNKNOWN "x").1.filter
       (fun i => i.category == "Strategic Alignment") = [bjStrategicIssue]) := by
  exact ⟨(C3_thm ContentType.UNKNOWN "flood" "x").1 ⟨by decide, by decide⟩,
         (C3_thm ContentType.UNKNOWN "flood" "x").2 (by decide)⟩

/-- Claim C7: review returns normally on every input (the embedding is a
total function of the document); on the empty document billie_jean
returns exactly the document-level strategic CRITICAL issue and
wmo_content_reviewer exactly the missing-title warning, with no error;
and a check that finds zero qualifying elements contributes zero issues:
with no collected headings there is no heading-structure issue, and with
no image-tag matches no image issue. -/
theorem C7_thm :
    ((bjReview ContentType.UNKNOWN "").1 = [bjStrategicIssue]) ∧
    (wcrReview "" = [wcrTitleIssue]) ∧
    (∀ (ct : ContentType) (content : String), bjHeadings content = [] →
      (bjReview ct content).1.countP (fun i =>
        i.category == "Accessibility (WCAG 2.1)" &&
        (i.suggestion == "Use H1 for main title, then H2 for sections, H3 for subsections" ||
         i.suggestion == "Maintain sequential heading levels for screen reader users")) = 0) ∧
    (∀ (ct : ContentType) (content : String), reFindIter bjImgRE content = [] →
      (bjReview ct content).1.countP (fun i =>
        i.category == "Accessibility (WCAG 2.1)" &&
        (i.suggestion == "Add descriptive alt text: alt=" ++ sq ++
           "[description of image content and function]" ++ sq ||
         i.suggestion == "If decorative, use alt=" ++ sq ++ sq ++
           ". If meaningful, provide descriptive text")) = 0) := by
  refine ⟨?_, ?_, ?_, ?_⟩
  · rw [bjReview, bjRawIssues_eval]
    decide
  · decide
  · intro ct content hh
    have hperm := List.perm_insertionSort bjRel (bjRawIssues ct content)
    rw [show (bjReview ct content).1 =
        List.insertionSort bjRel (bjRawIssues ct content) from rfl,
      hperm.countP_eq, List.countP_eq_length_filter, bjRaw_acc_filter,
      bjCheckAccessibility, hh]
    simp only [List.filter_append]
    rw [filter_nil_of (L := bjImgIssues content) (fun i hi => by
      have h1 := (bjImgIssues_shape content i hi).1
      rcases (bjImgIssues_shape content i hi).2.2 with h2 | h2 <;> rw [h1, h2] <;> decide)]
    rw [filter_nil_of (L := bjGenericLinkIssues content) (fun i hi => by
      have h1 := (bjGenericLinkIssues_shape content i hi).1
      have h2 := (bjGenericLinkIssues_shape content i hi).2.2
      rw [h1, h2]
      decide)]
    simp [bjStartHeadingIssues, bjSkipIssues]
  · intro ct content himg
    have hperm := List.perm_insertionSort bjRel (bjRawIssues ct content)
    rw [show (bjReview ct content).1 =
        List.insertionSort bjRel (bjRawIssues ct content) from rfl,
      hperm.countP_eq, List.countP_eq_length_filter, bjRaw_acc_filter,
      bjCheckAccessibility, bjImgIssues, himg]
    simp only [List.filter_append]
    rw [filter_nil_of (L := bjStartHeadingIssues (bjHeadings content)) (fun i hi => by
      rcases bjStartHeadingIssues_shape _ i hi with ⟨l, he⟩
      rw [he]
      simp [bjStartIssue]
      decide)]
    rw [filter_nil_of (L := bjSkipIssues (bjHeadings content)) (fun i hi => by
      rcases bjSkipIssues_shape _ i hi with ⟨p, cc, l, he⟩
      rw [he]
      simp [bjSkipIssue]
      decide)]
    rw [filter_nil_of (L := bjGenericLinkIssues content) (fun i hi => by
      have h1 := (bjGenericLinkIssues_shape content i hi).1
      have h2 := (bjGenericLinkIssues_shape content i hi).2.2
      rw [h1, h2]
      decide)]
    simp

/-- Claim C7, witness: a one-word document with no markup has no heading
and no image tag, and indeed contributes no heading or image issues. -/
theorem C7_witness :
    bjHeadings "hello" = [] ∧
    (bjReview ContentType.UNKNOWN "hello").1.countP (fun i =>
      i.category == "Accessibility (WCAG 2.1)" &&
      (i.suggestion == "Use H1 for main title, then H2 for sections, H3 for subsections" ||
       i.suggestion == "Maintain sequential heading levels for screen reader users")) = 0 ∧
    reFindIter bjImgRE "hello" = [] ∧
    (bjReview ContentType.UNKNOWN "hello").1.countP (fun i =>
      i.category == "Accessibility (WCAG 2.1)" &&
      (i.suggestion == "Add descriptive alt text: alt=" ++ sq ++
         "[description of image content and function]" ++ sq ||
       i.suggestion == "If decorative, use alt=" ++ sq ++ sq ++
         ". If meaningful, provide descriptive text")) = 0 := by
  refine ⟨by decide, C7_thm.2.2.1 ContentType.UNKNOWN "hello" (by decide), by decide,
    C7_thm.2.2.2 ContentType.UNKNOWN "hello" (by decide)⟩

/-- A flatMap whose function yields nil everywhere is nil. -/
theorem flatMap_nil_of {α β : Type} {l : List α} {f : α → List β}
    (h : ∀ x ∈ l, f x = []) : l.flatMap f = [] := by
  induction l with
  | nil => rfl
  | cons x t ih =>
    simp [List.flatMap_cons, h x (List.mem_cons_self _ _),
      ih (fun y hy => h y (List.mem_cons_of_mem _ hy))]

/-- Claim C5, counterexample: on the document with a level-one markdown
heading followed directly by a level-three one, the wmo_content_reviewer
review emits its hierarchy-skip issue with severity WARNING, not ERROR:
the whole output is a single WARNING and contains no ERROR at all, so the
claim that review emits exactly one ERROR hierarchy-skip issue is false
for this review variant. -/
theorem C5_counterexample :
    (wcrReview "# a\n### b").map (fun i => (i.severity, i.category, i.line_number)) =
      [(WSev.WARNING, "Document Structure", 2)] ∧
    (wcrReview "# a\n### b").countP (fun i => i.severity == WSev.ERROR) = 0 := by
  exact ⟨by decide, by decide⟩

/-- Claim C5, amended: when the collected headings are a level-one
heading followed directly by a level-three one, the billie_jean review
emits exactly one ERROR hierarchy-skip issue citing the second heading's
line, while the wmo_content_reviewer review emits exactly one WARNING
(not ERROR) hierarchy-skip issue citing that line; when no consecutive
heading pair increases by more than one level (decreases, stays level, or
steps up by exactly one) no hierarchy-skip issue is emitted; and when
headings exist and the first one's level is not one, billie_jean emits
exactly one ERROR at that first heading's line. -/
theorem C5_amended (ct : ContentType) (content : String) :
    (∀ l1 t1 l2 t2, bjHeadings content = [(l1, 1, t1), (l2, 3, t2)] →
      (bjReview ct content).1.filter (fun i =>
        i.category == "Accessibility (WCAG 2.1)" &&
        i.suggestion == "Maintain sequential heading levels for screen reader users") =
        [bjSkipIssue 1 3 l2]) ∧
    ((∀ pc ∈ (bjHeadings content).zip (bjHeadings content).tail,
        pc.2.2.1 ≤ pc.1.2.1 + 1) →
      (bjReview ct content).1.filter (fun i =>
        i.category == "Accessibility (WCAG 2.1)" &&
        i.suggestion == "Maintain sequential heading levels for screen reader users") = []) ∧
    (∀ h0 hs2, bjHeadings content = h0 :: hs2 → h0.2.1 ≠ 1 →
      (bjReview ct content).1.filter (fun i =>
        i.category == "Accessibility (WCAG 2.1)" &&
        i.suggestion == "Use H1 for main title, then H2 for sections, H3 for subsections") =
        [bjStartIssue h0.1]) ∧
    (∀ l1 t1 l2 t2, wcrHeadings content = [(l1, 1, t1), (l2, 3, t2)] →
      (wcrReview content).filter (fun i =>
        i.category == "Document Structure" && i.severity == WSev.WARNING) =
        [wcrSkipIssue 1 3 l2 t2]) := by
  refine ⟨?_, ?_, ?_, ?_⟩
  · intro l1 t1 l2 t2 hh
    have hperm := List.perm_insertionSort bjRel (bjRawIssues ct content)
    refine List.perm_singleton.mp ?_
    have hfil : (bjRawIssues ct content).filter (fun i =>
        i.category == "Accessibility (WCAG 2.1)" &&
        i.suggestion == "Maintain sequential heading levels for screen reader users") =
        [bjSkipIssue 1 3 l2] := by
      rw [bjRaw_acc_filter, bjCheckAccessibility, hh]
      simp only [List.filter_append]
      rw [filter_nil_of (L := bjImgIssues content) (fun i hi => by
        have h1 := (bjImgIssues_shape content i hi).1
        rcases (bjImgIssues_shape content i hi).2.2 with h2 | h2 <;> rw [h1, h2] <;> decide)]
      rw [filter_nil_of (L := bjGenericLinkIssues content) (fun i hi => by
        have h1 := (bjGenericLinkIssues_shape content i hi).1
        have h2 := (bjGenericLinkIssues_shape content i hi).2.2
        rw [h1, h2]
        decide)]
      simp [bjStartHeadingIssues, bjSkipIssues, bjSkipIssue, List.filter_cons]
    rw [← hfil]
    exact hperm.filter _
  · intro hle
    have hperm := List.perm_insertionSort bjRel (bjRawIssues ct content)
    have hskip : bjSkipIssues (bjHeadings content) = [] := by
      rw [bjSkipIssues]
      refine flatMap_nil_of (fun pc hpc => ?_)
      have := hle pc hpc
      rw [if_neg (by omega)]
    have hfil : (bjRawIssues ct content).filter (fun i =>
        i.category == "Accessibility (WCAG 2.1)" &&
        i.suggestion == "Maintain sequential heading levels for screen reader users") =
        [] := by
      rw [bjRaw_acc_filter, bjCheckAccessibility, hskip]
      simp only [List.filter_append]
      rw [filter_nil_of (L := bjImgIssues content) (fun i hi => by
        have h1 := (bjImgIssues_shape content i hi).1
        rcases (bjImgIssues_shape content i hi).2.2 with h2 | h2 <;> rw [h1, h2] <;> decide)]
      rw [filter_nil_of (L := bjGenericLinkIssues content) (fun i hi => by
        have h1 := (bjGenericLinkIssues_shape content i hi).1
        have h2 := (bjGenericLinkIssues_shape content i hi).2.2
        rw [h1, h2]
        decide)]
      rw [filter_nil_of (L := bjStartHeadingIssues (bjHeadings content)) (fun i hi => by
        rcases bjStartHeadingIssues_shape _ i hi with ⟨l, he⟩
        rw [he]
        simp [bjStartIssue])]
      simp
    have := hperm.filter (fun i =>
      i.category == "Accessibility (WCAG 2.1)" &&
      i.suggestion == "Maintain sequential heading levels for screen reader users")
    rw [hfil] at this
    exact List.Perm.eq_nil this
  · intro h0 hs2 hh hne
    have hperm := List.perm_insertionSort bjRel (bjRawIssues ct content)
    refine List.perm_singleton.mp ?_
    have hfil : (bjRawIssues ct content).filter (fun i =>
        i.category == "Accessibility (WCAG 2.1)" &&
        i.suggestion == "Use H1 for main title, then H2 for sections, H3 for subsections") =
        [bjStartIssue h0.1] := by
      rw [bjRaw_acc_filter, bjCheckAccessibility, hh]
      simp only [List.filter_append]
      rw [filter_nil_of (L := bjImgIssues content) (fun i hi => by
        have h1 := (bjImgIssues_shape content i hi).1
        rcases (bjImgIssues_shape content i hi).2.2 with h2 | h2 <;> rw [h1, h2] <;> decide)]
      rw [filter_nil_of (L := bjGenericLinkIssues content) (fun i hi => by
        have h1 := (bjGenericLinkIssues_shape content i hi).1
        have h2 := (bjGenericLinkIssues_shape content i hi).2.2
        rw [h1, h2]
        decide)]
      rw [filter_nil_of (L := bjSkipIssues (h0 :: hs2)) (fun i hi => by
        rcases bjSkipIssues_shape _ i hi with ⟨p, cc, l, he⟩
        rw [he]
        simp [bjSkipIssue])]
      have hb : (h0.2.1 != 1) = true := by
        simp [hne]
      simp [bjStartHeadingIssues, hb, bjStartIssue, List.filter_cons]
    rw [← hfil]
    exact hperm.filter _
  · intro l1 t1 l2 t2 hh
    have hperm := List.perm_insertionSort wcrRel (wcrRawIssues content)
    refine List.perm_singleton.mp ?_
    have hfil : (wcrRawIssues content).filter (fun i =>
        i.category == "Document Structure" && i.severity == WSev.WARNING) =
        [wcrSkipIssue 1 3 l2 t2] := by
      rw [wcrRaw_docstruct_filter, wcrCheckHeadingStructure, hh]
      simp only [wcrHeadingLoop, List.filter_append, List.nil_append, List.append_nil]
      rw [filter_nil_of (L := if t1.data.length > 70 then [wcrLongHeadingIssue l1 t1] else [])
        (fun i hi => by
          rw [mem_ite_singleton hi]
          simp [wcrLongHeadingIssue])]
      rw [filter_nil_of (L := if t2.data.length > 70 then [wcrLongHeadingIssue l2 t2] else [])
        (fun i hi => by
          rw [mem_ite_singleton hi]
          simp [wcrLongHeadingIssue])]
      simp [List.filter_cons, wcrSkipIssue]
    rw [← hfil]
    exact hperm.filter _

/-- Claim C5, witness: the two-heading document realizes the skip case
for both reviewers, the three-heading document realizes the no-skip case,
and the single level-two heading realizes the wrong-start case. -/
theorem C5_witness :
    ((bjReview ContentType.UNKNOWN "# a\n### b").1.filter (fun i =>
        i.category == "Accessibility (WCAG 2.1)" &&
        i.suggestion == "Maintain sequential heading levels for screen reader users") =
        [bjSkipIssue 1 3 2]) ∧
    ((bjReview ContentType.UNKNOWN "# a\n## b\n### c").1.filter (fun i =>
        i.category == "Accessibility (WCAG 2.1)" &&
        i.suggestion == "Maintain sequential heading levels for screen reader users") = []) ∧
    ((bjReview ContentType.UNKNOWN "## a").1.filter (fun i =>
        i.category == "Accessibility (WCAG 2.1)" &&
        i.suggestion == "Use H1 for main title, then H2 for sections, H3 for subsections") =
        [bjStartIssue 1]) ∧
    ((wcrReview "# a\n### b").filter (fun i =>
        i.category == "Document Structure" && i.severity == WSev.WARNING) =
        [wcrSkipIssue 1 3 2 "b"]) := by
  refine ⟨(C5_amended ContentType.UNKNOWN "# a\n### b").1 1 "a" 2 "b" (by decide),
    (C5_amended ContentType.UNKNOWN "# a\n## b\n### c").2.1 (by decide),
    (C5_amended ContentType.UNKNOWN "## a").2.2.1 (1, 2, "a") [] (by decide) (by decide),
    (C5_amended ContentType.UNKNOWN "# a\n### b").2.2.2 1 "a" 2 "b" (by decide)⟩

/-- Indices make the enumerated pairs distinct. -/
theorem enumFrom_nodup {α : Type} : ∀ (n : Nat) (l : List α), (enumFrom n l).Nodup := by
  intro n l
  induction l generalizing n with
  | nil => simp [enumFrom]
  | cons x t ih =>
    rw [enumFrom]
    refine List.nodup_cons.mpr ⟨fun hmem => ?_, ih (n + 1)⟩
    have := (enumFrom_fst_lt (n + 1) t (n, x) hmem).1
    omega

/-- The sum of a map that vanishes away from one element of a
duplicate-free list is the value at that element. -/
theorem sum_map_single {α : Type} {f : α → Nat} {x : α} :
    ∀ {l : List α}, l.Nodup → x ∈ l → (∀ y ∈ l, y ≠ x → f y = 0) →
      (l.map f).sum = f x := by
  intro l
  induction l with
  | nil => intro _ hx; exact absurd hx (List.not_mem_nil x)
  | cons a t ih =>
    intro hnd hx h0
    rw [List.map_cons, List.sum_cons]
    rcases List.mem_cons.mp hx with he | hx2
    · subst he
      have ht : (t.map f).sum = 0 := by
        refine List.sum_eq_zero ?_
        intro m hm
        rcases List.mem_map.mp hm with ⟨y, hy, he2⟩
        rw [← he2]
        refine h0 y (List.mem_cons_of_mem _ hy) ?_
        rintro rfl
        exact (List.nodup_cons.mp hnd).1 hy
      rw [ht, Nat.add_zero]
    · have ha : f a = 0 := by
        refine h0 a (List.mem_cons_self _ _) ?_
        rintro rfl
        exact (List.nodup_cons.mp hnd).1 hx2
      rw [ha, Nat.zero_add]
      exact ih (List.nodup_cons.mp hnd).2 hx2 (fun y hy => h0 y (List.mem_cons_of_mem _ hy))

/-- Counting a conditional singleton. -/
theorem countP_ite_singleton {α : Type} (p : α → Bool) (c : Prop) [Decidable c] (x : α) :
    (if c then [x] else []).countP p = if c then (if p x then 1 else 0) else 0 := by
  split
  · simp [List.countP_cons]
  · rfl

/-- Counting through a flatMap of conditional singletons whose predicate
is characterized by a duplicate-free key: only the keyed element can
contribute, and it contributes exactly when its condition holds. -/
theorem countP_flatMap_keyed {γ α : Type} (c : γ → Bool) (g : γ → α) (p : α → Bool)
    (k : γ → String) (x : γ) :
    ∀ l : List γ, x ∈ l → (l.map k).Nodup → (∀ y ∈ l, p (g y) = (k y == k x)) →
      (l.flatMap (fun y => if c y then [g y] else [])).countP p =
        if c x then 1 else 0 := by
  intro l
  induction l with
  | nil => intro hx; exact absurd hx (List.not_mem_nil x)
  | cons a t ih =>
    intro hx hnd hp
    rw [List.map_cons, List.nodup_cons] at hnd
    rw [List.flatMap_cons, List.countP_append, countP_ite_singleton]
    rcases List.mem_cons.mp hx with he | hx2
    · subst he
      have ht : (t.flatMap (fun y => if c y then [g y] else [])).countP p = 0 := by
        refine countP_zero_of (fun i hi => ?_)
        rcases List.mem_flatMap.mp hi with ⟨y, hy, hm⟩
        rw [mem_ite_singleton hm, hp y (List.mem_cons_of_mem _ hy)]
        cases hb2 : k y == k x
        · rfl
        · exact absurd ((eq_of_beq hb2) ▸ List.mem_map_of_mem k hy) hnd.1
      simp [ht, hp x (List.mem_cons_self _ _)]
    · have hb : p (g a) = false := by
        rw [hp a (List.mem_cons_self _ _)]
        cases hb2 : k a == k x
        · rfl
        · exact absurd ((eq_of_beq hb2).symm ▸ List.mem_map_of_mem k hx2) hnd.1
      simp only [hb, Bool.false_eq_true, if_false, ite_self, Nat.zero_add]
      exact ih hx2 hnd.2 (fun y hy => hp y (List.mem_cons_of_mem _ hy))

/-- One line of the style check contains exactly one issue for a given
informal abbreviation when its whole-word pattern matches the lowered
line, and none otherwise: the category, flagged text and line number
isolate the conditional singleton of that abbreviation. -/
theorem bjStyleLine_informal_count (af : String × String) (haf : af ∈ bjInformalList)
    (n : Nat) (line : String) :
    (bjStyleLine n line).countP (fun i =>
      i.category == "Style Guide - Abbreviations" &&
        (i.flagged_text == af.1 && i.line_number == n)) =
    if reHas (informalRE af.1) (pyLower line) then 1 else 0 := by
  rw [bjStyleLine]
  simp only [List.countP_append]
  rw [countP_zero_of (L := bjWmoCapIssues n line) (fun i hi => by
    rw [bjWmoCapIssues] at hi
    rw [mem_ite_singleton hi]
    simp)]
  rw [countP_zero_of (L := bjLongSentenceIssues n line) (fun i hi => by
    rw [bjLongSentenceIssues] at hi
    rcases List.mem_flatMap.mp hi with ⟨s, _, hm⟩
    dsimp only at hm
    split at hm
    · simp at hm
    · split at hm
      · rw [List.mem_singleton.mp hm]
        simp
      · simp at hm)]
  rw [countP_zero_of (L := bjPassiveIssues n line) (fun i hi => by
    rw [bjPassiveIssues] at hi
    rcases hp : bjPassiveList.find? (fun ph => reHas (passiveRE ph) line) with _ | ph
    · rw [hp] at hi
      simp at hi
    · rw [hp] at hi
      rw [List.mem_singleton.mp hi]
      simp)]
  rw [countP_zero_of (L := bjItalicsIssues n line) (fun i hi => by
    rw [bjItalicsIssues] at hi
    rw [mem_ite_singleton hi]
    simp)]
  simp only [Nat.zero_add, Nat.add_zero]
  rw [bjInformalIssues]
  exact countP_flatMap_keyed
    (fun y : String × String => reHas (informalRE y.1) (pyLower line))
    (fun y : String × String =>
      ({ category := "Style Guide - Abbreviations", severity := .ERROR,
         message := "Avoid informal abbreviation " ++ q y.1 ++ " in formal content",
         suggestion := "Use " ++ q y.2 ++ " instead",
         line_number := n, context := "", flagged_text := y.1 } : ReviewIssue))
    (fun i => i.category == "Style Guide - Abbreviations" &&
      (i.flagged_text == af.1 && i.line_number == n))
    Prod.fst af bjInformalList haf (by decide) (fun y hy => by simp)

/-- Across the whole style check, a given informal abbreviation and a
given enumerated line yield exactly one issue when the pattern matches
that line and none otherwise. -/
theorem bjCheckStyle_informal_count (af : String × String) (haf : af ∈ bjInformalList)
    (lines : List String) (il : Nat × String) (hil : il ∈ enum1 lines) :
    (bjCheckStyle lines).countP (fun i =>
      i.category == "Style Guide - Abbreviations" &&
        (i.flagged_text == af.1 && i.line_number == il.1)) =
    if reHas (informalRE af.1) (pyLower il.2) then 1 else 0 := by
  have h0 : ∀ y ∈ enum1 lines, y ≠ il →
      (bjStyleLine y.1 y.2).countP (fun i =>
        i.category == "Style Guide - Abbreviations" &&
          (i.flagged_text == af.1 && i.line_number == il.1)) = 0 := by
    intro y hy hne
    refine countP_zero_of (fun i hi => ?_)
    have hln := (bjStyleLine_shape y.1 y.2 i hi).2.2.1
    have hy1 : y.1 ≠ il.1 := fun he => hne (enumFrom_inj 1 lines y il hy hil he)
    have hb : (i.line_number == il.1) = false := by
      cases hb2 : i.line_number == il.1
      · rfl
      · exact absurd (hln ▸ eq_of_beq hb2) hy1
    simp [hb]
  rw [bjCheckStyle]
  refine (countP_flatMap (fun i =>
      i.category == "Style Guide - Abbreviations" &&
        (i.flagged_text == af.1 && i.line_number == il.1))
      (fun jl => bjStyleLine jl.1 jl.2) (enum1 lines)).trans ?_
  refine (sum_map_single (enumFrom_nodup 1 lines) hil h0).trans ?_
  exact bjStyleLine_informal_count af haf il.1 il.2

/-- Across the wmo_content_reviewer terminology check, a given table
entry and a given enumerated line yield exactly one issue when the
pattern matches that lowered line and none otherwise. -/
theorem wcrCheckTerminology_count (pm : RE × String) (hpm : pm ∈ wcrCommonIssues)
    (lines : List String) (il : Nat × String) (hil : il ∈ enum1 lines) :
    (wcrCheckTerminology lines).countP (fun i =>
      i.category == "Terminology" && (i.message == pm.2 && i.line_number == il.1)) =
    if reHas pm.1 (pyLower il.2) then 1 else 0 := by
  have h0 : ∀ y ∈ enum1 lines, y ≠ il →
      (wcrTerminologyLine y.1 y.2).countP (fun i =>
        i.category == "Terminology" && (i.message == pm.2 && i.line_number == il.1)) = 0 := by
    intro y hy hne
    refine countP_zero_of (fun i hi => ?_)
    rw [wcrTerminologyLine] at hi
    rcases List.mem_flatMap.mp hi with ⟨pq, _, hm⟩
    rw [mem_ite_singleton hm]
    have hy1 : y.1 ≠ il.1 := fun he => hne (enumFrom_inj 1 lines y il hy hil he)
    have hb : (y.1 == il.1) = false := by
      cases hb2 : y.1 == il.1
      · rfl
      · exact absurd (eq_of_beq hb2) hy1
    simp [hb]
  rw [wcrCheckTerminology]
  refine (countP_flatMap (fun i =>
      i.category == "Terminology" && (i.message == pm.2 && i.line_number == il.1))
      (fun jl => wcrTerminologyLine jl.1 jl.2) (enum1 lines)).trans ?_
  refine (sum_map_single (enumFrom_nodup 1 lines) hil h0).trans ?_
  show (wcrTerminologyLine il.1 il.2).countP (fun i =>
      i.category == "Terminology" && (i.message == pm.2 && i.line_number == il.1)) =
    if reHas pm.1 (pyLower il.2) then 1 else 0
  rw [wcrTerminologyLine]
  exact countP_flatMap_keyed (fun y : RE × String => reHas y.1 (pyLower il.2))
    (fun y : RE × String =>
      ({ category := "Terminology", severity := .SUGGESTION, message := y.2,
         line_number := il.1, context := pyTake (pyStrip il.2) 100 } : WIssue))
    (fun i => i.category == "Terminology" && (i.message == pm.2 && i.line_number == il.1))
    Prod.snd pm wcrCommonIssues hpm (by decide) (fun y hy => by simp)

/-- Claim C6, counterexample: the informal-abbreviation checks use one
search per abbreviation per line, not one per occurrence: on the
one-line document with two whole-word occurrences of temp (the pattern
matcher finds two matches), the billie_jean review carries exactly one
issue flagging temp, not two, and the wmo_content_reviewer review
exactly one temp terminology message; moreover the wmo_content_reviewer
table has no pattern for info at all, so a line with a whole-word info
yields a billie_jean issue but zero Terminology issues there. -/
theorem C6_counterexample :
    ((reFindIter (informalRE "temp") (pyLower "temp temp")).length = 2) ∧
    ((bjReview ContentType.UNKNOWN "temp temp").1.countP (fun i =>
      i.category == "Style Guide - Abbreviations" && i.flagged_text == "temp") = 1) ∧
    ((wcrReview "temp temp").countP (fun i => i.category == "Terminology") = 1) ∧
    ((bjReview ContentType.UNKNOWN "some info here").1.countP (fun i =>
      i.category == "Style Guide - Abbreviations" && i.flagged_text == "info") = 1) ∧
    ((wcrReview "some info here").countP (fun i => i.category == "Terminology") = 0) := by
  refine ⟨by decide, ?_, by decide, ?_, by decide⟩
  · rw [bjReview, bjRawIssues_eval]
    decide
  · rw [bjReview, bjRawIssues_eval]
    decide

/-- Claim C6, amended: both informal-abbreviation checks flag at most
once per abbreviation per line: for every document, every entry of the
billie_jean informal table and every enumerated line, the review carries
exactly one Style-Guide-Abbreviations issue flagging that abbreviation
at that line number when the whole-word pattern matches the lowered
line, and none otherwise, independently of how many occurrences the line
holds; likewise for every entry of the wmo_content_reviewer COMMON_ISSUES
table (which covers temp, max and min but has no entry for info) the
review carries exactly one Terminology issue with that entry message at
that line number when the pattern matches the lowered line, and none
otherwise. -/
theorem C6_amended (ct : ContentType) (content : String) :
    (∀ af ∈ bjInformalList, ∀ il ∈ enum1 (pyLines content),
      (bjReview ct content).1.countP (fun i =>
        i.category == "Style Guide - Abbreviations" &&
          (i.flagged_text == af.1 && i.line_number == il.1)) =
        if reHas (informalRE af.1) (pyLower il.2) then 1 else 0) ∧
    (∀ pm ∈ wcrCommonIssues, ∀ il ∈ enum1 (pyLines content),
      (wcrReview content).countP (fun i =>
        i.category == "Terminology" && (i.message == pm.2 && i.line_number == il.1)) =
        if reHas pm.1 (pyLower il.2) then 1 else 0) := by
  constructor
  · intro af haf il hil
    have hperm := List.perm_insertionSort bjRel (bjRawIssues ct content)
    rw [show (bjReview ct content).1 =
        List.insertionSort bjRel (bjRawIssues ct content) from rfl,
      hperm.countP_eq, List.countP_eq_length_filter, bjRaw_abbrevcat_filter]
    rw [filter_nil_of (L := bjCheckAbbreviations (pyLines content)) (fun i hi => by
      have hft := (bjCheckAbbreviations_shape (pyLines content) i hi).2.2
      have hall : ∀ s ∈ bjAbbrevs.map Prod.fst, ∀ t ∈ bjInformalList.map Prod.fst,
          s ≠ t := by decide
      have hne2 : i.flagged_text ≠ af.1 :=
        hall _ hft _ (List.mem_map_of_mem Prod.fst haf)
      have hb : (i.flagged_text == af.1) = false := by
        cases hb2 : i.flagged_text == af.1
        · rfl
        · exact absurd (eq_of_beq hb2) hne2
      simp [hb])]
    rw [List.append_nil, ← List.countP_eq_length_filter]
    exact bjCheckStyle_informal_count af haf (pyLines content) il hil
  · intro pm hpm il hil
    have hperm := List.perm_insertionSort wcrRel (wcrRawIssues content)
    rw [show wcrReview content =
        List.insertionSort wcrRel (wcrRawIssues content) from rfl,
      hperm.countP_eq, List.countP_eq_length_filter, wcrRaw_term_filter,
      ← List.countP_eq_length_filter]
    exact wcrCheckTerminology_count pm hpm (pyLines content) il hil

/-- Claim C6, witness: on the one-line document with two whole-word
occurrences of temp, the pattern matches, both hypotheses hold at the
first table entries and the first line, and the amended counts apply. -/
theorem C6_witness :
    (reHas (informalRE "temp") (pyLower "temp temp") = true) ∧
    ((bjReview ContentType.UNKNOWN "temp temp").1.countP (fun i =>
      i.category == "Style Guide - Abbreviations" &&
        (i.flagged_text == "temp" && i.line_number == 1)) =
      if reHas (informalRE "temp") (pyLower "temp temp") then 1 else 0) ∧
    ((wcrReview "temp temp").countP (fun i =>
      i.category == "Terminology" &&
        (i.message == "Use " ++ q "temperature" ++ " instead of abbreviation " ++ q "temp" ++
          " in formal content" && i.line_number == 1)) =
      if reHas (rSeq [.wordB, reStr "temp", .wordB]) (pyLower "temp temp") then 1 else 0) := by
  refine ⟨by decide, (C6_amended ContentType.UNKNOWN "temp temp").1 ("temp", "temperature")
      (by decide) (1, "temp temp") (by decide), ?_⟩
  exact (C6_amended ContentType.UNKNOWN "temp temp").2
    (rSeq [.wordB, reStr "temp", .wordB],
      "Use " ++ q "temperature" ++ " instead of abbreviation " ++ q "temp" ++ " in formal content")
    (by simp [wcrCommonIssues]) (1, "temp temp") (by decide)

/-- Enumerated pairs carry elements of the underlying list. -/
theorem enumFrom_snd_mem {α : Type} :
    ∀ (n : Nat) (l : List α) (p : Nat × α), p ∈ enumFrom n l → p.2 ∈ l := by
  intro n l
  induction l generalizing n with
  | nil => intro p hp; simp [enumFrom] at hp
  | cons x t ih =>
    intro p hp
    rw [enumFrom] at hp
    rcases List.mem_cons.mp hp with h | h
    · rw [h]
      exact List.mem_cons_self _ _
    · exact List.mem_cons_of_mem _ (ih (n + 1) p h)

/-- Inserting an element makes it a member. -/
theorem pyInsert_contains_self (s : String) (d : List String) :
    (pyInsert s d).contains s = true := by
  rw [pyInsert]
  by_cases h : d.contains s = true
  · rw [if_pos h]
    exact h
  · rw [if_neg h]
    simp [List.contains_cons]

/-- Inserting an element leaves other memberships unchanged. -/
theorem pyInsert_contains_other {s a : String} (h : s ≠ a) (d : List String) :
    (pyInsert s d).contains a = d.contains a := by
  rw [pyInsert]
  by_cases hc : d.contains s = true
  · rw [if_pos hc]
  · rw [if_neg hc]
    rw [List.contains_cons]
    have hb : (a == s) = false := by
      cases hb2 : a == s
      · rfl
      · exact absurd (eq_of_beq hb2).symm h
    rw [hb, Bool.false_or]

/-- Inserting a different element preserves membership, in Prop form. -/
theorem pyInsert_mem_iff {s a : String} (h : s ≠ a) (d : List String) :
    a ∈ pyInsert s d ↔ a ∈ d := by
  rw [pyInsert]
  split
  · exact Iff.rfl
  · constructor
    · intro hm
      rcases List.mem_cons.mp hm with he | hm2
      · exact absurd he.symm h
      · exact hm2
    · exact List.mem_cons_of_mem s

/-- A true membership test gives list membership. -/
theorem contains_true_mem {a : String} {d : List String} (h : d.contains a = true) :
    a ∈ d :=
  List.elem_iff.mp h

/-- A false membership test refutes list membership. -/
theorem contains_false_not_mem {a : String} {d : List String}
    (h : d.contains a = false) : ¬ a ∈ d := by
  intro hm
  have h2 : d.contains a = true := List.elem_iff.mpr hm
  rw [h] at h2
  exact absurd h2 (by decide)

/-- In a table with duplicate-free keys, an entry is determined by its key. -/
theorem key_unique :
    ∀ {l : List (String × String)}, (l.map Prod.fst).Nodup →
      ∀ {a full : String}, (a, full) ∈ l → ∀ e ∈ l, e.1 = a → e = (a, full) := by
  intro l
  induction l with
  | nil => intro _ a full ha; exact absurd ha (List.not_mem_nil _)
  | cons x t ih =>
    intro hnd a full ha e he h1
    rw [List.map_cons, List.nodup_cons] at hnd
    rcases List.mem_cons.mp ha with hax | hax <;> rcases List.mem_cons.mp he with hex | hex
    · rw [hex, ← hax]
    · exfalso
      have hm : e.1 ∈ List.map Prod.fst t := List.mem_map_of_mem Prod.fst hex
      rw [h1] at hm
      refine hnd.1 ?_
      have hx1 : x.1 = a := by rw [← hax]
      rw [hx1]
      exact hm
    · exfalso
      have hm : a ∈ List.map Prod.fst t := List.mem_map_of_mem Prod.fst hax
      refine hnd.1 ?_
      rw [hex] at h1
      rw [h1]
      exact hm
    · exact ih hnd.2 hax e hex h1

/-- Membership in a cons list whose head has a different key. -/
theorem mem_cons_of_fst_ne {a full : String} {af : String × String} (h : af.1 ≠ a)
    (rest : List (String × String)) : ((a, full) ∈ af :: rest) ↔ ((a, full) ∈ rest) := by
  constructor
  · intro hm
    rcases List.mem_cons.mp hm with he | hm2
    · exact absurd (congrArg Prod.fst he).symm h
    · exact hm2
  · exact List.mem_cons_of_mem af

/-- Membership in a cons list with a different head. -/
theorem mem_cons_of_ne {a b : String} (h : b ≠ a) (rest : List String) :
    (a ∈ b :: rest) ↔ a ∈ rest := by
  constructor
  · intro hm
    rcases List.mem_cons.mp hm with he | hm2
    · exact absurd he.symm h
    · exact hm2
  · exact List.mem_cons_of_mem b

/-- One line of the billie_jean abbreviation check, filtered to a fixed
abbreviation that the line never defines: exactly one warning when the
table suffix carries the entry, the line contains the abbreviation and
the set does not yet, and no issue otherwise. -/
theorem bjAbbrevLineGo_filter (a full : String) (hwmo : a ≠ "WMO") (i : Nat) (line : String)
    (hnd : bjDefined a full line = false) :
    ∀ (as : List (String × String)) (d : List String),
      (∀ e ∈ as, e.1 = a → e = (a, full)) →
      (bjAbbrevLineGo i line as d).2.filter (fun iss =>
        iss.category == "Style Guide - Abbreviations" && iss.flagged_text == a) =
      if decide ((a, full) ∈ as) && containsSub line a && !(d.contains a)
      then [bjAbbrevWarnIssue a full i] else [] := by
  intro as
  induction as with
  | nil => intro d _; simp [bjAbbrevLineGo]
  | cons af rest ih =>
    intro d hkey
    have hkr : ∀ e ∈ rest, e.1 = a → e = (a, full) :=
      fun e he h1 => hkey e (List.mem_cons_of_mem _ he) h1
    by_cases hc1 : containsSub line af.1 = true
    · by_cases hdef : bjDefined af.1 af.2 line = true
      · have haf : af.1 ≠ a := by
          intro h
          have hafe := hkey af (List.mem_cons_self _ _) h
          rw [hafe] at hdef
          simp at hdef
          rw [hnd] at hdef
          exact absurd hdef (by decide)
        have hstep : bjAbbrevLineGo i line (af :: rest) d =
            bjAbbrevLineGo i line rest (pyInsert af.1 d) := by
          rw [bjAbbrevLineGo, if_pos hc1, if_pos hdef]
        rw [hstep, ih (pyInsert af.1 d) hkr]
        simp [pyInsert_contains_other haf, pyInsert_mem_iff haf, mem_cons_of_fst_ne haf rest]
      · by_cases hw : (!(d.contains af.1) && af.1 != "WMO") = true
        · have hstep : (bjAbbrevLineGo i line (af :: rest) d).2 =
              bjAbbrevWarnIssue af.1 af.2 i ::
                (bjAbbrevLineGo i line rest (pyInsert af.1 d)).2 := by
            rw [bjAbbrevLineGo, if_pos hc1, if_neg hdef, if_pos hw]
          rw [hstep, List.filter_cons, ih (pyInsert af.1 d) hkr]
          by_cases haf : af.1 = a
          · have hafe : af = (a, full) := hkey af (List.mem_cons_self _ _) haf
            have hda : d.contains a = false := by
              cases hb : d.contains a
              · rfl
              · rw [← haf] at hb
                rw [hb] at hw
                simp at hw
            have hdam : ¬ a ∈ d := contains_false_not_mem hda
            have hin : (pyInsert a d).contains a = true := pyInsert_contains_self a d
            have hinm : a ∈ pyInsert a d := contains_true_mem hin
            have hc1a : containsSub line a = true := by
              rw [← haf]
              exact hc1
            simp [hafe, bjAbbrevWarnIssue, hc1a, hda, hdam, hin, hinm, List.mem_cons]
          · have hb : (af.1 == a) = false := by
              cases hb2 : af.1 == a
              · rfl
              · exact absurd (eq_of_beq hb2) haf
            simp [bjAbbrevWarnIssue, hb, pyInsert_contains_other haf,
              pyInsert_mem_iff haf, mem_cons_of_fst_ne haf rest]
        · have hstep : bjAbbrevLineGo i line (af :: rest) d =
              bjAbbrevLineGo i line rest d := by
            rw [bjAbbrevLineGo, if_pos hc1, if_neg hdef, if_neg hw]
          rw [hstep, ih d hkr]
          by_cases haf : af.1 = a
          · have hda : d.contains a = true := by
              cases hb : d.contains af.1
              · exfalso
                refine hw ?_
                rw [hb, haf]
                simp [bne_iff_ne]
                exact hwmo
              · rw [← haf]
                exact hb
            have hdm2 : a ∈ d := contains_true_mem hda
            simp [hda, hdm2]
          · simp [mem_cons_of_fst_ne haf rest]
    · have hstep : bjAbbrevLineGo i line (af :: rest) d =
          bjAbbrevLineGo i line rest d := by
        rw [bjAbbrevLineGo, if_neg hc1]
      rw [hstep, ih d hkr]
      by_cases haf : af.1 = a
      · have hcs : containsSub line a = false := by
          cases hb : containsSub line af.1
          · rw [← haf]
            exact hb
          · exact absurd hb hc1
        simp [hcs]
      · simp [mem_cons_of_fst_ne haf rest]

/-- Membership of a fixed never-defined abbreviation in the set after one
line of the billie_jean check: it is added exactly when the line contains
it and the table suffix carries its entry. -/
theorem bjAbbrevLineGo_contains (a full : String) (hwmo : a ≠ "WMO") (i : Nat) (line : String)
    (hnd : bjDefined a full line = false) :
    ∀ (as : List (String × String)) (d : List String),
      (∀ e ∈ as, e.1 = a → e = (a, full)) →
      (bjAbbrevLineGo i line as d).1.contains a =
      (d.contains a || (decide ((a, full) ∈ as) && containsSub line a)) := by
  intro as
  induction as with
  | nil => intro d _; simp [bjAbbrevLineGo]
  | cons af rest ih =>
    intro d hkey
    have hkr : ∀ e ∈ rest, e.1 = a → e = (a, full) :=
      fun e he h1 => hkey e (List.mem_cons_of_mem _ he) h1
    by_cases hc1 : containsSub line af.1 = true
    · by_cases hdef : bjDefined af.1 af.2 line = true
      · have haf : af.1 ≠ a := by
          intro h
          have hafe := hkey af (List.mem_cons_self _ _) h
          rw [hafe] at hdef
          simp at hdef
          rw [hnd] at hdef
          exact absurd hdef (by decide)
        have hstep : bjAbbrevLineGo i line (af :: rest) d =
            bjAbbrevLineGo i line rest (pyInsert af.1 d) := by
          rw [bjAbbrevLineGo, if_pos hc1, if_pos hdef]
        rw [hstep, ih (pyInsert af.1 d) hkr]
        simp [pyInsert_contains_other haf, pyInsert_mem_iff haf, mem_cons_of_fst_ne haf rest]
      · by_cases hw : (!(d.contains af.1) && af.1 != "WMO") = true
        · have hstep : (bjAbbrevLineGo i line (af :: rest) d).1 =
              (bjAbbrevLineGo i line rest (pyInsert af.1 d)).1 := by
            rw [bjAbbrevLineGo, if_pos hc1, if_neg hdef, if_pos hw]
          rw [hstep, ih (pyInsert af.1 d) hkr]
          by_cases haf : af.1 = a
          · have hafe : af = (a, full) := hkey af (List.mem_cons_self _ _) haf
            have hin : (pyInsert a d).contains a = true := pyInsert_contains_self a d
            have hinm : a ∈ pyInsert a d := contains_true_mem hin
            have hc1a : containsSub line a = true := by
              rw [← haf]
              exact hc1
            simp [hafe, hin, hinm, hc1a, List.mem_cons]
          · simp [pyInsert_contains_other haf, pyInsert_mem_iff haf, mem_cons_of_fst_ne haf rest]
        · have hstep : bjAbbrevLineGo i line (af :: rest) d =
              bjAbbrevLineGo i line rest d := by
            rw [bjAbbrevLineGo, if_pos hc1, if_neg hdef, if_neg hw]
          rw [hstep, ih d hkr]
          by_cases haf : af.1 = a
          · have hda : d.contains a = true := by
              cases hb : d.contains af.1
              · exfalso
                refine hw ?_
                rw [hb, haf]
                simp [bne_iff_ne]
                exact hwmo
              · rw [← haf]
                exact hb
            have hdm2 : a ∈ d := contains_true_mem hda
            simp [hda, hdm2]
          · simp [mem_cons_of_fst_ne haf rest]
    · have hstep : bjAbbrevLineGo i line (af :: rest) d =
          bjAbbrevLineGo i line rest d := by
        rw [bjAbbrevLineGo, if_neg hc1]
      rw [hstep, ih d hkr]
      by_cases haf : af.1 = a
      · have hcs : containsSub line a = false := by
          cases hb : containsSub line af.1
          · rw [← haf]
            exact hb
          · exact absurd hb hc1
        simp [hcs]
      · simp [mem_cons_of_fst_ne haf rest]

/-- One line of the wmo_content_reviewer abbreviation check, filtered to
a fixed never-defined abbreviation by its warning message. -/
theorem wcrAbbrevLineGo_filter (a : String) (hwmo : a ≠ "WMO") (i : Nat) (line : String)
    (hnd : reHas (wcrDefRE a) line = false) :
    ∀ (as : List String) (d : List String),
      (∀ b ∈ as, b ≠ a → (wcrAbbrevMsg b == wcrAbbrevMsg a) = false) →
      (wcrAbbrevLineGo i line as d).2.filter (fun iss =>
        iss.category == "Abbreviations" && iss.message == wcrAbbrevMsg a) =
      if decide (a ∈ as) && containsSub line a && !(d.contains a)
      then [wcrAbbrevWarnIssue a i line] else [] := by
  intro as
  induction as with
  | nil => intro d _; simp [wcrAbbrevLineGo]
  | cons b rest ih =>
    intro d hmsg
    have hmr : ∀ x ∈ rest, x ≠ a → (wcrAbbrevMsg x == wcrAbbrevMsg a) = false :=
      fun x hx hne => hmsg x (List.mem_cons_of_mem _ hx) hne
    by_cases hc1 : containsSub line b = true
    · by_cases hdef : reHas (wcrDefRE b) line = true
      · have haf : b ≠ a := by
          intro h
          rw [h, hnd] at hdef
          exact absurd hdef (by decide)
        have hstep : wcrAbbrevLineGo i line (b :: rest) d =
            wcrAbbrevLineGo i line rest (pyInsert b d) := by
          rw [wcrAbbrevLineGo, if_pos hc1, if_pos hdef]
        rw [hstep, ih (pyInsert b d) hmr]
        simp [pyInsert_contains_other haf, pyInsert_mem_iff haf, mem_cons_of_ne haf rest]
      · by_cases hw : (!(d.contains b) && b != "WMO") = true
        · have hstep : (wcrAbbrevLineGo i line (b :: rest) d).2 =
              wcrAbbrevWarnIssue b i line ::
                (wcrAbbrevLineGo i line rest (pyInsert b d)).2 := by
            rw [wcrAbbrevLineGo, if_pos hc1, if_neg hdef, if_pos hw]
          rw [hstep, List.filter_cons, ih (pyInsert b d) hmr]
          by_cases haf : b = a
          · subst haf
            have hda : d.contains b = false := by
              cases hb : d.contains b
              · rfl
              · rw [hb] at hw
                simp at hw
            have hdam : ¬ b ∈ d := contains_false_not_mem hda
            have hin : (pyInsert b d).contains b = true := pyInsert_contains_self b d
            have hinm : b ∈ pyInsert b d := contains_true_mem hin
            simp [wcrAbbrevWarnIssue, hc1, hda, hdam, hin, hinm, List.mem_cons]
          · have hbeq : (wcrAbbrevMsg b == wcrAbbrevMsg a) = false :=
              hmsg b (List.mem_cons_self _ _) haf
            simp [wcrAbbrevWarnIssue, hbeq, pyInsert_contains_other haf,
              pyInsert_mem_iff haf, mem_cons_of_ne haf rest]
        · have hstep : wcrAbbrevLineGo i line (b :: rest) d =
              wcrAbbrevLineGo i line rest d := by
            rw [wcrAbbrevLineGo, if_pos hc1, if_neg hdef, if_neg hw]
          rw [hstep, ih d hmr]
          by_cases haf : b = a
          · subst haf
            have hda : d.contains b = true := by
              cases hb : d.contains b
              · exfalso
                refine hw ?_
                rw [hb]
                simp [bne_iff_ne]
                exact hwmo
              · rfl
            have hdm2 : b ∈ d := contains_true_mem hda
            simp [hda, hdm2]
          · simp [mem_cons_of_ne haf rest]
    · have hstep : wcrAbbrevLineGo i line (b :: rest) d =
          wcrAbbrevLineGo i line rest d := by
        rw [wcrAbbrevLineGo, if_neg hc1]
      rw [hstep, ih d hmr]
      by_cases haf : b = a
      · subst haf
        have hcs : containsSub line b = false := by
          cases hb : containsSub line b
          · rfl
          · exact absurd hb hc1
        simp [hcs]
      · simp [mem_cons_of_ne haf rest]

/-- Membership of a fixed never-defined abbreviation in the set after one
line of the wmo_content_reviewer check. -/
theorem wcrAbbrevLineGo_contains (a : String) (hwmo : a ≠ "WMO") (i : Nat) (line : String)
    (hnd : reHas (wcrDefRE a) line = false) :
    ∀ (as : List String) (d : List String),
      (wcrAbbrevLineGo i line as d).1.contains a =
      (d.contains a || (decide (a ∈ as) && containsSub line a)) := by
  intro as
  induction as with
  | nil => intro d; simp [wcrAbbrevLineGo]
  | cons b rest ih =>
    intro d
    by_cases hc1 : containsSub line b = true
    · by_cases hdef : reHas (wcrDefRE b) line = true
      · have haf : b ≠ a := by
          intro h
          rw [h, hnd] at hdef
          exact absurd hdef (by decide)
        have hstep : wcrAbbrevLineGo i line (b :: rest) d =
            wcrAbbrevLineGo i line rest (pyInsert b d) := by
          rw [wcrAbbrevLineGo, if_pos hc1, if_pos hdef]
        rw [hstep, ih (pyInsert b d)]
        simp [pyInsert_contains_other haf, pyInsert_mem_iff haf, mem_cons_of_ne haf rest]
      · by_cases hw : (!(d.contains b) && b != "WMO") = true
        · have hstep : (wcrAbbrevLineGo i line (b :: rest) d).1 =
              (wcrAbbrevLineGo i line rest (pyInsert b d)).1 := by
            rw [wcrAbbrevLineGo, if_pos hc1, if_neg hdef, if_pos hw]
          rw [hstep, ih (pyInsert b d)]
          by_cases haf : b = a
          · subst haf
            have hin : (pyInsert b d).contains b = true := pyInsert_contains_self b d
            have hinm : b ∈ pyInsert b d := contains_true_mem hin
            simp [hin, hinm, hc1, List.mem_cons]
          · simp [pyInsert_contains_other haf, pyInsert_mem_iff haf, mem_cons_of_ne haf rest]
        · have hstep : wcrAbbrevLineGo i line (b :: rest) d =
              wcrAbbrevLineGo i line rest d := by
            rw [wcrAbbrevLineGo, if_pos hc1, if_neg hdef, if_neg hw]
          rw [hstep, ih d]
          by_cases haf : b = a
          · subst haf
            have hda : d.contains b = true := by
              cases hb : d.contains b
              · exfalso
                refine hw ?_
                rw [hb]
                simp [bne_iff_ne]
                exact hwmo
              · rfl
            have hdm2 : b ∈ d := contains_true_mem hda
            simp [hda, hdm2]
          · simp [mem_cons_of_ne haf rest]
    · have hstep : wcrAbbrevLineGo i line (b :: rest) d =
          wcrAbbrevLineGo i line rest d := by
        rw [wcrAbbrevLineGo, if_neg hc1]
      rw [hstep, ih d]
      by_cases haf : b = a
      · subst haf
        have hcs : containsSub line b = false := by
          cases hb : containsSub line b
          · rfl
          · exact absurd hb hc1
        simp [hcs]
      · simp [mem_cons_of_ne haf rest]

/-- Across the lines of the billie_jean abbreviation check, a
never-defined abbreviation yields exactly one warning, at the first line
that contains it, and is warned at most once per pass. -/
theorem bjAbbrevGo_filter (a full : String) (hwmo : a ≠ "WMO")
    (hkey : ∀ e ∈ bjAbbrevs, e.1 = a → e = (a, full)) (hmem : (a, full) ∈ bjAbbrevs) :
    ∀ (ils : List (Nat × String)) (d : List String),
      (∀ il ∈ ils, bjDefined a full il.2 = false) →
      (bjAbbrevGo ils d).2.filter (fun iss =>
        iss.category == "Style Guide - Abbreviations" && iss.flagged_text == a) =
      (if d.contains a = true then []
       else match ils.find? (fun il => containsSub il.2 a) with
         | some il0 => [bjAbbrevWarnIssue a full il0.1]
         | none => []) := by
  intro ils
  induction ils with
  | nil =>
    intro d _
    simp [bjAbbrevGo]
  | cons il rest ih =>
    intro d hlines
    have hl1 : bjDefined a full il.2 = false := hlines il (List.mem_cons_self _ _)
    have hlr : ∀ jl ∈ rest, bjDefined a full jl.2 = false :=
      fun jl hj => hlines jl (List.mem_cons_of_mem _ hj)
    have hstep : (bjAbbrevGo (il :: rest) d).2 =
        (bjAbbrevLineGo il.1 il.2 bjAbbrevs d).2 ++
          (bjAbbrevGo rest (bjAbbrevLineGo il.1 il.2 bjAbbrevs d).1).2 := by
      rw [bjAbbrevGo]
    rw [hstep, List.filter_append,
      bjAbbrevLineGo_filter a full hwmo il.1 il.2 hl1 bjAbbrevs d hkey,
      ih (bjAbbrevLineGo il.1 il.2 bjAbbrevs d).1 hlr]
    by_cases hd : d.contains a = true
    · have hdm2 : a ∈ d := contains_true_mem hd
      have hsm : a ∈ (bjAbbrevLineGo il.1 il.2 bjAbbrevs d).1 := contains_true_mem (by
        rw [bjAbbrevLineGo_contains a full hwmo il.1 il.2 hl1 bjAbbrevs d hkey]
        simp [hdm2])
      simp [hd, hdm2, hmem, hsm]
    · have hdf : d.contains a = false := by
        cases hb : d.contains a
        · rfl
        · exact absurd hb hd
      have hdam : ¬ a ∈ d := contains_false_not_mem hdf
      by_cases hocc : containsSub il.2 a = true
      · have hfind : (il :: rest).find? (fun jl => containsSub jl.2 a) = some il :=
          List.find?_cons_of_pos _ hocc
        have hsm : a ∈ (bjAbbrevLineGo il.1 il.2 bjAbbrevs d).1 := contains_true_mem (by
          rw [bjAbbrevLineGo_contains a full hwmo il.1 il.2 hl1 bjAbbrevs d hkey]
          simp [hdf, hocc, hmem])
        simp [hdf, hdam, hmem, hocc, hfind, hsm]
      · have hocf : containsSub il.2 a = false := by
          cases hb : containsSub il.2 a
          · rfl
          · exact absurd hb hocc
        have hfind : (il :: rest).find? (fun jl => containsSub jl.2 a) =
            rest.find? (fun jl => containsSub jl.2 a) :=
          List.find?_cons_of_neg _ hocc
        have hsm : ¬ a ∈ (bjAbbrevLineGo il.1 il.2 bjAbbrevs d).1 := contains_false_not_mem (by
          rw [bjAbbrevLineGo_contains a full hwmo il.1 il.2 hl1 bjAbbrevs d hkey]
          simp [hdam, hocf])
        simp [hdf, hdam, hmem, hocf, hfind, hsm]

/-- Across the lines of the wmo_content_reviewer abbreviation check, a
never-defined abbreviation yields exactly one warning, at the first line
that contains it. -/
theorem wcrAbbrevGo_filter (a : String) (hwmo : a ≠ "WMO") (hmem : a ∈ wcrAbbrevs)
    (hmsg : ∀ b ∈ wcrAbbrevs, b ≠ a → (wcrAbbrevMsg b == wcrAbbrevMsg a) = false) :
    ∀ (ils : List (Nat × String)) (d : List String),
      (∀ il ∈ ils, reHas (wcrDefRE a) il.2 = false) →
      (wcrAbbrevGo ils d).2.filter (fun iss =>
        iss.category == "Abbreviations" && iss.message == wcrAbbrevMsg a) =
      (if d.contains a = true then []
       else match ils.find? (fun il => containsSub il.2 a) with
         | some il0 => [wcrAbbrevWarnIssue a il0.1 il0.2]
         | none => []) := by
  intro ils
  induction ils with
  | nil =>
    intro d _
    simp [wcrAbbrevGo]
  | cons il rest ih =>
    intro d hlines
    have hl1 : reHas (wcrDefRE a) il.2 = false := hlines il (List.mem_cons_self _ _)
    have hlr : ∀ jl ∈ rest, reHas (wcrDefRE a) jl.2 = false :=
      fun jl hj => hlines jl (List.mem_cons_of_mem _ hj)
    have hstep : (wcrAbbrevGo (il :: rest) d).2 =
        (wcrAbbrevLineGo il.1 il.2 wcrAbbrevs d).2 ++
          (wcrAbbrevGo rest (wcrAbbrevLineGo il.1 il.2 wcrAbbrevs d).1).2 := by
      rw [wcrAbbrevGo]
    rw [hstep, List.filter_append,
      wcrAbbrevLineGo_filter a hwmo il.1 il.2 hl1 wcrAbbrevs d hmsg,
      ih (wcrAbbrevLineGo il.1 il.2 wcrAbbrevs d).1 hlr]
    by_cases hd : d.contains a = true
    · have hdm2 : a ∈ d := contains_true_mem hd
      have hsm : a ∈ (wcrAbbrevLineGo il.1 il.2 wcrAbbrevs d).1 := contains_true_mem (by
        rw [wcrAbbrevLineGo_contains a hwmo il.1 il.2 hl1 wcrAbbrevs d]
        simp [hdm2])
      simp [hd, hdm2, hmem, hsm]
    · have hdf : d.contains a = false := by
        cases hb : d.contains a
        · rfl
        · exact absurd hb hd
      have hdam : ¬ a ∈ d := contains_false_not_mem hdf
      by_cases hocc : containsSub il.2 a = true
      · have hfind : (il :: rest).find? (fun jl => containsSub jl.2 a) = some il :=
          List.find?_cons_of_pos _ hocc
        have hsm : a ∈ (wcrAbbrevLineGo il.1 il.2 wcrAbbrevs d).1 := contains_true_mem (by
          rw [wcrAbbrevLineGo_contains a hwmo il.1 il.2 hl1 wcrAbbrevs d]
          simp [hdf, hocc, hmem])
        simp [hdf, hdam, hmem, hocc, hfind, hsm]
      · have hocf : containsSub il.2 a = false := by
          cases hb : containsSub il.2 a
          · rfl
          · exact absurd hb hocc
        have hfind : (il :: rest).find? (fun jl => containsSub jl.2 a) =
            rest.find? (fun jl => containsSub jl.2 a) :=
          List.find?_cons_of_neg _ hocc
        have hsm : ¬ a ∈ (wcrAbbrevLineGo il.1 il.2 wcrAbbrevs d).1 := contains_false_not_mem (by
          rw [wcrAbbrevLineGo_contains a hwmo il.1 il.2 hl1 wcrAbbrevs d]
          simp [hdam, hocf])
        simp [hdf, hdam, hmem, hocf, hfind, hsm]

/-- Claim C4: an abbreviation of the fixed table, other than WMO, that is
never defined by the accepted parenthetical patterns on any line yields
exactly one WARNING per review, attached to the first line containing
it: the review output filtered to that abbreviation is the single
not-defined warning of the first containing line, for both reviewers
(the wmo_content_reviewer issue is identified by its message since its
Issue type has no flagged text). -/
theorem C4_thm (ct : ContentType) (content : String) (a full : String) :
    ((a, full) ∈ bjAbbrevs → a ≠ "WMO" →
      (∀ l ∈ pyLines content, bjDefined a full l = false) →
      ∀ il0 : Nat × String,
        (enum1 (pyLines content)).find? (fun il => containsSub il.2 a) = some il0 →
        (bjReview ct content).1.filter (fun iss =>
          iss.category == "Style Guide - Abbreviations" && iss.flagged_text == a) =
          [bjAbbrevWarnIssue a full il0.1]) ∧
    (a ∈ wcrAbbrevs → a ≠ "WMO" →
      (∀ l ∈ pyLines content, reHas (wcrDefRE a) l = false) →
      ∀ il0 : Nat × String,
        (enum1 (pyLines content)).find? (fun il => containsSub il.2 a) = some il0 →
        (wcrReview content).filter (fun iss =>
          iss.category == "Abbreviations" && iss.message == wcrAbbrevMsg a) =
          [wcrAbbrevWarnIssue a il0.1 il0.2]) := by
  constructor
  · intro hmem hwmo hndef il0 hfind
    have hperm := List.perm_insertionSort bjRel (bjRawIssues ct content)
    refine List.perm_singleton.mp ?_
    have hfil : (bjRawIssues ct content).filter (fun iss =>
        iss.category == "Style Guide - Abbreviations" && iss.flagged_text == a) =
        [bjAbbrevWarnIssue a full il0.1] := by
      rw [bjRaw_abbrevcat_filter]
      rw [filter_nil_of (L := bjCheckStyle (pyLines content)) (fun i hi => by
        have hsh := bjCheckStyle_shape (pyLines content) i hi
        by_cases hc : i.category = "Style Guide - Abbreviations"
        · have hf := hsh.2.2 hc
          have hall : ∀ s ∈ (["temp", "max", "min", "info"] : List String),
              ∀ t ∈ bjAbbrevs.map Prod.fst, s ≠ t := by decide
          have hne2 : i.flagged_text ≠ a :=
            hall _ hf _ (List.mem_map_of_mem Prod.fst hmem)
          have hb : (i.flagged_text == a) = false := by
            cases hb2 : i.flagged_text == a
            · rfl
            · exact absurd (eq_of_beq hb2) hne2
          simp [hb]
        · have hb : (i.category == "Style Guide - Abbreviations") = false := by
            cases hb2 : i.category == "Style Guide - Abbreviations"
            · rfl
            · exact absurd (eq_of_beq hb2) hc
          simp [hb])]
      rw [List.nil_append, bjCheckAbbreviations]
      have hkey : ∀ e ∈ bjAbbrevs, e.1 = a → e = (a, full) :=
        key_unique (by decide) hmem
      have hlines : ∀ il ∈ enum1 (pyLines content), bjDefined a full il.2 = false :=
        fun il hil => hndef il.2 (enumFrom_snd_mem 1 _ il hil)
      rw [bjAbbrevGo_filter a full hwmo hkey hmem (enum1 (pyLines content)) [] hlines,
        hfind]
      rfl
    rw [← hfil]
    exact hperm.filter _
  · intro hmem hwmo hndef il0 hfind
    have hperm := List.perm_insertionSort wcrRel (wcrRawIssues content)
    refine List.perm_singleton.mp ?_
    have hfil : (wcrRawIssues content).filter (fun iss =>
        iss.category == "Abbreviations" && iss.message == wcrAbbrevMsg a) =
        [wcrAbbrevWarnIssue a il0.1 il0.2] := by
      rw [wcrRaw_abbrev_filter, wcrCheckAbbreviations]
      have hdist : ∀ x ∈ wcrAbbrevs, ∀ y ∈ wcrAbbrevs, x ≠ y →
          (wcrAbbrevMsg x == wcrAbbrevMsg y) = false := by decide
      have hmsg : ∀ b ∈ wcrAbbrevs, b ≠ a → (wcrAbbrevMsg b == wcrAbbrevMsg a) = false :=
        fun b hb hne => hdist b hb a hmem hne
      have hlines : ∀ il ∈ enum1 (pyLines content), reHas (wcrDefRE a) il.2 = false :=
        fun il hil => hndef il.2 (enumFrom_snd_mem 1 _ il hil)
      rw [wcrAbbrevGo_filter a hwmo hmem hmsg (enum1 (pyLines content)) [] hlines, hfind]
      rfl
    rw [← hfil]
    exact hperm.filter _

/-- Claim C4, witness: GCOS occurs on three lines of the three-line
document and is never defined, and each review carries exactly the one
warning of line 1. -/
theorem C4_witness :
    ((bjReview ContentType.UNKNOWN "GCOS one\nGCOS two\nGCOS three").1.filter (fun iss =>
      iss.category == "Style Guide - Abbreviations" && iss.flagged_text == "GCOS") =
      [bjAbbrevWarnIssue "GCOS" "Global Climate Observing System" 1]) ∧
    ((wcrReview "GCOS one\nGCOS two\nGCOS three").filter (fun iss =>
      iss.category == "Abbreviations" && iss.message == wcrAbbrevMsg "GCOS") =
      [wcrAbbrevWarnIssue "GCOS" 1 "GCOS one"]) := by
  refine ⟨(C4_thm ContentType.UNKNOWN "GCOS one\nGCOS two\nGCOS three" "GCOS"
      "Global Climate Observing System").1 (by decide) (by decide) (by decide)
      (1, "GCOS one") (by decide),
    (C4_thm ContentType.UNKNOWN "GCOS one\nGCOS two\nGCOS three" "GCOS"
      "Global Climate Observing System").2 (by decide) (by decide) (by decide)
      (1, "GCOS one") (by decide)⟩

/-- Claim C10: the strategic-alignment coverage is twenty times the count
of true pillar flags, and is therefore always one of the six values 0,
20, 40, 60, 80, 100. -/
theorem C10_thm (sa : StrategicAlignment) :
    sa.get_coverage = 20 * (sa.covered : Rat) ∧
    (sa.get_coverage = 0 ∨ sa.get_coverage = 20 ∨ sa.get_coverage = 40 ∨
     sa.get_coverage = 60 ∨ sa.get_coverage = 80 ∨ sa.get_coverage = 100) := by
  constructor
  · rw [StrategicAlignment.get_coverage]
    ring
  · obtain ⟨a, b, c, d, e⟩ := sa
    rcases a <;> rcases b <;> rcases c <;> rcases d <;> rcases e <;>
      norm_num [StrategicAlignment.get_coverage, StrategicAlignment.covered]

end WMO
